import Mathlib

/-!
# Elementum playback engine: episode matching, resume policy, teardown, readiness, rate limits

A shallow embedding of the parts of `bittorrent/player.go` that decide the
properties below, followed by the theorems about them.

Conventions of the embedding:

* Go `int` values are `Int`; `int64` additions that can wrap are reduced with `wrap64`.
* A Go `string` holding a file name is a Lean `String`, read as its list of runes.
* `regexp` is the Go standard library.  The three constructs the episode patterns use
  (alternation, optional items, a starred single character) are interpreted by a small
  search procedure, `Re.MatchString`, that follows Go's unanchored `MatchString`.
* Pointers that may be `nil` are `Option`s.
* `float64` times and percentages are rationals holding the exact value of a finite float.  They
  are stored and compared; the one computation on them, the progress in `updateWatchTimes`,
  rounds each operation to the nearest `float64` (`f64div`, `f64mul`).
* Calls to collaborators (cache, engine service, file system) are recorded as lists of requests
  next to the state they leave.
-/

namespace Elementum

/-! ## Regular expressions used by the episode patterns -/

/-- Regular expressions, restricted to the operators that occur in
`episodeMatchRegex` and `singleEpisodeMatchRegex`. -/
inductive Re where
  | eps : Re
  | bol : Re
  | cls : (Char → Bool) → Re
  | seq : Re → Re → Re
  | alt : Re → Re → Re
  | opt : Re → Re
  | starCls : (Char → Bool) → Re

/-- A position of the search: whether it is the beginning of the text, and the rest of the text. -/
abbrev Pos := Bool × List Char

/-- All positions reachable by skipping zero or more characters of class `p`. -/
def starSuffixes (p : Char → Bool) : Bool → List Char → List Pos
  | b, [] => [(b, [])]
  | b, c :: cs => if p c then (b, c :: cs) :: starSuffixes p false cs else [(b, c :: cs)]

/-- All positions at which a match of the expression that starts at the given position can end. -/
def Re.run : Re → Pos → List Pos
  | .eps, st => [st]
  | .bol, st => if st.1 then [st] else []
  | .cls p, st =>
      match st.2 with
      | [] => []
      | c :: cs => if p c then [(false, cs)] else []
  | .seq r1 r2, st => (Re.run r1 st).flatMap (fun st1 => Re.run r2 st1)
  | .alt r1 r2, st => Re.run r1 st ++ Re.run r2 st
  | .opt r, st => Re.run r st ++ [st]
  | .starCls p, st => starSuffixes p st.1 st.2

/-- Unanchored search: is there a start position from which the expression matches. -/
def Re.searchFrom (re : Re) : Bool → List Char → Bool
  | b, [] => !(Re.run re (b, [])).isEmpty
  | b, c :: cs => !(Re.run re (b, c :: cs)).isEmpty || Re.searchFrom re false cs

/-- Go's `(*Regexp).MatchString`. -/
def Re.MatchString (re : Re) (s : String) : Bool :=
  Re.searchFrom re true s.toList

/-- The literal text `cs`, character by character. -/
def Re.str : List Char → Re
  | [] => .eps
  | c :: cs => .seq (.cls (fun x => x == c)) (Re.str cs)

/-- The class `[0-9]`. -/
def isDigit (c : Char) : Bool := decide (48 ≤ c.toNat) && decide (c.toNat ≤ 57)

/-- The class `\w` under the `(?i)` flag: `[0-9A-Za-z_]` closed under simple case folding, which
adds U+017F (long s) and U+212A (Kelvin sign). -/
def isWordFold (c : Char) : Bool :=
  isDigit c || (decide (65 ≤ c.toNat) && decide (c.toNat ≤ 90))
    || (decide (97 ≤ c.toNat) && decide (c.toNat ≤ 122))
    || c == '_' || c.toNat == 0x17F || c.toNat == 0x212A

/-- The class `\W` under `(?i)`. -/
def isNotWord (c : Char) : Bool := !isWordFold c

/-- The class `\D`. -/
def isNotDigit (c : Char) : Bool := !isDigit c

/-- The literal `S` under `(?i)`: its folding orbit is S, s and U+017F. -/
def isS (c : Char) : Bool := c == 'S' || c == 's' || c.toNat == 0x17F

/-- The literal `E` under `(?i)`. -/
def isE (c : Char) : Bool := c == 'E' || c == 'e'

/-- The literal `p` under `(?i)`. -/
def isP (c : Char) : Bool := c == 'p' || c == 'P'

/-- The class `[x\W]` under `(?i)`. -/
def isXOrNotWord (c : Char) : Bool := c == 'x' || c == 'X' || isNotWord c

/-- The verb `%d` of `fmt.Sprintf` applied to an `int`. -/
def fmtInt : Int → List Char
  | .ofNat n => Nat.toDigits 10 n
  | .negSucc n => '-' :: Nat.toDigits 10 (n + 1)

/-- The item `0*n` of the patterns: any number of zeros, then the decimal text of `n`. -/
def zerosThen (n : Int) : Re := .seq (.starCls (fun c => c == '0')) (Re.str (fmtInt n))

/-- The constant `episodeMatchRegex`, instantiated by `fmt.Sprintf` with season `s` and episode `e`:
`(?i)(^|\W|_|\w)(S0*s[x\W]?E?p?0*e|0*s[x\W]0*e|\W0*s\D{1,5}0*e)(\W|_|\D)`. -/
def episodeMatchRegex (s e : Int) : Re :=
  let g1 : Re := .alt .bol (.alt (.cls isNotWord) (.alt (.cls (fun c => c == '_')) (.cls isWordFold)))
  let a : Re :=
    .seq (.cls isS) (.seq (zerosThen s) (.seq (.opt (.cls isXOrNotWord))
      (.seq (.opt (.cls isE)) (.seq (.opt (.cls isP)) (zerosThen e)))))
  let b : Re := .seq (zerosThen s) (.seq (.cls isXOrNotWord) (zerosThen e))
  let d15 : Re :=
    .seq (.cls isNotDigit) (.opt (.seq (.cls isNotDigit) (.opt (.seq (.cls isNotDigit)
      (.opt (.seq (.cls isNotDigit) (.opt (.cls isNotDigit))))))))
  let c : Re := .seq (.cls isNotWord) (.seq (zerosThen s) (.seq d15 (zerosThen e)))
  let g3 : Re := .alt (.cls isNotWord) (.alt (.cls (fun c => c == '_')) (.cls isNotDigit))
  .seq g1 (.seq (.alt a (.alt b c)) g3)

/-- The constant `singleEpisodeMatchRegex`, instantiated with the number `n`:
`(?i)(^|\W|_)(Ep?0*n|0*n)(\W|_)`. -/
def singleEpisodeMatchRegex (n : Int) : Re :=
  let g1 : Re := .alt .bol (.alt (.cls isNotWord) (.cls (fun c => c == '_')))
  let a : Re := .seq (.cls isE) (.seq (.opt (.cls isP)) (zerosThen n))
  let g3 : Re := .alt (.cls isNotWord) (.cls (fun c => c == '_'))
  .seq g1 (.seq (.alt a (zerosThen n)) g3)

/-! ## Candidate files and episode matching -/

/-- The struct `CandidateFile`. -/
structure CandidateFile where
  Index : Int
  Filename : String
  DisplayName : String
  Path : String
  Size : Int

/-- The two methods of `tmdb.Show` that `MatchEpisodeFilename` calls; the package `tmdb` is a
collaborator, so they are parameters: `IsAnime` and the absolute number returned first by
`ShowInfoWithTVDBShow`. -/
structure ShowApi (Show Episode TvdbShow : Type) where
  IsAnime : Show → Bool
  ShowInfoWithTVDBShow : Show → Episode → Option TvdbShow → Int

/-- One `for i, choice := range choices` loop of `MatchEpisodeFilename`: every choice whose
`Filename` matches sets `index` to its position and increments `found`. -/
def scanChoices (re : Re) : List CandidateFile → Nat → Int × Int → Int × Int
  | [], _, acc => acc
  | c :: cs, i, acc =>
      if re.MatchString c.Filename then scanChoices re cs (i + 1) ((i : Int), acc.2 + 1)
      else scanChoices re cs (i + 1) acc

/-- The function `MatchEpisodeFilename`; the result is the pair `(index, found)`. -/
def MatchEpisodeFilename {Show Episode TvdbShow : Type} (api : ShowApi Show Episode TvdbShow)
    (s e : Int) (isSingleSeason : Bool) (activeSeason : Int) (show_ : Option Show)
    (episode : Option Episode) (tvdbShow : Option TvdbShow) (choices : List CandidateFile) :
    Int × Int :=
  let r1 := scanChoices (episodeMatchRegex s e) choices 0 (-1, 0)
  let r2 :=
    if isSingleSeason && r1.2 == 0 then scanChoices (singleEpisodeMatchRegex e) choices 0 r1
    else r1
  let r3 :=
    match show_, episode with
    | some sh, some ep =>
        if r2.2 == 0 && api.IsAnime sh then
          let an := api.ShowInfoWithTVDBShow sh ep tvdbShow
          if an != 0 then scanChoices (singleEpisodeMatchRegex an) choices 0 r2 else r2
        else r2
    | _, _ => r2
  let r4 :=
    if r3.2 == 0 && activeSeason == s then scanChoices (singleEpisodeMatchRegex e) choices 0 r3
    else r3
  r4

/-- Whether a candidate's `Filename` matches the exact season/episode pattern. -/
def exactMatch (s e : Int) (c : CandidateFile) : Bool :=
  (episodeMatchRegex s e).MatchString c.Filename

/-- A candidate with the given file name at the given torrent index. -/
def mkCandidate (i : Int) (name : String) : CandidateFile :=
  { Index := i, Filename := name, DisplayName := name, Path := name, Size := 0 }

/-- The three files of the end-to-end scenario. -/
def threeEpisodes : List CandidateFile :=
  [mkCandidate 0 "Show.S01E01.mkv", mkCandidate 1 "Show.S01E02.mkv", mkCandidate 2 "Show.S01E03.mkv"]

/-- A show API over trivial metadata, for the concrete scenarios. -/
def unitApi : ShowApi Unit Unit Unit :=
  { IsAnime := fun _ => false, ShowInfoWithTVDBShow := fun _ _ _ => 0 }

/-! ## Configuration, resume records and the cache -/

/-- The configuration values read by the functions below (`config.Get()` and the service's
`config`); `PlaybackPercent`, `DownloadRateLimit` and `UploadRateLimit` are Go `int`s. -/
structure Config where
  PlaybackPercent : Int
  OSDBAutoLoadDelete : Bool
  LimitAfterBuffering : Bool
  DownloadRateLimit : Int
  UploadRateLimit : Int
  PlayResumeAction : Int
  SilentStreamStart : Bool
  SmartEpisodeStart : Bool
  ShowFilesWatched : Bool
  EndBufferSize : Int
  DownloadPath : String

/-- Modelled from the spec: the struct `uid.Resume` belongs to the package `library/uid`; it is
the resume record with its position and total duration in seconds.  The `float64` values are
modelled by rationals (finite values, stored and compared only). -/
structure Resume where
  Position : ℚ
  Total : ℚ
deriving DecidableEq

/-- The zero value `uid.Resume{}`. -/
def Resume.zero : Resume := { Position := 0, Total := 0 }

/-- A call made to the key-value cache. -/
inductive CacheCall where
  | Get (key : String)
  | Delete (key : String)
  | Set (ttl : Nat) (key : String) (value : Resume)
deriving DecidableEq

/-- Modelled from the spec: the key-value cache `database.GetCache()` restricted to the common
bucket, as a map from keys to records together with the calls made so far.  Expiration is not
modelled: a record is readable until it is deleted or overwritten. -/
structure Db where
  store : String → Option Resume
  calls : List CacheCall

/-- Modelled from the spec: `Delete(bucket, key)` removes the record under the key. -/
def Db.Delete (db : Db) (key : String) : Db :=
  { store := fun k => if k = key then none else db.store k,
    calls := db.calls ++ [CacheCall.Delete key] }

/-- Modelled from the spec: `SetCachedObject(bucket, ttl, key, value)` upserts the record. -/
def Db.SetCachedObject (db : Db) (ttl : Nat) (key : String) (value : Resume) : Db :=
  { store := fun k => if k = key then some value else db.store k,
    calls := db.calls ++ [CacheCall.Set ttl key value] }

/-- Modelled from the spec: `GetCachedObject(bucket, key, &item)` fills the item with the record
under the key and leaves it as it was when there is none. -/
def Db.GetCachedObject (db : Db) (key : String) (item : Resume) : Resume × Db :=
  ((db.store key).getD item, { db with calls := db.calls ++ [CacheCall.Get key] })

/-! ## Player state -/

/-- The struct `PlayerParams`, with the fields the functions below read or write. -/
structure PlayerParams where
  Playing : Bool
  Paused : Bool
  Seeked : Bool
  WasPlaying : Bool
  Background : Bool
  WatchedProgress : ℚ
  WatchedTime : ℚ
  VideoDuration : ℚ
  ResumeToken : String
  ShowID : Int
  Season : Int
  Episode : Int
  Query : String
  UpNextSent : Bool
  StoredResume : Option Resume
  Resume : Option Resume
  ResumePlayback : Int
  ResumeHash : String
  ContentType : String
  AbsoluteNumber : Int
  FileIndex : Int
  NextFileIndex : Int
  NextOriginalIndex : Int
  URI : String
deriving DecidableEq

/-- The fields of the struct `File` (declared in another file of the package) that the player
reads. -/
structure File where
  Index : Int
  Path : String
  Name : String
  Size : Int
  Offset : Int
deriving DecidableEq

/-- The struct `NextEpisode`. -/
structure NextEpisode where
  f : Option File
  started : Bool
  done : Bool
  bufferSize : Int
deriving DecidableEq

/-- The parts of the struct `Torrent` (declared in another file of the package) that the player
reads or writes: its flags and counters, and the values returned by `IsMemoryStorage()`,
`GetReadaheadSize()`, `ReadersReadaheadSum()`, the set `awaitingPieces` and the field
`lastProgress`; `th` tells whether the libtorrent handle `th` is set. -/
structure Torrent where
  HasNextFile : Bool
  PlayerAttached : Int
  IsMemoryStorage : Bool
  GetReadaheadSize : Int
  ReadersReadaheadSum : Int
  awaitingPieces : List Nat
  lastProgress : ℚ
  IsBuffering : Bool
  IsBufferingFinished : Bool
  IsNextFile : Bool
  IsNeedFinishNotification : Bool
  IsRarArchive : Bool
  IsPlaying : Bool
  BufferProgress : ℚ
  th : Bool
deriving DecidableEq

/-- The struct `Player`, with the fields the functions below read or write; `closer` is the state
of the event set by `Close`. -/
structure Player where
  t : Option Torrent
  p : PlayerParams
  next : NextEpisode
  chosenFile : Option File
  hasChosenFile : Bool
  extracted : String
  subtitlesLoaded : List String
  notEnoughSpace : Bool
  closer : Bool
  closed : Bool
deriving DecidableEq

/-- The method `Player.IsWatched`. -/
def IsWatched (cfg : Config) (p : PlayerParams) : Bool :=
  decide (p.WatchedProgress > (cfg.PlaybackPercent : ℚ))

/-- The answer of `xbmcHost.GetWatchTimes()`, its two times already parsed by
`strconv.ParseFloat`. -/
structure WatchTimes where
  error : String
  watchedTime : ℚ
  videoDuration : ℚ

/-- The number of binary digits of `n`; the first argument bounds the number of halvings and is
given as `n` itself. -/
def bitLength : Nat → Nat → Nat
  | 0, _ => 0
  | fuel + 1, n => if n = 0 then 0 else bitLength fuel (n / 2) + 1

/-- The `float64` nearest to the positive fraction `n / d`: 53 significant binary digits, a tie
going to the even one (IEEE 754 binary64 in its normal range; overflow and subnormal values are
not modelled). -/
def roundPositive (n d : Nat) : ℚ :=
  let e : Int := (bitLength n n : Int) - (bitLength d d : Int)
  let e1 : Int :=
    if (if 0 ≤ e then decide (d * 2 ^ e.toNat ≤ n) else decide (d ≤ n * 2 ^ (-e).toNat))
    then e else e - 1
  let k : Int := 52 - e1
  let num1 : Nat := if 0 ≤ k then n * 2 ^ k.toNat else n
  let den1 : Nat := if 0 ≤ k then d else d * 2 ^ (-k).toNat
  let qf := num1 / den1
  let r := num1 % den1
  let m := if den1 < 2 * r || (2 * r == den1 && qf % 2 == 1) then qf + 1 else qf
  if 0 ≤ k then mkRat m (2 ^ k.toNat) else ((m * 2 ^ (-k).toNat : Nat) : ℚ)

/-- The `float64` nearest to the fraction `n / d`; 0 for a zero numerator or denominator. -/
def roundFloat64 (n : Int) (d : Nat) : ℚ :=
  if n = 0 ∨ d = 0 then 0
  else if 0 < n then roundPositive n.toNat d
  else - roundPositive (-n).toNat d

/-- Go's `a / b` on `float64` values with `b` not 0: the quotient, rounded. -/
def f64div (a b : ℚ) : ℚ :=
  roundFloat64 (a.num * b.den * (if 0 ≤ b.num then 1 else -1)) (a.den * b.num.natAbs)

/-- Go's `a * b` on `float64` values: the product, rounded. -/
def f64mul (a b : ℚ) : ℚ :=
  roundFloat64 (a.num * b.num) (a.den * b.den)

/-- The method `Player.updateWatchTimes`.  The progress is computed as Go computes it: the
division is rounded to a `float64`, and so is the multiplication by 100. -/
def updateWatchTimes (ret : WatchTimes) (p : PlayerParams) : PlayerParams :=
  if ret.error != "" then p
  else
    let p1 := { p with WatchedTime := ret.watchedTime, VideoDuration := ret.videoDuration }
    if p1.VideoDuration > 0 then
      { p1 with WatchedProgress := f64mul (f64div p1.WatchedTime p1.VideoDuration) 100 }
    else p1

/-- The cache key of a session's stored resume record. -/
def resumeKey (p : PlayerParams) : String := "stored.resume." ++ p.ResumeToken

/-- The method `Player.FetchStoredResume`. -/
def FetchStoredResume (p : PlayerParams) (db : Db) : PlayerParams × Db :=
  let key := resumeKey p
  let item := p.StoredResume.getD Resume.zero
  let r := db.GetCachedObject key item
  ({ p with StoredResume := some r.1 }, r.2)

/-- The method `Player.SaveStoredResume`; `storedResumeExpiration` is a constant declared in
another file of the package. -/
def SaveStoredResume (cfg : Config) (storedResumeExpiration : Nat) (p : PlayerParams) (db : Db) :
    PlayerParams × Db :=
  let key := resumeKey p
  let sr0 := p.StoredResume.getD Resume.zero
  let sr : Resume := { sr0 with Total := p.VideoDuration, Position := p.WatchedTime }
  let p1 := { p with StoredResume := some sr }
  if sr.Total == 0 || sr.Position == 0 then (p1, db)
  else if IsWatched cfg p1 || decide (sr.Position < 180) then (p1, db.Delete key)
  else (p1, db.SetCachedObject storedResumeExpiration key sr)

/-! ## Teardown -/

/-- The struct `RemoveOptions`; `Close` sets `ForceDelete` and `IsWatched` and leaves the other
two at their zero value. -/
structure RemoveOptions where
  ForceConfirmation : Bool
  ForceDrop : Bool
  ForceDelete : Bool
  IsWatched : Bool
deriving DecidableEq

/-- The requests the player issues to its collaborators: the five issued by `Close`, the timer
stop of `SetTorrent`, and the start of buffering of a next file, `t.Buffer(file, false)`. -/
inductive Request where
  | startNextTimer
  | RemoveTorrent (opts : RemoveOptions)
  | DetachPlayer
  | PlayerStop
  | osRemove (file : String)
  | stopNextTimer
  | torrentBuffer (file : File)
deriving DecidableEq

/-- The method `Player.Close`: the new player state and the requests issued, in the order they
are issued.  `stat` tells for which paths `os.Stat` succeeds.  The deferred calls run when the
function returns, last deferred first. -/
def Close (cfg : Config) (stat : String → Bool) (btp : Player) : Player × List Request :=
  if btp.closed then (btp, [])
  else
    let btp1 := { btp with closed := true, closer := true }
    match btp1.t with
    | none => (btp1, [])
    | some t =>
      let removals : List Request :=
        if cfg.OSDBAutoLoadDelete then
          ((btp1.subtitlesLoaded.filter stat).map Request.osRemove).reverse
        else []
      let deferred : List Request := [Request.DetachPlayer, Request.PlayerStop] ++ removals
      if t.HasNextFile && IsWatched cfg btp1.p then
        (btp1, Request.startNextTimer :: deferred)
      else if !btp1.p.Background && decide (t.PlayerAttached ≤ 1) then
        (btp1, Request.RemoveTorrent
              { ForceConfirmation := false, ForceDrop := false,
                ForceDelete := btp1.notEnoughSpace,
                IsWatched := IsWatched cfg btp1.p } :: deferred)
      else (btp1, deferred)

/-- The requests of a list that act on the torrent: timer starts and removals. -/
def torrentActions (rs : List Request) : List Request :=
  rs.filter (fun r => match r with
    | .startNextTimer => true
    | .RemoveTorrent _ => true
    | _ => false)

/-- Whether a request is a torrent removal. -/
def Request.isRemoveTorrent : Request → Bool
  | .RemoveTorrent _ => true
  | _ => false

/-- Running `Close` twice in a row: the final state and all requests issued. -/
def closeTwice (cfg : Config) (stat : String → Bool) (btp : Player) : Player × List Request :=
  let r1 := Close cfg stat btp
  let r2 := Close cfg stat r1.1
  (r2.1, r1.2 ++ r2.2)

/-! ## Readiness for the next file -/

/-- Two's-complement reduction of an integer to the range of `int64`. -/
def wrap64 (x : Int) : Int := (x + 2 ^ 63) % 2 ^ 64 - 2 ^ 63

/-- The method `Player.isReadyForNextFile`; `none` is the nil-pointer panic on a player without
torrent. -/
def isReadyForNextFile (cfg : Config) (btp : Player) : Option Bool :=
  match btp.t with
  | none => none
  | some t =>
    if t.IsMemoryStorage then
      let ra := t.GetReadaheadSize
      let sum := t.ReadersReadaheadSum
      some (decide (ra > 0) && decide (sum > 0) && decide (ra > wrap64 (sum + btp.next.bufferSize))
        && t.awaitingPieces.isEmpty && decide (t.lastProgress > 90))
    else some (IsWatched cfg btp.p)

/-! ## Rate limiting -/

/-- A libtorrent settings pack, read through its integer settings by name. -/
abbrev SettingsPack := String → Int

/-- The method `SetInt` of a settings pack. -/
def SettingsPack.SetInt (sp : SettingsPack) (name : String) (value : Int) : SettingsPack :=
  fun k => if k = name then value else sp k

/-- The parts of the struct `Service` used by `setRateLimiting`: its configuration, its settings
pack, the settings last applied to the engine session by `Session.ApplySettings`, and the number of
calls of `Session.ApplySettings` so far. -/
structure Service where
  config : Config
  PackSettings : SettingsPack
  applied : SettingsPack
  applyCalls : Nat

/-- The method `Player.setRateLimiting`, on the service the player points to. -/
def setRateLimiting (enable : Bool) (s : Service) : Service :=
  if s.config.LimitAfterBuffering then
    let settings := s.PackSettings
    let settings :=
      if enable then
        let st1 :=
          if s.config.DownloadRateLimit > 0 then
            settings.SetInt "download_rate_limit" s.config.UploadRateLimit
          else settings
        if s.config.UploadRateLimit > 0 then
          st1.SetInt "upload_rate_limit" s.config.UploadRateLimit
        else st1
      else
        (settings.SetInt "download_rate_limit" 0).SetInt "upload_rate_limit" 0
    { s with PackSettings := settings, applied := settings, applyCalls := s.applyCalls + 1 }
  else s

/-! ## Attaching a torrent and waiting for the buffer signal -/

/-- The torrents, behind the pointers through which players and the service share them. -/
abbrev TorrentStore := Nat → Torrent

/-- The assignments of `Player.SetTorrent` on the torrent it is given: the player counter goes up
when `fresh` (the player had no torrent or another one), and four flags are cleared. -/
def Torrent.attach (fresh : Bool) (t : Torrent) : Torrent :=
  { t with
    PlayerAttached := if fresh then t.PlayerAttached + 1 else t.PlayerAttached,
    IsBuffering := false, IsBufferingFinished := false, IsNextFile := false,
    HasNextFile := false }

/-- The method `Player.SetTorrent`, on the player's torrent pointer `cur` (`btp.t`) and the pointer
`t` it is given: the new value of `btp.t`, the torrents, and the request issued. -/
def SetTorrent (cur : Option Nat) (t : Nat) (ts : TorrentStore) :
    Option Nat × TorrentStore × List Request :=
  let fresh : Bool := decide (cur = none) || decide (cur ≠ some t)
  (some t, (fun a => if a = t then (ts t).attach fresh else ts a), [Request.stopNextTimer])

/-- The method `Player.resumeTorrent`: the error returned, if any. -/
def resumeTorrent (btp : Player) : Option String :=
  match btp.t with
  | none => some ("Unable to resume torrent with index " ++ btp.p.ResumeHash)
  | some t =>
    if !t.th then some ("Unable to resume torrent with index " ++ btp.p.ResumeHash) else none

/-- The method `Player.addTorrent`: the error returned, if any, and the player.  `added` is the
answer of the service's `AddTorrent`, asked only when the player has no torrent yet. -/
def addTorrent (added : Except String Torrent) (btp : Player) : Option String × Player :=
  let r : Option String × Player :=
    match btp.t with
    | some _ => (none, btp)
    | none =>
      match added with
      | .error err => (some err, btp)
      | .ok torrent => (none, { btp with t := some (torrent.attach true) })
  match r.1 with
  | some err => (some err, r.2)
  | none =>
    match r.2.t with
    | none => (some ("Unable to add torrent with URI " ++ r.2.p.URI), r.2)
    | some t =>
      if !t.th then (some ("Unable to add torrent with URI " ++ r.2.p.URI), r.2) else (none, r.2)

/-- The method `Player.HasChosenFile`. -/
def HasChosenFile (btp : Player) : Bool := btp.hasChosenFile && btp.chosenFile.isSome

/-- The flags `Player.Buffer` sets on the torrent once it is attached: buffering is skipped for a
background download and started otherwise. -/
def markBuffering (btp : Player) : Player :=
  { btp with t := btp.t.map (fun t =>
      if btp.p.Background then
        { t with IsBuffering := false, IsBufferingFinished := true,
                 IsNeedFinishNotification := true }
      else { t with IsBuffering := true }) }

/-- The method `Player.Buffer`: the error returned, if any, and the player.  `buffered` is the
value received from the buffer signal (`none` for success); `concurrent` is what the tasks started
by `Buffer` (metadata processing, the player loop) have done to the player by the time that value
is received.  The UI dialogs and the tasks themselves are left out. -/
def Buffer (added : Except String Torrent) (concurrent : Player → Player)
    (buffered : Option String) (btp : Player) : Option String × Player :=
  let a : Option String × Player :=
    if btp.p.ResumeHash != "" then (resumeTorrent btp, btp) else addTorrent added btp
  match a.1 with
  | some err => (some err, a.2)
  | none =>
    let btp2 := concurrent (markBuffering a.2)
    match buffered with
    | some err => (some err, btp2)
    | none => if !HasChosenFile btp2 then (some "File not chosen", btp2) else (none, btp2)

/-! ## Resume decision at file selection -/

/-- The constants `ResumeEmpty`, `ResumeYes`, `ResumeNo`. -/
def ResumeEmpty : Int := 0

/-- See `ResumeEmpty`. -/
def ResumeYes : Int := 1

/-- See `ResumeEmpty`. -/
def ResumeNo : Int := 2

/-- Modelled from the spec: the method `Reset` of `uid.Resume` (package `library/uid`) clears the
record: position and total become 0. -/
def Resume.Reset (_r : Resume) : Resume := Resume.zero

/-- The resume section of `Player.processMetadata`: from the call of `FetchStoredResume` to the
end of the resume decision.  `hostPresent` tells whether `xbmcHost` is set and `confirm` is the
answer of the resume prompt `DialogConfirmFocused`.  The local `resume` points to the stored
record when that has a positive position, else to the library record `Resume` when that has
one, else it is nil. -/
def processMetadataResume (cfg : Config) (storedResumeExpiration : Nat)
    (hostPresent confirm : Bool) (p : PlayerParams) (db : Db) : PlayerParams × Db :=
  let f := FetchStoredResume p db
  let p1 := f.1
  let useStored : Bool :=
    match p1.StoredResume with
    | some r => decide (r.Position > 0)
    | none => false
  let useLibrary : Bool :=
    !useStored && (match p1.Resume with
      | some r => decide (r.Position > 0)
      | none => false)
  let p2 := { p1 with ResumePlayback := ResumeNo }
  if (useStored || useLibrary) && !p2.Background && cfg.PlayResumeAction != 0 then
    if !(cfg.SilentStreamStart || p2.ResumePlayback == ResumeYes || cfg.PlayResumeAction == 2
          || !hostPresent || confirm) then
      let p3 : PlayerParams :=
        if useStored then { p2 with StoredResume := p2.StoredResume.map Resume.Reset }
        else { p2 with Resume := p2.Resume.map Resume.Reset }
      let sv := SaveStoredResume cfg storedResumeExpiration p3 f.2
      ({ sv.1 with ResumePlayback := ResumeNo }, sv.2)
    else ({ p2 with ResumePlayback := ResumeYes }, f.2)
  else (p2, f.2)

/-! ## Trimming and sorting the choices -/

/-- Go's `strings.Split(s, sep)` for a separator of one character, on the runes of `s`. -/
def splitOnChar (sep : Char) : List Char → List (List Char)
  | [] => [[]]
  | c :: cs =>
      if c = sep then [] :: splitOnChar sep cs
      else
        match splitOnChar sep cs with
        | [] => [[c]]
        | h :: t => (c :: h) :: t

/-- Go's `strings.Replace(s, old, "", 1)` for a non-empty `old`: the first occurrence of `old`
is removed. -/
def removeFirst (old : List Char) : List Char → List Char
  | [] => []
  | c :: cs =>
      if old.isPrefixOf (c :: cs) then (c :: cs).drop old.length else c :: removeFirst old cs

/-- The first loop of `TrimChoices`: for each directory name `d` of the first display name, as
long as every display name starts with `d` and the separator, that part is removed from every
display name. -/
def trimDirectories (sep : Char) : List (List Char) → List CandidateFile → List CandidateFile
  | [], cs => cs
  | d :: ds, cs =>
      if cs.all (fun c => (d ++ [sep]).isPrefixOf c.DisplayName.toList) then
        trimDirectories sep ds (cs.map (fun c =>
          { c with DisplayName := String.mk (removeFirst (d ++ [sep]) c.DisplayName.toList) }))
      else cs

/-- The order in which `TrimChoices` leaves the choices: by `DisplayName`, ascending. -/
def displayLE (a b : CandidateFile) : Prop := a.DisplayName ≤ b.DisplayName

instance displayLE_decidable : DecidableRel displayLE :=
  fun a b => inferInstanceAs (Decidable (a.DisplayName ≤ b.DisplayName))

/-- Go's `sort.Slice` with the comparison `choices[i].DisplayName < choices[j].DisplayName`.  The
library does not fix the order of choices with equal display names; an insertion sort stands for
it, and nothing below depends on the order of ties. -/
def sortByDisplayName (cs : List CandidateFile) : List CandidateFile :=
  cs.insertionSort displayLE

/-- The function `TrimChoices`: the list it leaves behind, `none` for the panic on an empty list.
`sep` is `os.PathSeparator` and `IsWatchedFile` the function of that name. -/
def TrimChoices (cfg : Config) (sep : Char) (IsWatchedFile : String → Int → Bool)
    (choices : List CandidateFile) : Option (List CandidateFile) :=
  match choices with
  | [] => none
  | c0 :: _ =>
    let trimmed := trimDirectories sep (splitOnChar sep c0.DisplayName.toList) choices
    let sorted := sortByDisplayName trimmed
    if !cfg.ShowFilesWatched then some sorted
    else if sorted.any (fun c => IsWatchedFile c.Path c.Size) then
      some (sorted.map (fun c =>
        if IsWatchedFile c.Path c.Size then
          { c with DisplayName := " [COLOR green][B]+[/B][/COLOR] | " ++ c.DisplayName }
        else { c with DisplayName := " [COLOR green] [/COLOR] | " ++ c.DisplayName }))
    else some sorted

/-- The fields of a candidate that `TrimChoices` never writes. -/
def candidateKey (c : CandidateFile) : Int × String × String × Int :=
  (c.Index, c.Filename, c.Path, c.Size)

/-! ## Finding and starting the next file -/

/-- The methods of `Torrent` and `Service` (declared in other files of the package) that
`findNextFile` calls, and the torrent's list `files`: they are parameters. `getBufferSize` stands
for the fourth value returned by the method of that name. -/
structure NextFileApi where
  GetNextEpisodeFile : Int → Int → Option File
  GetNextSingleEpisodeFile : Int → Option File
  GetCandidateFiles : Player → Except String (List CandidateFile)
  files : List File
  GetBufferSize : Int
  getBufferSize : Int → Int → Int → Int

/-- A file lookup made by `findNextFile`. -/
inductive Lookup where
  | GetNextEpisodeFile (season episode : Int)
  | GetNextSingleEpisodeFile (episode : Int)
  | GetCandidateFiles
deriving DecidableEq

/-- Indexing a Go slice with an `int`: `none` is the panic on an index out of range. -/
def sliceAt {α : Type} (l : List α) (i : Int) : Option α :=
  if i < 0 then none else l[i.toNat]?

/-- The end of `findNextFile`, once the search has left `f` in `next.f`: the torrent's
`HasNextFile` is set accordingly and, for a file, the size of its buffer is computed. -/
def finishNextFile (cfg : Config) (api : NextFileApi) (btp : Player) (t : Torrent)
    (f : Option File) : Player :=
  match f with
  | none =>
    { btp with next := { btp.next with f := none }, t := some { t with HasNextFile := false } }
  | some file =>
    let preBufferSize := api.getBufferSize file.Offset 0 api.GetBufferSize
    let postBufferSize :=
      api.getBufferSize file.Offset (wrap64 (file.Size - cfg.EndBufferSize)) cfg.EndBufferSize
    { btp with
      next := { btp.next with f := some file, bufferSize := wrap64 (preBufferSize + postBufferSize) },
      t := some { t with HasNextFile := true } }

/-- The search of `findNextFile` in a series context: the file left in `next.f` and the lookups
made, each made only while no file is set. -/
def findNextEpisode (api : NextFileApi) (p : PlayerParams) (f0 : Option File) :
    Option File × List Lookup :=
  let r1 : Option File × List Lookup :=
    match f0 with
    | none => (api.GetNextEpisodeFile p.Season (p.Episode + 1),
               [Lookup.GetNextEpisodeFile p.Season (p.Episode + 1)])
    | some f => (some f, [])
  let r2 : Option File × List Lookup :=
    if r1.1.isNone && decide (p.AbsoluteNumber > 0) then
      (api.GetNextSingleEpisodeFile (p.AbsoluteNumber + 1),
       r1.2 ++ [Lookup.GetNextSingleEpisodeFile (p.AbsoluteNumber + 1)])
    else r1
  let r3 : Option File × List Lookup :=
    if r2.1.isNone then
      (api.GetNextSingleEpisodeFile (p.Episode + 1),
       r2.2 ++ [Lookup.GetNextSingleEpisodeFile (p.Episode + 1)])
    else r2
  if r3.1.isNone then
    (api.GetNextEpisodeFile (p.Season + 1) 1, r3.2 ++ [Lookup.GetNextEpisodeFile (p.Season + 1) 1])
  else r3

/-- The search of `findNextFile` in a query context, among the candidates: the file left in
`next.f`, `none` for a panic on an index out of range. -/
def findNextCandidate (api : NextFileApi) (p : PlayerParams) (f0 : Option File)
    (candidates : List CandidateFile) : Option (Option File) :=
  if decide (p.NextFileIndex > -1) && decide (p.NextFileIndex < candidates.length) then
    match sliceAt candidates p.NextFileIndex with
    | none => none
    | some c =>
      match sliceAt api.files c.Index with
      | none => none
      | some f => some (some f)
  else if decide (p.NextOriginalIndex > -1) && decide (p.NextOriginalIndex < api.files.length) then
    match api.files.find? (fun f => f.Index == p.NextOriginalIndex) with
    | some f => some (some f)
    | none => some f0
  else if decide (p.FileIndex + 1 < candidates.length) then
    match sliceAt candidates (p.FileIndex + 1) with
    | none => none
    | some c =>
      match sliceAt api.files c.Index with
      | none => none
      | some f => some (some f)
  else some f0

/-- The method `Player.findNextFile`: the player it leaves and the file lookups it made; `none` is
a panic (a player without torrent past the guard, an index out of range).  `movieType` is a
constant declared in another file of the package. -/
def findNextFile (cfg : Config) (movieType : String) (api : NextFileApi) (btp : Player) :
    Option (Player × List Lookup) :=
  if (btp.p.ShowID == 0 && btp.p.Query == "") || btp.next.done || !cfg.SmartEpisodeStart then
    some (btp, [])
  else
    let btp1 : Player := { btp with next := { btp.next with done := true } }
    if btp1.p.ShowID != 0 then
      match btp1.t with
      | none => none
      | some t =>
        let r := findNextEpisode api btp1.p btp1.next.f
        some (finishNextFile cfg api btp1 t r.1, r.2)
    else if btp1.p.ContentType == movieType then some (btp1, [])
    else
      match btp1.t with
      | none => none
      | some t =>
        match api.GetCandidateFiles btp1 with
        | .error _ => some (finishNextFile cfg api btp1 t btp1.next.f, [Lookup.GetCandidateFiles])
        | .ok candidates =>
          match findNextCandidate api btp1.p btp1.next.f candidates with
          | none => none
          | some f => some (finishNextFile cfg api btp1 t f, [Lookup.GetCandidateFiles])

/-- The method `Player.startNextFile`: the player it leaves and the request it issues; `none` is
the panic on a player without torrent. -/
def startNextFile (btp : Player) : Option (Player × List Request) :=
  if btp.p.ShowID == 0 && btp.p.Query == "" then some (btp, [])
  else
    match btp.t with
    | none => none
    | some t =>
      if !t.HasNextFile || !btp.next.done then some (btp, [])
      else
        match btp.next.f with
        | none => some (btp, [])
        | some f =>
          if t.IsBuffering || btp.next.started then some (btp, [])
          else some ({ btp with next := { btp.next with started := true } },
                     [Request.torrentBuffer f])

/-! ## The buffer dialog -/

/-- A literal character of a pattern under `(?i)`: it matches its two cases, and `k` and `s` also
match U+212A and U+017F, which fold to them. -/
def foldLit (c : Char) (x : Char) : Bool :=
  x.toLower == c.toLower || (c.toLower == 'k' && x.toNat == 0x212A)
    || (c.toLower == 's' && x.toNat == 0x17F)

/-- The literal text `cs` under `(?i)`. -/
def Re.strFold : List Char → Re
  | [] => .eps
  | c :: cs => .seq (.cls (foldLit c)) (Re.strFold cs)

/-- The pattern of `findExtracted`, `(?i).*\.(mkv|mp4|mov|avi)`. -/
def extractedRegex : Re :=
  .seq (.starCls (fun c => c != '\n')) (.seq (.cls (fun c => c == '.'))
    (.alt (Re.strFold "mkv".toList) (.alt (Re.strFold "mp4".toList)
      (.alt (Re.strFold "mov".toList) (Re.strFold "avi".toList)))))

/-- What one poll of the buffer dialog reads from its collaborators: the progress dialog (`none`
when `dialogProgress` is nil, else the answer of `IsCanceled()`), the torrent's last status
(`none` when nil, else its state), the torrent's `GetBufferProgress()`, `HasMetadata()` and
`GetState()`, the file system (`os.Stat`, `os.ReadDir`, `filepath.Join`, `filepath.Dir`), the
platform, and the errors, if any, of the three steps of the unrar command. -/
structure BufferEnv where
  dialog : Option Bool
  lastStatus : Option Int
  GetBufferProgress : ℚ
  HasMetadata : Bool
  GetState : Int
  stat : String → Bool
  readDir : String → Except String (List String)
  Join : List String → String
  Dir : String → String
  platformOS : String
  stdoutPipe : Option String
  start : Option String
  wait : Option String

/-- What a poll of the buffer dialog does to its collaborators: a progress update of the dialog
(with the progress before its conversion to `int`; the three text lines are left out), the
success signal and an error broadcast on the buffer broadcaster, a notification, the creation of
a directory, the start of the unrar command, and `ResetBuffering` on the torrent. -/
inductive BufferEvent where
  | dialogUpdate (progress : ℚ)
  | Signal
  | Broadcast (err : String)
  | Notify (message : String)
  | MkdirAll (path : String)
  | unrar (name : String) (args : List String)
  | ResetBuffering
deriving DecidableEq

/-- The method `Player.findExtracted`. -/
def findExtracted (env : BufferEnv) (destPath : String) (btp : Player) :
    Player × List BufferEvent :=
  match env.readDir destPath with
  | .error err => (btp, [BufferEvent.Broadcast err, BufferEvent.Notify "LOCALIZE[30307]"])
  | .ok files =>
    match files with
    | [f] => ({ btp with extracted := f }, [])
    | _ =>
      match files.find? (fun f => extractedRegex.MatchString f) with
      | some f => ({ btp with extracted := f }, [])
      | none => (btp, [])

/-- The values returned by `updateBufferDialog`, the player and service it leaves, and what it
did. -/
structure BufferResult where
  finished : Bool
  err : Option String
  btp : Player
  s : Service
  events : List BufferEvent

/-- The method `Player.updateBufferDialog`; `none` is the panic on a player without torrent.
`StatusChecking` is a constant declared in another file of the package. -/
def updateBufferDialog (StatusChecking : Int) (env : BufferEnv) (btp : Player) (s : Service) :
    Option BufferResult :=
  if btp.closer then some ⟨false, none, btp, s, []⟩
  else
    match btp.t with
    | none => none
    | some t =>
      if (env.dialog.isNone || env.dialog == some true) && !t.IsBufferingFinished then
        some ⟨false, none, btp, s, []⟩
      else
        match env.lastStatus with
        | none => some ⟨false, none, btp, s, []⟩
        | some state =>
          if state == StatusChecking || t.IsRarArchive then
            let progress := env.GetBufferProgress
            let upd : List BufferEvent :=
              if env.dialog.isSome then [BufferEvent.dialogUpdate progress] else []
            if t.IsRarArchive && decide (progress ≥ 100) then
              match btp.chosenFile with
              | none =>
                some ⟨false, some "File not chosen", btp, setRateLimiting true s,
                  upd ++ [BufferEvent.Signal]⟩
              | some cf =>
                let archivePath := env.Join [s.config.DownloadPath, cf.Path]
                let destPath := env.Join [s.config.DownloadPath, env.Dir cf.Path, "extracted"]
                if env.stat destPath then
                  let fe := findExtracted env destPath btp
                  some ⟨false, some "File already exists", fe.1, setRateLimiting true s,
                    upd ++ fe.2 ++ [BufferEvent.Signal]⟩
                else
                  let cmdName := if env.platformOS == "windows" then "unrar.exe" else "unrar"
                  let made := upd ++ [BufferEvent.MkdirAll destPath]
                  match env.stdoutPipe with
                  | some err =>
                    some ⟨false, some err, btp, s,
                      made ++ [BufferEvent.Broadcast err, BufferEvent.Notify "LOCALIZE[30304]"]⟩
                  | none =>
                    let run := made ++ [BufferEvent.unrar cmdName ["e", archivePath, destPath]]
                    match env.start with
                    | some err =>
                      some ⟨false, some err, btp, s,
                        run ++ [BufferEvent.Broadcast err, BufferEvent.Notify "LOCALIZE[30305]"]⟩
                    | none =>
                      match env.wait with
                      | some err =>
                        some ⟨false, some err, btp, s,
                          run ++ [BufferEvent.Broadcast err,
                                  BufferEvent.Notify "LOCALIZE[30306]"]⟩
                      | none =>
                        let fe := findExtracted env destPath btp
                        some ⟨true, none, fe.1, setRateLimiting true s,
                          run ++ fe.2 ++ [BufferEvent.Signal]⟩
            else some ⟨false, none, btp, s, upd⟩
          else
            let upd : List BufferEvent :=
              if env.dialog.isSome then [BufferEvent.dialogUpdate t.BufferProgress] else []
            if !t.IsBuffering && env.HasMetadata && env.GetState != StatusChecking then
              some ⟨true, none, btp, setRateLimiting true s, upd ++ [BufferEvent.Signal]⟩
            else some ⟨false, none, btp, s, upd⟩

/-- The two tickers of `bufferDialog`. -/
inductive Tick where
  | halfSecond
  | oneSecond
deriving DecidableEq

/-- The state of a run of `bufferDialog`: whether it has returned, the player and service it
leaves, and what it did so far. -/
structure DialogRun where
  returned : Bool
  btp : Player
  s : Service
  events : List BufferEvent

/-- The loop of `bufferDialog` over the ticks delivered so far, each with what its poll reads;
`stopped` tells that the half-second ticker was stopped, after which its ticks no longer
arrive.  When the ticks run out the loop is still waiting. -/
def bufferDialogLoop (StatusChecking : Int) :
    List (Tick × BufferEnv) → Bool → Player → Service → List BufferEvent → Option DialogRun
  | [], _, btp, s, ev => some ⟨false, btp, s, ev⟩
  | (Tick.halfSecond, env) :: rest, stopped, btp, s, ev =>
      if stopped then bufferDialogLoop StatusChecking rest stopped btp s ev
      else
        match env.dialog with
        | none => bufferDialogLoop StatusChecking rest true btp s ev
        | some canceled =>
          if btp.closer || canceled || btp.notEnoughSpace then
            some ⟨true, btp, s,
              ev ++ [BufferEvent.Broadcast "User cancelled the buffering",
                     BufferEvent.ResetBuffering]⟩
          else bufferDialogLoop StatusChecking rest stopped btp s ev
  | (Tick.oneSecond, env) :: rest, stopped, btp, s, ev =>
      match updateBufferDialog StatusChecking env btp s with
      | none => none
      | some r =>
        if r.finished then some ⟨true, r.btp, r.s, ev ++ r.events⟩
        else bufferDialogLoop StatusChecking rest stopped r.btp r.s (ev ++ r.events)

/-- The method `Player.bufferDialog`: a first poll, then the loop over the ticks. -/
def bufferDialog (StatusChecking : Int) (env0 : BufferEnv) (ticks : List (Tick × BufferEnv))
    (btp : Player) (s : Service) : Option DialogRun :=
  match updateBufferDialog StatusChecking env0 btp s with
  | none => none
  | some r =>
    if r.finished then some ⟨true, r.btp, r.s, r.events⟩
    else bufferDialogLoop StatusChecking ticks false r.btp r.s r.events

/-! ## The player loop -/

/-- Whether, while `playerLoop` waits for playback, the external player starts playing or the
buffer timeout fires first. -/
inductive PlaybackStart where
  | playing
  | timeout
deriving DecidableEq

/-- The state a session's tasks share: the player, the cache, the service, the requests issued
and the errors broadcast on the buffer broadcaster so far. -/
structure Session where
  btp : Player
  db : Db
  s : Service
  requests : List Request
  broadcasts : List String

/-- One round of the playback loop of `playerLoop`, for the watch times the external player
reports: the times are refreshed, a seek is acknowledged, and the next file is started when it is
set, not started and ready.  Scrobbling, the overlay and the up-next notification are left out.
`none` is a panic. -/
def playbackTick (cfg : Config) (times : WatchTimes) (btp : Player) :
    Option (Player × List Request) :=
  let p1 := updateWatchTimes times btp.p
  let p2 : PlayerParams := if p1.Seeked then { p1 with Seeked := false } else p1
  let b : Player := { btp with p := p2 }
  if b.next.f.isSome && !b.next.started then
    match isReadyForNextFile cfg b with
    | none => none
    | some true => startNextFile b
    | some false => some (b, [])
  else some (b, [])

/-- The playback loop of `playerLoop` over the rounds in which the external player is playing; it
ends when the player has stopped. -/
def playbackLoop (cfg : Config) : List WatchTimes → Player → Option (Player × List Request)
  | [], btp => some (btp, [])
  | times :: rest, btp =>
      match playbackTick cfg times btp with
      | none => none
      | some (b, reqs) =>
        match playbackLoop cfg rest b with
        | none => none
        | some (b2, reqs2) => some (b2, reqs ++ reqs2)

/-- The deferred `Close` of `playerLoop`. -/
def Session.close (cfg : Config) (stat : String → Bool) (st : Session) : Session :=
  { st with btp := (Close cfg stat st.btp).1, requests := st.requests ++ (Close cfg stat st.btp).2 }

/-- The method `Player.playerLoop` followed by its deferred `Close`, for a session with a UI
host.  `buffered` is the value received from the buffer signal, `start` tells how the wait for
playback ends, `times0` are the watch times read when playback has started and `ticks` those read
in the rounds of the playback loop.  Scrobbling, the overlay and the task that updates the
library after the stop are left out.  `none` is a panic. -/
def playerLoop (cfg : Config) (storedResumeExpiration : Nat) (movieType : String)
    (api : NextFileApi) (stat : String → Bool) (buffered : Option String)
    (start : PlaybackStart) (times0 : WatchTimes) (ticks : List WatchTimes) (st : Session) :
    Option Session :=
  match buffered with
  | some _ => some (st.close cfg stat)
  | none =>
    if !st.btp.p.Background && start == PlaybackStart.timeout then
      some (Session.close cfg stat
        { st with broadcasts :=
            st.broadcasts ++ ["Playback was unable to start before timeout"] })
    else
      let p1 := updateWatchTimes times0 st.btp.p
      match findNextFile cfg movieType api { st.btp with p := p1 } with
      | none => none
      | some (b1, _) =>
        match b1.t with
        | none => none
        | some t =>
          let b2 : Player := { b1 with t := some { t with IsPlaying := true } }
          match (if b2.p.Background then some (b2, []) else playbackLoop cfg ticks b2) with
          | none => none
          | some (b3, reqs) =>
            let b4 : Player := { b3 with t := b3.t.map (fun t => { t with IsPlaying := false }) }
            let sv := SaveStoredResume cfg storedResumeExpiration b4.p st.db
            some (Session.close cfg stat
              { btp := { b4 with p := sv.1 }, db := sv.2, s := setRateLimiting false st.s,
                requests := st.requests ++ reqs, broadcasts := st.broadcasts })

/-! ## Scrobbling in the playback loop -/

/-- A scrobble event sent to the watch-state service by the playback loop. -/
inductive Scrobble where
  | start
  | pause
deriving DecidableEq

/-- What the scrobbling section of one round of the playback loop reads: whether a seek is
pending (`p.Seeked`) and whether the external player is reported paused (`xbmcHost == nil ||
xbmcHost.PlayerIsPaused()`). -/
structure TickInput where
  seeked : Bool
  paused : Bool
deriving DecidableEq

/-- The scrobbling section of one round of the playback loop of `playerLoop`, the part that
`playbackTick` leaves out: from the player's `scrobble` flag and the local `playing` of the loop,
the new value of `playing` and the events sent.  A pending seek is acknowledged first. -/
def scrobbleTick (scrobble : Bool) (playing : Bool) (i : TickInput) : Bool × List Scrobble :=
  if i.seeked then (playing, if scrobble then [Scrobble.start] else [])
  else if i.paused then
    if playing then (false, if scrobble then [Scrobble.pause] else []) else (playing, [])
  else
    if !playing then (true, if scrobble then [Scrobble.start] else []) else (playing, [])

/-- The scrobbling sections of a sequence of rounds: the final `playing` and all events sent. -/
def scrobbleRun (scrobble : Bool) : Bool → List TickInput → Bool × List Scrobble
  | playing, [] => (playing, [])
  | playing, i :: rest =>
      let r := scrobbleTick scrobble playing i
      let r2 := scrobbleRun scrobble r.1 rest
      (r2.1, r.2 ++ r2.2)

/-! ## The watched sets of the Trakt synchronisation -/

/-- The constants of the package `library` for media types and scrapers, declared in another file
of the package: they are parameters. -/
structure MediaConsts where
  MovieType : Int
  ShowType : Int
  SeasonType : Int
  EpisodeType : Int
  TraktScraper : Int
  TMDBScraper : Int
  IMDBScraper : Int

/-- The three ids read from `trakt.IDs` and from `uid.UniqueIDs`. -/
structure IDs where
  Trakt : Int
  TMDB : Int
  IMDB : String
deriving DecidableEq

/-- The text `fmt.Sprintf` builds from the verbs `%d` and `%s` joined by underscores. -/
def keyText (parts : List (List Char)) : String :=
  String.mk (List.intercalate ['_'] parts)

/-- The function `getXXItem`: the three keys, 0 for a key that is not set.  `hash` is
`xxhash.Sum64String`.  `none` is the panic on `ids[1]` for an episode given one number only. -/
def getXXItem (k : MediaConsts) (hash : String → Nat) (_ary : List Nat) (media : Int)
    (traktID tmdbID : Int) (imdbID : String) (ids : List Int) : Option (Nat × Nat × Nat) :=
  if media == k.MovieType then
    let traktKey := if traktID != 0 then
      hash (keyText [fmtInt media, fmtInt k.TraktScraper, fmtInt traktID]) else 0
    let tmdbKey := if tmdbID != 0 then
      hash (keyText [fmtInt media, fmtInt k.TMDBScraper, fmtInt tmdbID]) else 0
    let imdbKey := if imdbID != "" then
      hash (keyText [fmtInt media, fmtInt k.IMDBScraper, imdbID.toList]) else 0
    some (traktKey, tmdbKey, imdbKey)
  else if media == k.ShowType then
    let traktKey := if traktID != 0 then
      hash (keyText [fmtInt media, fmtInt k.TraktScraper, fmtInt traktID]) else 0
    let tmdbKey := if tmdbID != 0 then
      hash (keyText [fmtInt media, fmtInt k.TMDBScraper, fmtInt tmdbID]) else 0
    let imdbKey := if imdbID != "" then
      hash (keyText [fmtInt media, fmtInt k.IMDBScraper, imdbID.toList]) else 0
    some (traktKey, tmdbKey, imdbKey)
  else if media == k.SeasonType && decide (ids.length > 0) then
    match ids with
    | [] => some (0, 0, 0)
    | i0 :: _ =>
      let tmdbKey1 := if traktID != 0 then
        hash (keyText [fmtInt media, fmtInt k.TraktScraper, fmtInt traktID, fmtInt i0]) else 0
      let tmdbKey := if tmdbID != 0 then
        hash (keyText [fmtInt media, fmtInt k.TMDBScraper, fmtInt tmdbID, fmtInt i0])
        else tmdbKey1
      let imdbKey := if imdbID != "" then
        hash (keyText [fmtInt media, fmtInt k.IMDBScraper, imdbID.toList, fmtInt i0]) else 0
      some (0, tmdbKey, imdbKey)
  else if media == k.EpisodeType && decide (ids.length > 0) then
    match ids with
    | [] => some (0, 0, 0)
    | [_] => if traktID != 0 || tmdbID != 0 || imdbID != "" then none else some (0, 0, 0)
    | i0 :: i1 :: _ =>
      let traktKey := if traktID != 0 then
        hash (keyText [fmtInt media, fmtInt k.TraktScraper, fmtInt traktID, fmtInt i0,
          fmtInt i1]) else 0
      let tmdbKey := if tmdbID != 0 then
        hash (keyText [fmtInt media, fmtInt k.TMDBScraper, fmtInt tmdbID, fmtInt i0,
          fmtInt i1]) else 0
      let imdbKey := if imdbID != "" then
        hash (keyText [fmtInt media, fmtInt k.IMDBScraper, imdbID.toList, fmtInt i0,
          fmtInt i1]) else 0
      some (traktKey, tmdbKey, imdbKey)
  else some (0, 0, 0)

/-- The function `addXXItem`. -/
def addXXItem (k : MediaConsts) (hash : String → Nat) (ary : List Nat) (media : Int)
    (uids : IDs) (ids : List Int) : Option (List Nat) :=
  match getXXItem k hash ary media uids.Trakt uids.TMDB uids.IMDB ids with
  | none => none
  | some (traktKey, tmdbKey, imdbKey) =>
    let a1 := if traktKey != 0 then ary ++ [traktKey] else ary
    let a2 := if tmdbKey != 0 then a1 ++ [tmdbKey] else a1
    let a3 := if imdbKey != 0 then a2 ++ [imdbKey] else a2
    some a3

/-- The function `hasXXItem`. -/
def hasXXItem (k : MediaConsts) (hash : String → Nat) (ary : List Nat) (media : Int)
    (uids : IDs) (ids : List Int) : Option Bool :=
  match getXXItem k hash ary media uids.Trakt uids.TMDB uids.IMDB ids with
  | none => none
  | some (traktKey, tmdbKey, imdbKey) =>
    some (ary.any (fun item => item == traktKey || item == tmdbKey || item == imdbKey))

/-- The fields of a library movie, `uid.Movie`, read by the sync-back step; `IsWatched` is the
answer of the method of that name. -/
structure LibraryMovie where
  UIDs : IDs
  File : String
  IsWatched : Bool
deriving DecidableEq

/-- The struct `trakt.WatchedItem`, with the fields the sync-back step sets. -/
structure WatchedItem where
  KodiKey : Nat
  MediaType : String
  Movie : Int
  Watched : Bool
deriving DecidableEq

/-- The item the sync-back loop of `refreshTraktMoviesWatched` builds for one library movie, or
`none` when the movie is skipped by a `continue`.  `syncPlaycount` is the map of the last synced
states, by file key. -/
def syncBackItem (k : MediaConsts) (hash : String → Nat) (WatchedTraktMovies : List Nat)
    (syncPlaycount : Nat → Option Bool) (m : LibraryMovie) : Option (Option WatchedItem) :=
  if m.UIDs.TMDB == 0 then some none
  else
    let fileKey := hash m.File
    let isDone := (syncPlaycount fileKey).isSome
    let previousRun := (syncPlaycount fileKey).getD false
    match hasXXItem k hash WatchedTraktMovies k.MovieType m.UIDs [] with
    | none => none
    | some has =>
      if (has && m.IsWatched) || (!has && !m.IsWatched || (isDone && previousRun == m.IsWatched))
      then some none
      else some (some { KodiKey := fileKey, MediaType := "movie", Movie := m.UIDs.TMDB,
                        Watched := !has && m.IsWatched })

/-- The sync-back loop of `refreshTraktMoviesWatched` over the library movies: the batches
`syncWatchMovies` and `syncUnwatchMovies` it builds, starting from the given ones. -/
def syncBackMovies (k : MediaConsts) (hash : String → Nat) (WatchedTraktMovies : List Nat)
    (syncPlaycount : Nat → Option Bool) :
    List LibraryMovie → List WatchedItem × List WatchedItem →
      Option (List WatchedItem × List WatchedItem)
  | [], acc => some acc
  | m :: rest, acc =>
      match syncBackItem k hash WatchedTraktMovies syncPlaycount m with
      | none => none
      | some none => syncBackMovies k hash WatchedTraktMovies syncPlaycount rest acc
      | some (some item) =>
        if item.Watched then
          syncBackMovies k hash WatchedTraktMovies syncPlaycount rest (acc.1 ++ [item], acc.2)
        else
          syncBackMovies k hash WatchedTraktMovies syncPlaycount rest (acc.1, acc.2 ++ [item])

/-- Directory names joined again, each but the last followed by the separator. -/
def joinDirectories (sep : Char) : List (List Char) → List Char
  | [] => []
  | [d] => d
  | d :: rest => d ++ sep :: joinDirectories sep rest

/-- The leading directory names `ds`, each followed by the separator. -/
def directoryPrefix (sep : Char) (ds : List (List Char)) : List Char :=
  ds.flatMap (fun d => d ++ [sep])

/-- A candidate whose display name has lost its first `n` characters. -/
def dropDisplay (n : Nat) (c : CandidateFile) : CandidateFile :=
  { c with DisplayName := String.mk (c.DisplayName.toList.drop n) }

/-! ## Outcomes of the episode matching -/

/-- The possible results of `MatchEpisodeFilename` over patterns satisfying `P`: index -1 and
found 0, or what the matching loop of one such pattern leaves when it finds something. -/
def StrategyResult (P : Re → Prop) (choices : List CandidateFile) (r : Int × Int) : Prop :=
  r = (-1, 0)
  ∨ ∃ re : Re, P re ∧ r = scanChoices re choices 0 (-1, 0)
      ∧ (scanChoices re choices 0 (-1, 0)).2 ≠ 0

/-! ## The player a round of the playback loop works on -/

/-- The player in a round of the playback loop once the watch times are refreshed and a pending
seek is acknowledged: the state on which `playbackTick` decides about the next file. -/
def refreshedPlayer (times : WatchTimes) (btp : Player) : Player :=
  { btp with p :=
      if (updateWatchTimes times btp.p).Seeked then
        { updateWatchTimes times btp.p with Seeked := false }
      else updateWatchTimes times btp.p }

/-- The number of requests to start buffering a next file among the requests issued. -/
def nextFileStarts (reqs : List Request) : Nat :=
  reqs.countP (fun r => match r with
    | .torrentBuffer _ => true
    | _ => false)

/-! ## Video extensions, in the words of the specification -/

/-- Whether a file name has one of the video extensions mkv, mp4, mov, avi, case-insensitively:
the name, in lower case, ends with a dot and the extension.  This follows the wording of the
specification, to be compared with `extractedRegex`, which follows the source. -/
def hasVideoExtension (name : String) : Bool :=
  [".mkv", ".mp4", ".mov", ".avi"].any (fun ext =>
    ext.toList.isSuffixOf (name.toList.map Char.toLower))

/-! ## Concrete states for the scenarios -/

/-- A configuration with watched threshold 90 and rate limits 1000 (download) and 500 (upload). -/
def sampleConfig : Config :=
  { PlaybackPercent := 90, OSDBAutoLoadDelete := false, LimitAfterBuffering := true,
    DownloadRateLimit := 1000, UploadRateLimit := 500, PlayResumeAction := 1,
    SilentStreamStart := false, SmartEpisodeStart := true, ShowFilesWatched := false,
    EndBufferSize := 0, DownloadPath := "" }

/-- Session parameters with the given watched time, duration and progress, resume token `tok`. -/
def sampleParams (time duration progress : ℚ) : PlayerParams :=
  { Playing := true, Paused := false, Seeked := false, WasPlaying := false, Background := false,
    WatchedProgress := progress, WatchedTime := time, VideoDuration := duration,
    ResumeToken := "tok", ShowID := 0, Season := 1, Episode := 2, Query := "",
    UpNextSent := false, StoredResume := none, Resume := none, ResumePlayback := 0,
    ResumeHash := "", ContentType := "episode", AbsoluteNumber := 0, FileIndex := 0,
    NextFileIndex := -1, NextOriginalIndex := -1, URI := "magnet:sample" }

/-- The configuration with the watched threshold at 55 percent. -/
def boundaryConfig : Config := { sampleConfig with PlaybackPercent := 55 }

/-- Watch times at the threshold: the `float64` values that `strconv.ParseFloat` gives for
`330.77` and `601.4`. -/
def boundaryTimes : WatchTimes :=
  { error := "", watchedTime := mkRat 727370922238935 2199023255552,
    videoDuration := mkRat 5289970343555891 8796093022208 }

/-- An empty cache. -/
def emptyDb : Db := { store := fun _ => none, calls := [] }

/-- A cache that already holds a resume record (600 of 1200 seconds) under the key of `tok`. -/
def storedDb : Db :=
  { store := fun k => if k = "stored.resume.tok" then some { Position := 600, Total := 1200 }
      else none,
    calls := [] }

/-- A torrent on memory storage with the given read-ahead size and last progress, readers'
demand 400 and no awaited pieces. -/
def memoryTorrent (readahead : Int) (progress : ℚ) : Torrent :=
  { HasNextFile := true, PlayerAttached := 1, IsMemoryStorage := true,
    GetReadaheadSize := readahead, ReadersReadaheadSum := 400, awaitingPieces := [],
    lastProgress := progress, IsBuffering := false, IsBufferingFinished := true,
    IsNextFile := false, IsNeedFinishNotification := false, IsRarArchive := false,
    IsPlaying := true, BufferProgress := 100, th := true }

/-- A torrent on file storage with the given last progress. -/
def fileTorrent (hasNext : Bool) (attached : Int) (progress : ℚ) : Torrent :=
  { HasNextFile := hasNext, PlayerAttached := attached, IsMemoryStorage := false,
    GetReadaheadSize := 0, ReadersReadaheadSum := 0, awaitingPieces := [],
    lastProgress := progress, IsBuffering := false, IsBufferingFinished := true,
    IsNextFile := false, IsNeedFinishNotification := false, IsRarArchive := false,
    IsPlaying := true, BufferProgress := 100, th := true }

/-- A file of a torrent with the given index and path. -/
def sampleFile (i : Int) (path : String) : File :=
  { Index := i, Path := path, Name := path, Size := 1000, Offset := 0 }

/-- An open player on the given torrent and session parameters, next-file buffer 500. -/
def samplePlayer (t : Option Torrent) (p : PlayerParams) : Player :=
  { t := t, p := p,
    next := { f := some (sampleFile 1 "next"), started := false, done := true, bufferSize := 500 },
    chosenFile := some (sampleFile 0 "current"), hasChosenFile := true, extracted := "",
    subtitlesLoaded := [], notEnoughSpace := false, closer := false, closed := false }

/-- A service with the given configuration and no limits set. -/
def sampleService (cfg : Config) : Service :=
  { config := cfg, PackSettings := fun _ => 0, applied := fun _ => 0, applyCalls := 0 }

/-- A configuration with watched threshold 50. -/
def halfConfig : Config :=
  { PlaybackPercent := 50, OSDBAutoLoadDelete := false, LimitAfterBuffering := true,
    DownloadRateLimit := 0, UploadRateLimit := 0, PlayResumeAction := 1,
    SilentStreamStart := false, SmartEpisodeStart := true, ShowFilesWatched := false,
    EndBufferSize := 0, DownloadPath := "" }

/-- A configuration with limiting after buffering switched off. -/
def unlimitedConfig : Config :=
  { PlaybackPercent := 90, OSDBAutoLoadDelete := false, LimitAfterBuffering := false,
    DownloadRateLimit := 1000, UploadRateLimit := 500, PlayResumeAction := 1,
    SilentStreamStart := false, SmartEpisodeStart := true, ShowFilesWatched := false,
    EndBufferSize := 0, DownloadPath := "" }

/-- A service whose engine limits are set to 300 (download) and 200 (upload). -/
def limitedService (cfg : Config) : Service :=
  { config := cfg,
    PackSettings := fun k => if k = "download_rate_limit" then 300 else
      if k = "upload_rate_limit" then 200 else 0,
    applied := fun k => if k = "download_rate_limit" then 300 else
      if k = "upload_rate_limit" then 200 else 0,
    applyCalls := 0 }

/-- Two torrents behind the pointers 0 and 1, each with one player attached. -/
def twoTorrents : TorrentStore := fun _ => fileTorrent true 1 50

/-- An open player on a torrent, for which no file has been chosen. -/
def unchosenPlayer : Player :=
  { samplePlayer (some (fileTorrent false 1 0)) (sampleParams 0 0 0) with
    chosenFile := none, hasChosenFile := false }

/-- Three files of one season folder, out of order. -/
def folderChoices : List CandidateFile :=
  [ { Index := 0, Filename := "e2.mkv", DisplayName := "Show/S1/e2.mkv", Path := "Show/S1/e2.mkv",
      Size := 10 },
    { Index := 1, Filename := "e1.mkv", DisplayName := "Show/S1/e1.mkv", Path := "Show/S1/e1.mkv",
      Size := 10 },
    { Index := 2, Filename := "e3.mkv", DisplayName := "Show/S1/e3.mkv", Path := "Show/S1/e3.mkv",
      Size := 10 } ]

/-- Lookups on a torrent whose only other file is the next episode. -/
def sampleApi : NextFileApi :=
  { GetNextEpisodeFile := fun season episode =>
      if season = 1 ∧ episode = 3 then some (sampleFile 2 "Show.S01E03.mkv") else none,
    GetNextSingleEpisodeFile := fun _ => none,
    GetCandidateFiles := fun _ => .ok [],
    files := [sampleFile 1 "Show.S01E02.mkv", sampleFile 2 "Show.S01E03.mkv"],
    GetBufferSize := 100,
    getBufferSize := fun _ _ length => length }

/-- A player in a series context (show 7, season 1, episode 2) whose next file is not yet looked
for. -/
def seriesPlayer : Player :=
  { samplePlayer (some (fileTorrent false 1 50)) { sampleParams 600 1200 50 with ShowID := 7 } with
    next := { f := none, started := false, done := false, bufferSize := 0 } }

/-- A RAR-archive torrent. -/
def rarTorrent : Torrent :=
  { fileTorrent false 1 100 with
    IsRarArchive := true, IsBufferingFinished := false, IsBuffering := true }

/-- An open player on the RAR-archive torrent, with the archive as chosen file. -/
def rarPlayer : Player :=
  { samplePlayer (some rarTorrent) (sampleParams 0 0 0) with
    chosenFile := some (sampleFile 0 "Show/show.rar") }

/-- A poll at which the archive is fully buffered and the extraction directory already exists and
holds the single file `show.mkv`. -/
def extractedEnv : BufferEnv :=
  { dialog := some false, lastStatus := some 3, GetBufferProgress := 100, HasMetadata := true,
    GetState := 3, stat := fun _ => true, readDir := fun _ => .ok ["show.mkv"],
    Join := fun parts => String.intercalate "/" parts, Dir := fun _ => "Show",
    platformOS := "linux", stdoutPipe := none, start := none, wait := none }

/-- A poll at which the torrent has its metadata and is downloading. -/
def downloadingEnv : BufferEnv :=
  { dialog := some false, lastStatus := some 3, GetBufferProgress := 100, HasMetadata := true,
    GetState := 3, stat := fun _ => true, readDir := fun _ => .ok [],
    Join := fun parts => String.intercalate "/" parts, Dir := fun _ => "",
    platformOS := "linux", stdoutPipe := none, start := none, wait := none }

/-- A session on a torrent that has finished buffering, with the given service. -/
def sampleSession (s : Service) : Session :=
  { btp := samplePlayer (some (fileTorrent false 1 100)) (sampleParams 0 0 0), db := emptyDb,
    s := s, requests := [], broadcasts := [] }

/-- No watch times yet. -/
def noTimes : WatchTimes := { error := "", watchedTime := 0, videoDuration := 0 }

/-- Lookups on a torrent of two files, both candidates. -/
def queryApi : NextFileApi :=
  { GetNextEpisodeFile := fun _ _ => none,
    GetNextSingleEpisodeFile := fun _ => none,
    GetCandidateFiles := fun _ => .ok [mkCandidate 0 "a.mkv", mkCandidate 1 "b.mkv"],
    files := [sampleFile 0 "a.mkv", sampleFile 1 "b.mkv"],
    GetBufferSize := 100,
    getBufferSize := fun _ _ length => length }

/-- A player in a query context (no show, query `show`), playing the first candidate, whose next
file is not yet looked for. -/
def queryPlayer : Player :=
  { samplePlayer (some (fileTorrent false 1 50))
      { sampleParams 600 1200 50 with Query := "show", ContentType := "search" } with
    next := { f := none, started := false, done := false, bufferSize := 0 } }

/-- A player on memory storage with spare read-ahead, near the end of episode 2, whose next file
is set and not started. -/
def readyPlayer : Player :=
  { samplePlayer (some (memoryTorrent 1000 95)) { sampleParams 1140 1200 95 with ShowID := 7 } with
    next := { f := some (sampleFile 2 "Show.S01E03.mkv"), started := false, done := true,
              bufferSize := 100 } }

/-- Watch times at 1150 of 1200 seconds. -/
def lateTimes : WatchTimes := { error := "", watchedTime := 1150, videoDuration := 1200 }

/-- A poll at which the extraction directory holds a video and a text file named after another
video; `os.ReadDir` lists the entries sorted by file name. -/
def twoFilesEnv : BufferEnv :=
  { extractedEnv with readDir := fun _ => .ok ["info.avi.txt", "movie.mkv"] }

/-- The RAR player once its closing flag is set. -/
def closingPlayer : Player := { rarPlayer with closer := true }

/-- A paused round without a pending seek. -/
def pausedTick : TickInput := { seeked := false, paused := true }

/-- A round with a pending seek while the player is paused. -/
def seekTick : TickInput := { seeked := true, paused := true }

/-- Sample values for the media types and scrapers. -/
def sampleConsts : MediaConsts :=
  { MovieType := 1, ShowType := 2, SeasonType := 3, EpisodeType := 4,
    TraktScraper := 3, TMDBScraper := 0, IMDBScraper := 2 }

/-- A sample hash that is injective: the text read as the digits of a number after a leading
one. -/
def sampleHash (s : String) : Nat :=
  s.toList.foldl (fun acc c => acc * 1114112 + c.toNat) 1

/-- Ids as Trakt reports them for a show it has no TMDB id for: Trakt id 5 only. -/
def traktSideIds : IDs := { Trakt := 5, TMDB := 0, IMDB := "" }

/-- Ids as Trakt reports them for a show with another TMDB id: Trakt id 5, TMDB id 10. -/
def traktSideOtherIds : IDs := { Trakt := 5, TMDB := 10, IMDB := "" }

/-- Ids of the same show in the library: Trakt id 5, TMDB id 11.  The TMDB id is not 0, as for
every show whose seasons the sync-back loop looks up. -/
def librarySideIds : IDs := { Trakt := 5, TMDB := 11, IMDB := "" }

/-- A library movie, by its TMDB id, file and local watched state. -/
def sampleMovie (tmdb : Int) (file : String) (watched : Bool) : LibraryMovie :=
  { UIDs := { Trakt := 0, TMDB := tmdb, IMDB := "" }, File := file, IsWatched := watched }

/-- A library of four movies: watched locally only, watched on both sides, watched on Trakt only,
and one without a TMDB id. -/
def sampleMovies : List LibraryMovie :=
  [sampleMovie 11 "a.mkv" true, sampleMovie 12 "b.mkv" true, sampleMovie 13 "c.mkv" false,
   sampleMovie 0 "d.mkv" true]

/-- The watched set of Trakt holding the movies with TMDB ids 12 and 13. -/
def sampleWatchedSet : List Nat :=
  [sampleHash (keyText [fmtInt 1, fmtInt 0, fmtInt 12]),
   sampleHash (keyText [fmtInt 1, fmtInt 0, fmtInt 13])]

/-! ## Lemmas on the matching loop -/

theorem scanChoices_found (re : Re) (cs : List CandidateFile) (i : Nat) (acc : Int × Int) :
    (scanChoices re cs i acc).2 = acc.2 + (cs.countP (fun c => re.MatchString c.Filename) : Nat) := by
  induction cs generalizing i acc with
  | nil => simp [scanChoices]
  | cons c cs ih =>
    by_cases h : re.MatchString c.Filename = true
    · simp only [scanChoices, h, if_true, ih, List.countP_cons]
      push_cast
      ring
    · have h2 : re.MatchString c.Filename = false := by simpa using h
      simp [scanChoices, h2, ih, List.countP_cons]

theorem scanChoices_nomatch (re : Re) (cs : List CandidateFile) (i : Nat) (acc : Int × Int)
    (h : ∀ c ∈ cs, re.MatchString c.Filename = false) : scanChoices re cs i acc = acc := by
  induction cs generalizing i acc with
  | nil => simp [scanChoices]
  | cons c cs ih =>
    have hc : re.MatchString c.Filename = false := h c (List.mem_cons_self _ _)
    simp only [scanChoices, hc]
    exact ih (i + 1) acc (fun d hd => h d (List.mem_cons_of_mem _ hd))

theorem scanChoices_unique (re : Re) (cs : List CandidateFile) (i : Nat) (acc : Int × Int)
    (j : Nat) (hj : j < cs.length) (hm : re.MatchString cs[j].Filename = true)
    (hu : ∀ (k : Nat) (hk : k < cs.length), k ≠ j → re.MatchString cs[k].Filename = false) :
    scanChoices re cs i acc = (((i + j : Nat) : Int), acc.2 + 1) := by
  induction cs generalizing i acc j with
  | nil => simp at hj
  | cons c cs ih =>
    cases j with
    | zero =>
      have hc : re.MatchString c.Filename = true := by simpa using hm
      have hrest : ∀ d ∈ cs, re.MatchString d.Filename = false := by
        intro d hd
        obtain ⟨k, hk, rfl⟩ := List.getElem_of_mem hd
        have := hu (k + 1) (by simpa using hk) (by omega)
        simpa using this
      simp only [scanChoices, hc, if_true]
      rw [scanChoices_nomatch re cs (i + 1) _ hrest]
      simp
    | succ j =>
      have hc : re.MatchString c.Filename = false := by
        have := hu 0 (by simp) (by omega)
        simpa using this
      have hj2 : j < cs.length := by simpa using hj
      have hm2 : re.MatchString cs[j].Filename = true := by simpa using hm
      have hu2 : ∀ (k : Nat) (hk : k < cs.length), k ≠ j →
          re.MatchString cs[k].Filename = false := by
        intro k hk hne
        have := hu (k + 1) (by simpa using hk) (by omega)
        simpa using this
      simp only [scanChoices, hc]
      rw [ih (i + 1) acc j hj2 hm2 hu2]
      have hidx : i + 1 + j = i + (j + 1) := by omega
      rw [hidx]
      simp

theorem scanChoices_count_one (re : Re) (cs : List CandidateFile) (i : Nat) (acc : Int × Int)
    (h : cs.countP (fun c => re.MatchString c.Filename) = 1) :
    ∃ (j : Nat) (hj : j < cs.length), re.MatchString cs[j].Filename = true ∧
      scanChoices re cs i acc = (((i + j : Nat) : Int), acc.2 + 1) := by
  induction cs generalizing i acc with
  | nil => simp at h
  | cons c cs ih =>
    by_cases hc : re.MatchString c.Filename = true
    · rw [List.countP_cons] at h
      simp only [hc, if_true] at h
      have h0 : cs.countP (fun c => re.MatchString c.Filename) = 0 := by omega
      have hrest : ∀ d ∈ cs, re.MatchString d.Filename = false := by
        intro d hd
        have := (List.countP_eq_zero.mp h0) d hd
        simpa using this
      refine ⟨0, by simp, by simpa using hc, ?_⟩
      simp only [scanChoices, hc, if_true]
      rw [scanChoices_nomatch re cs (i + 1) _ hrest]
      simp
    · rw [List.countP_cons] at h
      simp only [hc, if_false, Nat.add_zero] at h
      obtain ⟨j, hj, hm, hs⟩ := ih (i + 1) acc h
      refine ⟨j + 1, by simpa using hj, by simpa using hm, ?_⟩
      have hc2 : re.MatchString c.Filename = false := by simpa using hc
      simp only [scanChoices, hc2]
      rw [hs]
      have hidx : i + 1 + j = i + (j + 1) := by omega
      rw [hidx]
      simp

/-- Once the exact pattern has matched at least once, none of the later strategies runs. -/
theorem MatchEpisodeFilename_exact_wins {Show Episode TvdbShow : Type}
    (api : ShowApi Show Episode TvdbShow) (s e : Int) (isSingleSeason : Bool)
    (activeSeason : Int) (show_ : Option Show) (episode : Option Episode)
    (tvdbShow : Option TvdbShow) (choices : List CandidateFile)
    (h : (scanChoices (episodeMatchRegex s e) choices 0 (-1, 0)).2 ≠ 0) :
    MatchEpisodeFilename api s e isSingleSeason activeSeason show_ episode tvdbShow choices
      = scanChoices (episodeMatchRegex s e) choices 0 (-1, 0) := by
  have hb : ((scanChoices (episodeMatchRegex s e) choices 0 (-1, 0)).2 == 0) = false := by
    simpa using h
  unfold MatchEpisodeFilename
  cases show_ <;> cases episode <;> simp [hb]

/-! ## Episode matching: the exact pattern -/

/-- C1: for every season, episode and candidate list, whatever the other arguments are: if the
candidate at position `i` is the only one whose `Filename` matches the exact pattern,
`MatchEpisodeFilename` returns index `i` and found 1 (also stated with "exactly one" as a count);
if `k >= 2` candidates match, found is `k`, which is above 1; and for the three files
`Show.S01E01.mkv`, `Show.S01E02.mkv`, `Show.S01E03.mkv` with season 1, episode 2 the result is
index 1, found 1. -/
theorem C1_exact_match_index_and_found {Show Episode TvdbShow : Type}
    (api : ShowApi Show Episode TvdbShow) (s e : Int) (isSingleSeason : Bool)
    (activeSeason : Int) (show_ : Option Show) (episode : Option Episode)
    (tvdbShow : Option TvdbShow) (choices : List CandidateFile) :
    (∀ (i : Nat) (hi : i < choices.length), exactMatch s e choices[i] = true →
        (∀ (j : Nat) (hj : j < choices.length), j ≠ i → exactMatch s e choices[j] = false) →
        MatchEpisodeFilename api s e isSingleSeason activeSeason show_ episode tvdbShow choices
          = ((i : Int), 1))
    ∧ (choices.countP (exactMatch s e) = 1 →
        ∃ (i : Nat) (hi : i < choices.length), exactMatch s e choices[i] = true ∧
          MatchEpisodeFilename api s e isSingleSeason activeSeason show_ episode tvdbShow choices
            = ((i : Int), 1))
    ∧ (∀ k : Nat, 2 ≤ k → choices.countP (exactMatch s e) = k →
        (MatchEpisodeFilename api s e isSingleSeason activeSeason show_ episode tvdbShow choices).2
            = (k : Int)
          ∧ 1 < (MatchEpisodeFilename api s e isSingleSeason activeSeason show_ episode tvdbShow
              choices).2)
    ∧ MatchEpisodeFilename unitApi 1 2 isSingleSeason activeSeason none none none threeEpisodes
        = (1, 1) := by
  have key : ∀ {S E T : Type} (a : ShowApi S E T) (sh : Option S) (ep : Option E) (tv : Option T)
      (cs : List CandidateFile) (s0 e0 : Int) (i : Nat) (hi : i < cs.length),
      exactMatch s0 e0 cs[i] = true →
      (∀ (j : Nat) (hj : j < cs.length), j ≠ i → exactMatch s0 e0 cs[j] = false) →
      MatchEpisodeFilename a s0 e0 isSingleSeason activeSeason sh ep tv cs = ((i : Int), 1) := by
    intro S E T a sh ep tv cs s0 e0 i hi hm hu
    have hs := scanChoices_unique (episodeMatchRegex s0 e0) cs 0 (-1, 0) i hi hm hu
    have hs2 : scanChoices (episodeMatchRegex s0 e0) cs 0 (-1, 0) = ((i : Int), 1) := by
      rw [hs]; simp
    rw [MatchEpisodeFilename_exact_wins a s0 e0 isSingleSeason activeSeason sh ep tv cs
      (by rw [hs2]; simp), hs2]
  refine ⟨key api show_ episode tvdbShow choices s e, ?_, ?_, ?_⟩
  · intro h1
    obtain ⟨j, hj, hm, hs⟩ :=
      scanChoices_count_one (episodeMatchRegex s e) choices 0 (-1, 0) h1
    have hs2 : scanChoices (episodeMatchRegex s e) choices 0 (-1, 0) = ((j : Int), 1) := by
      rw [hs]; simp
    refine ⟨j, hj, hm, ?_⟩
    rw [MatchEpisodeFilename_exact_wins api s e isSingleSeason activeSeason show_ episode
      tvdbShow choices (by rw [hs2]; simp), hs2]
  · intro k hk hcount
    have hf := scanChoices_found (episodeMatchRegex s e) choices 0 (-1, 0)
    have hf2 : (scanChoices (episodeMatchRegex s e) choices 0 (-1, 0)).2 = (k : Int) := by
      rw [hf]
      have : choices.countP (fun c => (episodeMatchRegex s e).MatchString c.Filename) = k :=
        hcount
      rw [this]; simp
    have hk2 : (2 : Int) ≤ (k : Int) := by exact_mod_cast hk
    rw [MatchEpisodeFilename_exact_wins api s e isSingleSeason activeSeason show_ episode
      tvdbShow choices (by rw [hf2]; omega), hf2]
    exact ⟨rfl, by omega⟩
  · exact key unitApi none none none threeEpisodes 1 2 1 (by decide) (by decide) (by decide)

/-- C1 at the end-to-end scenario: three files, season 1, episode 2, the second file is the only
exact match and is chosen with found 1. -/
theorem C1_exact_match_witness :
    MatchEpisodeFilename unitApi 1 2 false 0 none none none threeEpisodes = (((1 : Nat) : Int), 1) :=
  (C1_exact_match_index_and_found unitApi 1 2 false 0 none none none threeEpisodes).1
    1 (by decide) (by decide) (by decide)

/-! ## Episode matching: order of the strategies -/

/-- C2: when at least one `Filename` matches the exact pattern, found is the number of exact
matches whatever `isSingleSeason`, the show and `activeSeason` are; and when no `Filename` matches
the exact pattern, `isSingleSeason` is false, the show is nil or not anime, and `activeSeason`
differs from `s`, the result is index -1 and found 0, even for file names that contain the bare
episode number; and when no `Filename` matches the exact pattern but, for a single-season show,
some match the bare episode pattern, found is the number of those matches whatever the show and
`activeSeason` are. -/
theorem C2_strategy_order {Show Episode TvdbShow : Type}
    (api : ShowApi Show Episode TvdbShow) (s e : Int) (isSingleSeason : Bool)
    (activeSeason : Int) (show_ : Option Show) (episode : Option Episode)
    (tvdbShow : Option TvdbShow) (choices : List CandidateFile) :
    (0 < choices.countP (exactMatch s e) →
        (MatchEpisodeFilename api s e isSingleSeason activeSeason show_ episode tvdbShow choices).2
          = ((choices.countP (exactMatch s e) : Nat) : Int))
    ∧ (choices.countP (exactMatch s e) = 0 → isSingleSeason = false →
        (∀ sh, show_ = some sh → api.IsAnime sh = false) → activeSeason ≠ s →
        MatchEpisodeFilename api s e isSingleSeason activeSeason show_ episode tvdbShow choices
          = (-1, 0))
    ∧ (choices.countP (exactMatch s e) = 0 → isSingleSeason = true →
        0 < choices.countP (fun c => (singleEpisodeMatchRegex e).MatchString c.Filename) →
        (MatchEpisodeFilename api s e isSingleSeason activeSeason show_ episode tvdbShow choices).2
          = ((choices.countP (fun c => (singleEpisodeMatchRegex e).MatchString c.Filename) : Nat)
              : Int)) := by
  have hf := scanChoices_found (episodeMatchRegex s e) choices 0 (-1, 0)
  have hcnt : choices.countP (fun c => (episodeMatchRegex s e).MatchString c.Filename)
      = choices.countP (exactMatch s e) := rfl
  rw [hcnt] at hf
  refine ⟨?_, ?_, ?_⟩
  · intro hpos
    have hpos2 : (0 : Int) < ((choices.countP (exactMatch s e) : Nat) : Int) := by
      exact_mod_cast hpos
    have hf2 : (scanChoices (episodeMatchRegex s e) choices 0 (-1, 0)).2
        = ((choices.countP (exactMatch s e) : Nat) : Int) := by
      rw [hf]; simp
    rw [MatchEpisodeFilename_exact_wins api s e isSingleSeason activeSeason show_ episode
      tvdbShow choices (by rw [hf2]; omega), hf2]
  · intro h0 hsingle hanime hseason
    have hnone : ∀ c ∈ choices, (episodeMatchRegex s e).MatchString c.Filename = false := by
      intro c hc
      have := (List.countP_eq_zero.mp h0) c hc
      simpa [exactMatch] using this
    have hscan := scanChoices_nomatch (episodeMatchRegex s e) choices 0 (-1, 0) hnone
    have hseason2 : (activeSeason == s) = false := by simpa using hseason
    unfold MatchEpisodeFilename
    rw [hscan, hsingle]
    cases show_ with
    | none => simp [hseason2]
    | some sh =>
      have ha := hanime sh rfl
      cases episode <;> simp [ha, hseason2]
  · intro h0 hsingle hpos
    have hnone : ∀ c ∈ choices, (episodeMatchRegex s e).MatchString c.Filename = false := by
      intro c hc
      have := (List.countP_eq_zero.mp h0) c hc
      simpa [exactMatch] using this
    have hscan := scanChoices_nomatch (episodeMatchRegex s e) choices 0 (-1, 0) hnone
    have hf1 := scanChoices_found (singleEpisodeMatchRegex e) choices 0 (-1, 0)
    have hf2 : (scanChoices (singleEpisodeMatchRegex e) choices 0 (-1, 0)).2
        = ((choices.countP (fun c => (singleEpisodeMatchRegex e).MatchString c.Filename) : Nat)
            : Int) := by
      rw [hf1]; simp
    have hpos2 : (0 : Int)
        < ((choices.countP (fun c => (singleEpisodeMatchRegex e).MatchString c.Filename) : Nat)
            : Int) := by
      exact_mod_cast hpos
    have hne : (scanChoices (singleEpisodeMatchRegex e) choices 0 (-1, 0)).2 ≠ 0 := by
      rw [hf2]; omega
    rw [← hf2]
    unfold MatchEpisodeFilename
    simp only [hscan, hsingle]
    generalize scanChoices (singleEpisodeMatchRegex e) choices 0 (-1, 0) = r at hne ⊢
    have hb : (r.2 == 0) = false := by simpa using hne
    cases show_ <;> cases episode <;> simp [hb]

/-- C2 at a concrete call: `Show.02.mkv` does not match the exact pattern for season 1, episode 2
but does match the bare-number pattern for 2; with `isSingleSeason` false, no show and active
season 3 the result is index -1, found 0. -/
theorem C2_strategy_order_witness :
    (singleEpisodeMatchRegex 2).MatchString "Show.02.mkv" = true
    ∧ MatchEpisodeFilename unitApi 1 2 false 3 none none none [mkCandidate 0 "Show.02.mkv"]
        = (-1, 0) :=
  ⟨by decide,
   (C2_strategy_order unitApi 1 2 false 3 none none none [mkCandidate 0 "Show.02.mkv"]).2.1
     (by decide) rfl (by intro sh h; cases h) (by decide)⟩

/-! ## Stored resume: write policy and round trip -/

theorem calls_append_ne (l : List CacheCall) (c : CacheCall) : l ++ [c] ≠ l := by
  intro h
  have := congrArg List.length h
  simp at this

/-- Saving a session that is not watched, with nonzero duration and a position of at least 180,
writes the record; a later fetch under the same token reads it back. -/
theorem save_then_fetch (cfg : Config) (ttl : Nat) (pp q : PlayerParams) (db : Db)
    (hd : pp.VideoDuration ≠ 0) (hp : 180 ≤ pp.WatchedTime) (hw : IsWatched cfg pp = false)
    (htok : q.ResumeToken = pp.ResumeToken) :
    (FetchStoredResume q (SaveStoredResume cfg ttl pp db).2).1.StoredResume
      = some { Position := pp.WatchedTime, Total := pp.VideoDuration } := by
  have hp0 : pp.WatchedTime ≠ 0 := by
    intro h0
    rw [h0] at hp
    norm_num at hp
  have hlt : ¬ pp.WatchedTime < 180 := not_lt.mpr hp
  have hw2 : IsWatched cfg { pp with StoredResume :=
            (some { Position := pp.WatchedTime, Total := pp.VideoDuration }) } = false := hw
  simp [SaveStoredResume, FetchStoredResume, Db.SetCachedObject, Db.GetCachedObject, resumeKey,
    hd, hp0, hlt, hw2, htok]

/-- C3: `SaveStoredResume` copies the current duration and watched position into the stored record
and then does exactly one of three things: nothing on the cache when the duration is 0 or the
position is 0; else a single delete under the key `stored.resume.` followed by the resume token
when the content is watched or the position is below 180; else a single write of the record under
that key. -/
theorem C3_save_write_policy (cfg : Config) (ttl : Nat) (p : PlayerParams) (db : Db) :
    (SaveStoredResume cfg ttl p db).1.StoredResume
        = some { Position := p.WatchedTime, Total := p.VideoDuration }
    ∧ ((SaveStoredResume cfg ttl p db).2.calls = db.calls
        ↔ (p.VideoDuration = 0 ∨ p.WatchedTime = 0))
    ∧ ((SaveStoredResume cfg ttl p db).2.calls
          = db.calls ++ [CacheCall.Delete ("stored.resume." ++ p.ResumeToken)]
        ↔ (¬ (p.VideoDuration = 0 ∨ p.WatchedTime = 0)
            ∧ (p.WatchedProgress > (cfg.PlaybackPercent : ℚ) ∨ p.WatchedTime < 180)))
    ∧ ((SaveStoredResume cfg ttl p db).2.calls
          = db.calls ++ [CacheCall.Set ttl ("stored.resume." ++ p.ResumeToken)
              { Position := p.WatchedTime, Total := p.VideoDuration }]
        ↔ (¬ (p.VideoDuration = 0 ∨ p.WatchedTime = 0)
            ∧ ¬ (p.WatchedProgress > (cfg.PlaybackPercent : ℚ) ∨ p.WatchedTime < 180)))
    ∧ ((p.VideoDuration = 0 ∨ p.WatchedTime = 0) →
        (SaveStoredResume cfg ttl p db).2.store = db.store) := by
  by_cases h1 : p.VideoDuration = 0 ∨ p.WatchedTime = 0
  · have hb : (p.VideoDuration == 0 || p.WatchedTime == 0) = true := by simpa using h1
    have hres : SaveStoredResume cfg ttl p db
        = ({ p with StoredResume :=
            (some { Position := p.WatchedTime, Total := p.VideoDuration }) }, db) := by
      simp only [SaveStoredResume, hb, if_true]
    rw [hres]
    refine ⟨rfl, ?_, ?_, ?_, ?_⟩
    · simp [h1]
    · simp [h1, Ne.symm (calls_append_ne _ _)]
    · simp [h1, Ne.symm (calls_append_ne _ _)]
    · intro _; rfl
  · have hb : (p.VideoDuration == 0 || p.WatchedTime == 0) = false := by
      simpa using h1
    by_cases h2 : p.WatchedProgress > (cfg.PlaybackPercent : ℚ) ∨ p.WatchedTime < 180
    · have hb2 : (IsWatched cfg { p with StoredResume :=
            (some { Position := p.WatchedTime, Total := p.VideoDuration }) }
          || decide (p.WatchedTime < 180)) = true := by
        simpa [IsWatched] using h2
      have hres : SaveStoredResume cfg ttl p db
          = ({ p with StoredResume :=
            (some { Position := p.WatchedTime, Total := p.VideoDuration }) },
             db.Delete ("stored.resume." ++ p.ResumeToken)) := by
        simp only [SaveStoredResume, hb, hb2, if_true, resumeKey]
        simp
      rw [hres]
      refine ⟨rfl, ?_, ?_, ?_, ?_⟩
      · simp [h1, Db.Delete]
      · simp [h1, h2, Db.Delete]
      · simp [h1, h2, Db.Delete]
      · intro h; exact absurd h h1
    · have hb2 : (IsWatched cfg { p with StoredResume :=
            (some { Position := p.WatchedTime, Total := p.VideoDuration }) }
          || decide (p.WatchedTime < 180)) = false := by
        simpa [IsWatched] using h2
      have hres : SaveStoredResume cfg ttl p db
          = ({ p with StoredResume :=
            (some { Position := p.WatchedTime, Total := p.VideoDuration }) },
             db.SetCachedObject ttl ("stored.resume." ++ p.ResumeToken)
              { Position := p.WatchedTime, Total := p.VideoDuration }) := by
        simp only [SaveStoredResume, hb, hb2, resumeKey]
        simp
      rw [hres]
      refine ⟨rfl, ?_, ?_, ?_, ?_⟩
      · simp [h1, Db.SetCachedObject]
      · simp [h1, h2, Db.SetCachedObject]
      · simp [h1, h2, Db.SetCachedObject]
      · intro h; exact absurd h h1

/-- C3 at a concrete session: at 0 of 1200 seconds the call leaves the cache, which already holds
a record, exactly as it was. -/
theorem C3_save_write_policy_witness :
    (SaveStoredResume sampleConfig 0 (sampleParams 0 1200 0) storedDb).2.store = storedDb.store :=
  (C3_save_write_policy sampleConfig 0 (sampleParams 0 1200 0) storedDb).2.2.2.2
    (Or.inr rfl)

set_option maxRecDepth 8000 in
/-- C4 as stated fails: the watched time is the `float64` of 330.77 and the duration that of
601.4, with the watched threshold at 55 percent.  The position is at least 180, the duration is
positive and the position is below the threshold share of the duration, in exact arithmetic; yet
the progress that `updateWatchTimes` computes in `float64` is above 55, the session counts as
watched, `SaveStoredResume` deletes the cache entry, and a later session with the same token
reads no record back. -/
theorem C4_counterexample :
    (180 : ℚ) ≤ boundaryTimes.watchedTime
    ∧ 0 < boundaryTimes.videoDuration
    ∧ boundaryTimes.watchedTime
        < (boundaryConfig.PlaybackPercent : ℚ) / 100 * boundaryTimes.videoDuration
    ∧ boundaryTimes.watchedTime / boundaryTimes.videoDuration * 100
        < (boundaryConfig.PlaybackPercent : ℚ)
    ∧ (updateWatchTimes boundaryTimes (sampleParams 0 0 0)).WatchedProgress
        = mkRat 7740561859543041 140737488355328
    ∧ IsWatched boundaryConfig (updateWatchTimes boundaryTimes (sampleParams 0 0 0)) = true
    ∧ (SaveStoredResume boundaryConfig 0 (updateWatchTimes boundaryTimes (sampleParams 0 0 0))
        emptyDb).2.calls = [CacheCall.Delete "stored.resume.tok"]
    ∧ (FetchStoredResume (sampleParams 0 0 0) (SaveStoredResume boundaryConfig 0
        (updateWatchTimes boundaryTimes (sampleParams 0 0 0)) emptyDb).2).1.StoredResume
        = some Resume.zero := by
  refine ⟨?_, ?_, ?_, ?_, ?_, ?_, ?_, ?_⟩
  · norm_num [boundaryTimes]
  · norm_num [boundaryTimes]
  · norm_num [boundaryTimes, boundaryConfig, sampleConfig]
  · norm_num [boundaryTimes, boundaryConfig, sampleConfig]
  · rfl
  · rfl
  · rfl
  · rfl

/-- C4 amended: for every position `p` and duration `d` with `p >= 180` and `d > 0`: on a session
whose watched time is `p`, whose duration is `d` and which is not watched, that is whose progress
is not above the configured percentage, `SaveStoredResume` followed by `FetchStoredResume` under
the same resume token yields the stored record with position `p` and total `d`; in particular
this holds for the session that `updateWatchTimes` leaves for watched time `p` and duration `d`
when the progress it computes, `p / d * 100` with each operation rounded to a `float64`, is not
above the configured percentage. -/
theorem C4_resume_round_trip (cfg : Config) (ttl : Nat) (p0 q : PlayerParams) (db : Db)
    (p d : ℚ) (hp : 180 ≤ p) (hd : 0 < d) (htok : q.ResumeToken = p0.ResumeToken) :
    (p0.WatchedTime = p → p0.VideoDuration = d →
        ¬ (p0.WatchedProgress > (cfg.PlaybackPercent : ℚ)) →
        (FetchStoredResume q (SaveStoredResume cfg ttl p0 db).2).1.StoredResume
          = some { Position := p, Total := d })
    ∧ (¬ (f64mul (f64div p d) 100 > (cfg.PlaybackPercent : ℚ)) →
        (updateWatchTimes { error := "", watchedTime := p, videoDuration := d } p0).WatchedTime = p
        ∧ (updateWatchTimes { error := "", watchedTime := p, videoDuration := d } p0).VideoDuration
            = d
        ∧ (FetchStoredResume q (SaveStoredResume cfg ttl
            (updateWatchTimes { error := "", watchedTime := p, videoDuration := d } p0)
              db).2).1.StoredResume
          = some { Position := p, Total := d }) := by
  constructor
  · intro h1 h2 hnw
    have := save_then_fetch cfg ttl p0 q db (by rw [h2]; exact ne_of_gt hd) (by rw [h1]; exact hp)
      (by simpa [IsWatched] using hnw) htok
    rw [h1, h2] at this
    exact this
  · intro hprog
    have hupd : updateWatchTimes { error := "", watchedTime := p, videoDuration := d } p0
        = { p0 with WatchedTime := p, VideoDuration := d,
                    WatchedProgress := f64mul (f64div p d) 100 } := by
      simp [updateWatchTimes, hd]
    rw [hupd]
    refine ⟨rfl, rfl, ?_⟩
    exact save_then_fetch cfg ttl _ q db (ne_of_gt hd) hp (by simpa [IsWatched] using hprog) htok

/-- C4 amended, at a concrete session: 600 of 1200 seconds with threshold 90 is stored and read
back. -/
theorem C4_resume_round_trip_witness :
    (FetchStoredResume (sampleParams 0 0 0) (SaveStoredResume sampleConfig 0
        (updateWatchTimes { error := "", watchedTime := 600, videoDuration := 1200 }
          (sampleParams 0 0 0)) emptyDb).2).1.StoredResume
      = some { Position := 600, Total := 1200 } :=
  ((C4_resume_round_trip sampleConfig 0 (sampleParams 0 0 0) (sampleParams 0 0 0) emptyDb 600 1200
    (by norm_num) (by norm_num) rfl).2 (by decide)).2.2

/-- C5 as stated fails: at position 0 (below 180) of 1200 seconds the call skips the cache, and the
record stored before the call is still there afterwards. -/
theorem C5_counterexample :
    (sampleParams 0 1200 0).WatchedTime < 180
    ∧ (SaveStoredResume sampleConfig 0 (sampleParams 0 1200 0) storedDb).2.store
        (resumeKey (sampleParams 0 1200 0)) = some { Position := 600, Total := 1200 } := by
  constructor
  · norm_num [sampleParams]
  · simp [SaveStoredResume, sampleParams, storedDb, resumeKey]

/-- C5 amended: when the watched position is below 180 and neither it nor the duration is 0, the
cache holds no record under the session's resume key after `SaveStoredResume`, whatever it held
before; when the position or the duration is 0 the cache is left untouched, so a record stored
before the call stays. -/
theorem C5_no_record_below_minimum (cfg : Config) (ttl : Nat) (p : PlayerParams) (db : Db) :
    (p.WatchedTime < 180 → p.WatchedTime ≠ 0 → p.VideoDuration ≠ 0 →
        (SaveStoredResume cfg ttl p db).2.store (resumeKey p) = none)
    ∧ ((p.WatchedTime = 0 ∨ p.VideoDuration = 0) →
        (SaveStoredResume cfg ttl p db).2.store = db.store
          ∧ (SaveStoredResume cfg ttl p db).2.calls = db.calls) := by
  constructor
  · intro hlt hp hd
    simp [SaveStoredResume, hp, hd, hlt, Db.Delete]
  · intro h0
    have hb : (p.VideoDuration == 0 || p.WatchedTime == 0) = true := by
      rcases h0 with h | h <;> simp [h]
    simp only [SaveStoredResume, hb, if_true, and_self]

/-- C5 amended, at a concrete session: at 60 of 1200 seconds the record stored before the call is
deleted. -/
theorem C5_no_record_below_minimum_witness :
    (SaveStoredResume sampleConfig 0 (sampleParams 60 1200 5) storedDb).2.store
      (resumeKey (sampleParams 60 1200 5)) = none :=
  (C5_no_record_below_minimum sampleConfig 0 (sampleParams 60 1200 5) storedDb).1
    (by norm_num [sampleParams]) (by norm_num [sampleParams]) (by norm_num [sampleParams])

/-! ## Teardown -/

/-- A closed player is left as it is by `Close`, which then issues nothing. -/
theorem Close_of_closed (cfg : Config) (stat : String → Bool) (q : Player)
    (h : q.closed = true) : Close cfg stat q = (q, []) := by
  simp [Close, h]

/-- The requests deferred by a first `Close` on a torrent: detach, stop, then the removals of the
loaded subtitle files that exist, last loaded first. -/
theorem Close_open (cfg : Config) (stat : String → Bool) (btp : Player) (t : Torrent)
    (hopen : btp.closed = false) (ht : btp.t = some t) :
    Close cfg stat btp
      = ({ btp with closed := true, closer := true },
         (if t.HasNextFile && IsWatched cfg btp.p then [Request.startNextTimer]
          else if !btp.p.Background && decide (t.PlayerAttached ≤ 1) then
            [Request.RemoveTorrent
                  { ForceConfirmation := false, ForceDrop := false,
                    ForceDelete := btp.notEnoughSpace,
                    IsWatched := IsWatched cfg btp.p }]
          else [])
         ++ ([Request.DetachPlayer, Request.PlayerStop]
          ++ (((if cfg.OSDBAutoLoadDelete then btp.subtitlesLoaded.filter stat else []).map
              Request.osRemove).reverse))) := by
  unfold Close
  simp only [hopen, ht, Bool.false_eq_true, if_false]
  split_ifs <;> simp

theorem Close_open_nil (cfg : Config) (stat : String → Bool) (btp : Player)
    (hopen : btp.closed = false) (ht : btp.t = none) :
    Close cfg stat btp = ({ btp with closed := true, closer := true }, []) := by
  unfold Close
  simp [hopen, ht]

/-- After `Close` the closed flag is set. -/
theorem Close_sets_closed (cfg : Config) (stat : String → Bool) (btp : Player) :
    (Close cfg stat btp).1.closed = true := by
  by_cases h : btp.closed = true
  · rw [Close_of_closed cfg stat btp h]; exact h
  · have hopen : btp.closed = false := by simpa using h
    cases ht : btp.t with
    | none => rw [Close_open_nil cfg stat btp hopen ht]
    | some t => rw [Close_open cfg stat btp t hopen ht]

/-- The requests deferred by `Close` contain no timer start and no removal. -/
theorem count_deferred (removals : List String) (r : Request) (hr : ∀ f, r ≠ Request.osRemove f) :
    ((removals.map Request.osRemove).reverse).count r = 0 := by
  rw [List.count_eq_zero]
  intro hmem
  rw [List.mem_reverse, List.mem_map] at hmem
  obtain ⟨f, _, hf⟩ := hmem
  exact hr f hf.symm

/-- In one call of `Close` each request other than a file removal is issued at most once, and so
is a torrent removal. -/
theorem Close_counts (cfg : Config) (stat : String → Bool) (btp : Player) :
    (Close cfg stat btp).2.countP Request.isRemoveTorrent ≤ 1
    ∧ (Close cfg stat btp).2.count Request.startNextTimer ≤ 1
    ∧ (Close cfg stat btp).2.count Request.DetachPlayer ≤ 1
    ∧ (Close cfg stat btp).2.count Request.PlayerStop ≤ 1 := by
  have hrm : ∀ l : List String,
      ((l.map Request.osRemove).reverse).countP Request.isRemoveTorrent = 0 := by
    intro l
    rw [List.countP_eq_zero]
    intro r hmem
    rw [List.mem_reverse, List.mem_map] at hmem
    obtain ⟨f, _, rfl⟩ := hmem
    simp [Request.isRemoveTorrent]
  have h1 := fun l => count_deferred l Request.startNextTimer (by intro f h; cases h)
  have h2 := fun l => count_deferred l Request.DetachPlayer (by intro f h; cases h)
  have h3 := fun l => count_deferred l Request.PlayerStop (by intro f h; cases h)
  by_cases hc : btp.closed = true
  · rw [Close_of_closed cfg stat btp hc]; simp
  · have hopen : btp.closed = false := by simpa using hc
    cases ht : btp.t with
    | none => rw [Close_open_nil cfg stat btp hopen ht]; simp
    | some t =>
      rw [Close_open cfg stat btp t hopen ht]
      simp only [List.countP_append, List.count_append, hrm, h1, h2, h3]
      split_ifs <;> simp [List.countP_cons, List.count_cons, Request.isRemoveTorrent]

/-- C6: `Close` is idempotent.  For every player state, calling it twice leaves the same state and
issues the same requests as calling it once; the first call sets the closed flag, and on any state
with the closed flag set (whatever else the collaborators changed meanwhile) `Close` changes
nothing and issues nothing; over the two calls the torrent removal, the next-file timer start, the
detach and the stop requests are each issued at most once. -/
theorem C6_close_idempotent (cfg : Config) (stat : String → Bool) (btp : Player) :
    closeTwice cfg stat btp = Close cfg stat btp
    ∧ (Close cfg stat btp).1.closed = true
    ∧ (∀ q : Player, q.closed = true → Close cfg stat q = (q, []))
    ∧ (closeTwice cfg stat btp).2.countP Request.isRemoveTorrent ≤ 1
    ∧ (closeTwice cfg stat btp).2.count Request.startNextTimer ≤ 1
    ∧ (closeTwice cfg stat btp).2.count Request.DetachPlayer ≤ 1
    ∧ (closeTwice cfg stat btp).2.count Request.PlayerStop ≤ 1 := by
  have htwice : closeTwice cfg stat btp = Close cfg stat btp := by
    simp only [closeTwice]
    rw [Close_of_closed cfg stat _ (Close_sets_closed cfg stat btp)]
    simp
  refine ⟨htwice, Close_sets_closed cfg stat btp, fun q h => Close_of_closed cfg stat q h, ?_⟩
  rw [htwice]
  exact Close_counts cfg stat btp

/-- C6 at a concrete player: the state left by a first `Close` of an open player on a torrent is
closed, and a second `Close` on it changes nothing and issues nothing. -/
theorem C6_close_idempotent_witness :
    Close sampleConfig (fun _ => true)
        (Close sampleConfig (fun _ => true)
          (samplePlayer (some (fileTorrent false 1 50)) (sampleParams 600 1200 50))).1
      = ((Close sampleConfig (fun _ => true)
          (samplePlayer (some (fileTorrent false 1 50)) (sampleParams 600 1200 50))).1, []) :=
  (C6_close_idempotent sampleConfig (fun _ => true)
    (samplePlayer (some (fileTorrent false 1 50)) (sampleParams 600 1200 50))).2.2.1 _
    (C6_close_idempotent sampleConfig (fun _ => true)
      (samplePlayer (some (fileTorrent false 1 50)) (sampleParams 600 1200 50))).2.1

/-- C7: on the first `Close` of a player with a torrent: if the torrent has a next file marked and
the content is watched, the only torrent action is the start of the next-file timer; otherwise, if
the session is not a background download and at most one player is attached, the only torrent
action is one removal request whose `ForceDelete` is the not-enough-space flag; in every other
case there is no torrent action at all. -/
theorem C7_close_torrent_disposal (cfg : Config) (stat : String → Bool) (btp : Player)
    (t : Torrent) (hopen : btp.closed = false) (ht : btp.t = some t) :
    ((t.HasNextFile = true ∧ IsWatched cfg btp.p = true) →
        torrentActions (Close cfg stat btp).2 = [Request.startNextTimer])
    ∧ (¬ (t.HasNextFile = true ∧ IsWatched cfg btp.p = true) →
        (btp.p.Background = false ∧ t.PlayerAttached ≤ 1) →
        torrentActions (Close cfg stat btp).2
          = [Request.RemoveTorrent
                  { ForceConfirmation := false, ForceDrop := false,
                    ForceDelete := btp.notEnoughSpace,
                    IsWatched := IsWatched cfg btp.p }])
    ∧ (¬ (t.HasNextFile = true ∧ IsWatched cfg btp.p = true) →
        ¬ (btp.p.Background = false ∧ t.PlayerAttached ≤ 1) →
        torrentActions (Close cfg stat btp).2 = []) := by
  have hdef : ∀ l : List String, torrentActions ((l.map Request.osRemove).reverse) = [] := by
    intro l
    unfold torrentActions
    rw [List.filter_eq_nil_iff]
    intro r hmem
    rw [List.mem_reverse, List.mem_map] at hmem
    obtain ⟨f, _, rfl⟩ := hmem
    simp
  have hdef0 : torrentActions [Request.DetachPlayer, Request.PlayerStop] = [] := by
    simp [torrentActions]
  have happ : ∀ l1 l2 : List Request,
      torrentActions (l1 ++ l2) = torrentActions l1 ++ torrentActions l2 := by
    intro l1 l2
    simp [torrentActions]
  rw [Close_open cfg stat btp t hopen ht]
  simp only [happ, hdef, hdef0, List.append_nil]
  refine ⟨?_, ?_, ?_⟩
  · intro hnext
    have hb : (t.HasNextFile && IsWatched cfg btp.p) = true := by simp [hnext.1, hnext.2]
    simp [hb, torrentActions]
  · intro hnot hrem
    have hb : (t.HasNextFile && IsWatched cfg btp.p) = false := by
      simpa using hnot
    have hr : (!btp.p.Background && decide (t.PlayerAttached ≤ 1)) = true := by
      simp [hrem.1, hrem.2]
    simp [hb, hr, torrentActions]
  · intro hnot hrem
    have hb : (t.HasNextFile && IsWatched cfg btp.p) = false := by
      simpa using hnot
    have hr : (!btp.p.Background && decide (t.PlayerAttached ≤ 1)) = false := by
      by_cases hbg : btp.p.Background = true
      · simp [hbg]
      · have hbg2 : btp.p.Background = false := by simpa using hbg
        have : ¬ t.PlayerAttached ≤ 1 := fun h => hrem ⟨hbg2, h⟩
        simp [hbg2, this]
    simp [hb, hr, torrentActions]

/-- C7 at a concrete player: one attached player, not in the background, no next file: the first
`Close` issues exactly one removal request, without forced deletion. -/
theorem C7_close_torrent_disposal_witness :
    torrentActions (Close sampleConfig (fun _ => true)
        (samplePlayer (some (fileTorrent false 1 50)) (sampleParams 600 1200 50))).2
      = [Request.RemoveTorrent
          { ForceConfirmation := false, ForceDrop := false,
            ForceDelete := false,
            IsWatched := false }] :=
  (C7_close_torrent_disposal sampleConfig (fun _ => true)
    (samplePlayer (some (fileTorrent false 1 50)) (sampleParams 600 1200 50))
    (fileTorrent false 1 50) rfl rfl).2.1
    (by simp [fileTorrent]) (by simp [samplePlayer, sampleParams, fileTorrent])

/-! ## Readiness for the next file -/

theorem wrap64_of_range (x : Int) (h1 : -(2 ^ 63) ≤ x) (h2 : x < 2 ^ 63) : wrap64 x = x := by
  unfold wrap64
  norm_num at h1 h2 ⊢
  omega

/-- C8 as stated fails: with read-ahead 1000, readers' demand 400, next-file buffer 500 and no
awaited pieces the read-ahead exceeds the sum, yet the player is not ready while the torrent's
last progress is 50. -/
theorem C8_counterexample :
    (memoryTorrent 1000 50).GetReadaheadSize
        > (memoryTorrent 1000 50).ReadersReadaheadSum
          + (samplePlayer (some (memoryTorrent 1000 50)) (sampleParams 600 1200 50)).next.bufferSize
    ∧ (memoryTorrent 1000 50).awaitingPieces = []
    ∧ isReadyForNextFile sampleConfig
        (samplePlayer (some (memoryTorrent 1000 50)) (sampleParams 600 1200 50)) = some false := by
  refine ⟨by decide, rfl, ?_⟩
  simp [isReadyForNextFile, samplePlayer, memoryTorrent]
  norm_num

/-- C8 amended: for memory-backed storage `isReadyForNextFile` returns, and is true exactly when
the read-ahead size is positive, the readers' demand is positive, the read-ahead size exceeds the
64-bit sum of the readers' demand and the next file's buffer size, no pieces are awaited and the
torrent's last progress is above 90; the 64-bit sum is the plain sum when that fits; with
read-ahead 1000, demand 400, buffer 500, no awaited pieces and last progress above 90 it is true,
and with read-ahead 800 it is false. -/
theorem C8_memory_readiness (cfg : Config) (btp : Player) (t : Torrent)
    (ht : btp.t = some t) (hmem : t.IsMemoryStorage = true) :
    isReadyForNextFile cfg btp
        = some (decide (0 < t.GetReadaheadSize ∧ 0 < t.ReadersReadaheadSum
            ∧ wrap64 (t.ReadersReadaheadSum + btp.next.bufferSize) < t.GetReadaheadSize
            ∧ t.awaitingPieces = [] ∧ 90 < t.lastProgress))
    ∧ (-(2 ^ 63) ≤ t.ReadersReadaheadSum + btp.next.bufferSize →
        t.ReadersReadaheadSum + btp.next.bufferSize < 2 ^ 63 →
        wrap64 (t.ReadersReadaheadSum + btp.next.bufferSize)
          = t.ReadersReadaheadSum + btp.next.bufferSize)
    ∧ (∀ progress : ℚ, 90 < progress →
        isReadyForNextFile cfg (samplePlayer (some (memoryTorrent 1000 progress)) btp.p)
            = some true
          ∧ isReadyForNextFile cfg (samplePlayer (some (memoryTorrent 800 progress)) btp.p)
            = some false) := by
  refine ⟨?_, fun h1 h2 => wrap64_of_range _ h1 h2, ?_⟩
  · simp only [isReadyForNextFile, ht, hmem, if_true]
    congr 1
    rw [Bool.eq_iff_iff]
    simp [List.isEmpty_iff, and_assoc]
  · intro progress hprog
    have hw : wrap64 900 = 900 := by decide
    constructor
    · simp [isReadyForNextFile, samplePlayer, memoryTorrent, hw, hprog]
    · simp [isReadyForNextFile, samplePlayer, memoryTorrent, hw]

/-- C8 amended, at a concrete player: read-ahead 1000, demand 400, buffer 500, nothing awaited and
last progress 95: ready. -/
theorem C8_memory_readiness_witness :
    isReadyForNextFile sampleConfig
        (samplePlayer (some (memoryTorrent 1000 95)) (sampleParams 600 1200 50)) = some true :=
  ((C8_memory_readiness sampleConfig
      (samplePlayer (some (memoryTorrent 1000 95)) (sampleParams 600 1200 50))
      (memoryTorrent 1000 95) rfl rfl).2.2 95 (by norm_num)).1

/-- C9 as stated fails: on file storage with watched threshold 50, a session at 60 percent (and a
torrent whose last progress is 60) is ready for the next file although 60 is not above 90. -/
theorem C9_counterexample :
    isReadyForNextFile halfConfig
        (samplePlayer (some (fileTorrent true 1 60)) (sampleParams 720 1200 60)) = some true
    ∧ ¬ ((sampleParams 720 1200 60).WatchedProgress > 90)
    ∧ ¬ ((fileTorrent true 1 60).lastProgress > 90) := by
  refine ⟨?_, ?_, ?_⟩
  · simp [isReadyForNextFile, samplePlayer, fileTorrent, IsWatched, sampleParams, halfConfig]
    norm_num
  · norm_num [sampleParams]
  · norm_num [fileTorrent]

/-- C9 amended: for storage that is not memory-backed `isReadyForNextFile` returns, and is true
exactly when the chosen file is watched, that is when `WatchedProgress` is above the configured
`PlaybackPercent`; progress above 90 follows only for a configured threshold of at least 90. -/
theorem C9_file_readiness (cfg : Config) (btp : Player) (t : Torrent)
    (ht : btp.t = some t) (hfile : t.IsMemoryStorage = false) :
    isReadyForNextFile cfg btp = some (decide (btp.p.WatchedProgress > (cfg.PlaybackPercent : ℚ)))
    ∧ (90 ≤ cfg.PlaybackPercent → isReadyForNextFile cfg btp = some true →
        btp.p.WatchedProgress > 90) := by
  have hres : isReadyForNextFile cfg btp
      = some (decide (btp.p.WatchedProgress > (cfg.PlaybackPercent : ℚ))) := by
    simp [isReadyForNextFile, ht, hfile, IsWatched]
  refine ⟨hres, ?_⟩
  intro h90 hready
  rw [hres] at hready
  have hw : btp.p.WatchedProgress > (cfg.PlaybackPercent : ℚ) := by simpa using hready
  have h90q : (90 : ℚ) ≤ (cfg.PlaybackPercent : ℚ) := by exact_mod_cast h90
  linarith

/-- C9 amended, at a concrete player: file storage, threshold 90, session at 95 percent: ready,
and the progress is above 90. -/
theorem C9_file_readiness_witness :
    (sampleParams 1140 1200 95).WatchedProgress > 90 :=
  (C9_file_readiness sampleConfig
      (samplePlayer (some (fileTorrent true 1 95)) (sampleParams 1140 1200 95))
      (fileTorrent true 1 95) rfl rfl).2 (by decide)
    (by simp [isReadyForNextFile, samplePlayer, fileTorrent, IsWatched, sampleParams,
          sampleConfig]; norm_num)

/-! ## Rate limiting -/

/-- C10, the code at a failing input: with limiting after buffering enabled, a download limit of
1000 and an upload limit of 500, `setRateLimiting(true)` sets and applies the engine setting
`download_rate_limit` to 500, the upload limit, not to the configured 1000; `upload_rate_limit`
becomes 500. -/
theorem C10_download_cap_takes_upload_limit :
    sampleConfig.LimitAfterBuffering = true
    ∧ sampleConfig.DownloadRateLimit = 1000
    ∧ sampleConfig.UploadRateLimit = 500
    ∧ (setRateLimiting true (sampleService sampleConfig)).PackSettings "download_rate_limit" = 500
    ∧ (setRateLimiting true (sampleService sampleConfig)).applied "download_rate_limit" = 500
    ∧ (setRateLimiting true (sampleService sampleConfig)).applied "upload_rate_limit" = 500 := by
  decide

/-- C12: with limiting after buffering disabled, `setRateLimiting(enable)` leaves the service as
it is for either value of `enable`: the settings pack and the engine's applied
`download_rate_limit` and `upload_rate_limit` are unchanged and `ApplySettings` is not called. -/
theorem C12_rate_limiting_disabled (enable : Bool) (s : Service)
    (h : s.config.LimitAfterBuffering = false) :
    setRateLimiting enable s = s
    ∧ (setRateLimiting enable s).applied "download_rate_limit" = s.applied "download_rate_limit"
    ∧ (setRateLimiting enable s).applied "upload_rate_limit" = s.applied "upload_rate_limit"
    ∧ (setRateLimiting enable s).PackSettings = s.PackSettings
    ∧ (setRateLimiting enable s).applyCalls = s.applyCalls := by
  have hs : setRateLimiting enable s = s := by
    simp [setRateLimiting, h]
  rw [hs]
  exact ⟨rfl, rfl, rfl, rfl, rfl⟩

/-- C12 at a concrete service: limits 300 and 200 set, limiting after buffering off: enabling
changes nothing and applies nothing. -/
theorem C12_rate_limiting_disabled_witness :
    (setRateLimiting true (limitedService unlimitedConfig)).applied "download_rate_limit" = 300
    ∧ (setRateLimiting true (limitedService unlimitedConfig)).applyCalls = 0 :=
  ⟨(C12_rate_limiting_disabled true (limitedService unlimitedConfig) rfl).2.1.trans (by decide),
   (C12_rate_limiting_disabled true (limitedService unlimitedConfig) rfl).2.2.2.2⟩

/-! ## Attaching a torrent and the result of `Buffer` -/

/-- C16: `SetTorrent(t)` makes `t` the player's torrent; it increases `t.PlayerAttached` by
exactly 1 when the player had no torrent or a different one and leaves it as it is when `t` is
already the player's torrent, so a second `SetTorrent(t)` right after the first does not count
the player again; in every case it clears `IsBuffering`, `IsBufferingFinished`, `IsNextFile` and
`HasNextFile` on `t`, and it touches no other torrent. -/
theorem C16_set_torrent_counts_once (cur : Option Nat) (t : Nat) (ts : TorrentStore) :
    (SetTorrent cur t ts).1 = some t
    ∧ ((cur = none ∨ cur ≠ some t) →
        ((SetTorrent cur t ts).2.1 t).PlayerAttached = (ts t).PlayerAttached + 1)
    ∧ (cur = some t → ((SetTorrent cur t ts).2.1 t).PlayerAttached = (ts t).PlayerAttached)
    ∧ ((SetTorrent (SetTorrent cur t ts).1 t (SetTorrent cur t ts).2.1).2.1 t).PlayerAttached
        = ((SetTorrent cur t ts).2.1 t).PlayerAttached
    ∧ ((SetTorrent cur t ts).2.1 t).IsBuffering = false
    ∧ ((SetTorrent cur t ts).2.1 t).IsBufferingFinished = false
    ∧ ((SetTorrent cur t ts).2.1 t).IsNextFile = false
    ∧ ((SetTorrent cur t ts).2.1 t).HasNextFile = false
    ∧ (∀ a : Nat, a ≠ t → (SetTorrent cur t ts).2.1 a = ts a) := by
  refine ⟨rfl, ?_, ?_, ?_, ?_, ?_, ?_, ?_, ?_⟩
  · intro h
    simp only [SetTorrent, Torrent.attach, if_true]
    have hf : (decide (cur = none) || decide (cur ≠ some t)) = true := by
      rcases h with h | h <;> simp [h]
    rw [hf]
    simp
  · intro h
    simp [SetTorrent, Torrent.attach, h]
  · simp [SetTorrent, Torrent.attach]
  · simp [SetTorrent, Torrent.attach]
  · simp [SetTorrent, Torrent.attach]
  · simp [SetTorrent, Torrent.attach]
  · simp [SetTorrent, Torrent.attach]
  · intro a ha
    simp [SetTorrent, ha]

/-- C16 at a concrete player: a player without torrent is given the torrent behind pointer 0,
which had one player attached: it has two afterwards. -/
theorem C16_set_torrent_counts_once_witness :
    ((SetTorrent none 0 twoTorrents).2.1 0).PlayerAttached = (twoTorrents 0).PlayerAttached + 1 :=
  (C16_set_torrent_counts_once none 0 twoTorrents).2.1 (Or.inl rfl)

/-- C13: once the torrent is attached (resuming or adding it returned no error), the result of
`Buffer` is decided by the buffer signal: an error delivered by the signal is returned as it is;
on success without a chosen file (`hasChosenFile` false or `chosenFile` nil when the signal
arrives) the error is `File not chosen`; and `Buffer` returns nil exactly when the signal delivered
success and `HasChosenFile` is true. -/
theorem C13_buffer_result (added : Except String Torrent) (concurrent : Player → Player)
    (buffered : Option String) (btp : Player)
    (hattach : (if btp.p.ResumeHash != "" then resumeTorrent btp
                else (addTorrent added btp).1) = none) :
    (∀ e : String, buffered = some e → (Buffer added concurrent buffered btp).1 = some e)
    ∧ (buffered = none →
        ((Buffer added concurrent buffered btp).2.hasChosenFile = false
          ∨ (Buffer added concurrent buffered btp).2.chosenFile = none) →
        (Buffer added concurrent buffered btp).1 = some "File not chosen")
    ∧ ((Buffer added concurrent buffered btp).1 = none
        ↔ (buffered = none ∧ HasChosenFile (Buffer added concurrent buffered btp).2 = true)) := by
  have ha : (if (btp.p.ResumeHash != "") = true then (resumeTorrent btp, btp)
      else addTorrent added btp).1 = none := by
    by_cases hr : (btp.p.ResumeHash != "") = true
    · simp only [hr, if_true] at hattach ⊢
      exact hattach
    · simp only [hr, if_false] at hattach ⊢
      exact hattach
  generalize hgen : (if (btp.p.ResumeHash != "") = true then (resumeTorrent btp, btp)
      else addTorrent added btp) = a at ha
  have hB : Buffer added concurrent buffered btp
      = match buffered with
        | some err => (some err, concurrent (markBuffering a.2))
        | none =>
          if !HasChosenFile (concurrent (markBuffering a.2)) then
            (some "File not chosen", concurrent (markBuffering a.2))
          else (none, concurrent (markBuffering a.2)) := by
    unfold Buffer
    simp only [hgen, ha]
  rw [hB]
  generalize concurrent (markBuffering a.2) = q
  cases buffered with
  | some e =>
    refine ⟨?_, ?_, ?_⟩
    · intro e2 he
      cases he
      rfl
    · intro h; cases h
    · simp
  | none =>
    by_cases hc : HasChosenFile q = true
    · have hc2 := hc
      simp only [HasChosenFile, Bool.and_eq_true, Option.isSome_iff_ne_none] at hc2
      refine ⟨?_, ?_, ?_⟩
      · intro e he; cases he
      · intro _ hno
        simp only [hc, Bool.not_true, Bool.false_eq_true, if_false] at hno ⊢
        rcases hno with h | h
        · rw [h] at hc2; exact absurd hc2.1 (by simp)
        · exact absurd h hc2.2
      · simp [hc]
    · have hc3 : HasChosenFile q = false := by simpa using hc
      refine ⟨?_, ?_, ?_⟩
      · intro e he; cases he
      · intro _ _
        simp [hc3]
      · simp [hc3]

/-- C13 at a concrete player: the torrent is attached, the signal delivers success and no file
was chosen: `Buffer` returns `File not chosen`. -/
theorem C13_buffer_result_witness :
    (Buffer (.error "unused") id none unchosenPlayer).1 = some "File not chosen" :=
  (C13_buffer_result (.error "unused") id none unchosenPlayer (by decide)).2.1 rfl
    (Or.inl (by decide))

/-! ## Declining the resume prompt -/

/-- C14, the code at a failing input: the cache holds a record at 600 of 1200 seconds under the
session's key, the session is not a background download, the resume action is `ask`, silent start
is off, a UI host exists and the user declines the prompt, before playback (watched time and
duration 0).  Afterwards `ResumePlayback` is `ResumeNo` and the record in memory is cleared, but
the only cache call made is the read: the cache still holds the record with position 600. -/
theorem C14_declined_resume_keeps_cached_record :
    (processMetadataResume sampleConfig 0 true false (sampleParams 0 0 0) storedDb).1.ResumePlayback
        = ResumeNo
    ∧ (processMetadataResume sampleConfig 0 true false (sampleParams 0 0 0) storedDb).1.StoredResume
        = some { Position := 0, Total := 0 }
    ∧ (processMetadataResume sampleConfig 0 true false (sampleParams 0 0 0) storedDb).2.calls
        = [CacheCall.Get "stored.resume.tok"]
    ∧ (processMetadataResume sampleConfig 0 true false (sampleParams 0 0 0) storedDb).2.store
          (resumeKey (sampleParams 0 0 0))
        = some { Position := 600, Total := 1200 } := by
  have hres : processMetadataResume sampleConfig 0 true false (sampleParams 0 0 0) storedDb
      = ({ sampleParams 0 0 0 with
            StoredResume := (some { Position := 0, Total := 0 }), ResumePlayback := ResumeNo },
         { storedDb with calls := [CacheCall.Get "stored.resume.tok"] }) := by
    simp [processMetadataResume, FetchStoredResume, SaveStoredResume, Db.GetCachedObject,
      resumeKey, sampleParams, storedDb, sampleConfig, ResumeNo, ResumeYes, Resume.Reset,
      Resume.zero]
  rw [hres]
  refine ⟨rfl, rfl, rfl, ?_⟩
  simp [storedDb, resumeKey, sampleParams]

/-! ## Trimming and sorting the choices -/

instance displayLE_total : IsTotal CandidateFile displayLE :=
  ⟨fun a b => le_total a.DisplayName b.DisplayName⟩

instance displayLE_trans : IsTrans CandidateFile displayLE :=
  ⟨fun a _ _ hab hbc => @le_trans String _ a.DisplayName _ _ hab hbc⟩

/-- Trimming directory names changes display names only. -/
theorem trimDirectories_keys (sep : Char) (ds : List (List Char)) (cs : List CandidateFile) :
    (trimDirectories sep ds cs).map candidateKey = cs.map candidateKey := by
  induction ds generalizing cs with
  | nil => rfl
  | cons d ds ih =>
    unfold trimDirectories
    split_ifs
    · rw [ih]
      simp [List.map_map, Function.comp, candidateKey]
    · rfl

/-- C15: for every non-empty candidate list, with the setting that marks watched files off,
`TrimChoices` returns; the list it leaves is sorted in ascending order of `DisplayName`, has the
length of the input, and is a permutation of the input candidates: apart from the display names,
which the trimming rewrites, no candidate is added, dropped or duplicated. -/
theorem C15_trim_choices_sorted_perm (cfg : Config) (sep : Char)
    (IsWatchedFile : String → Int → Bool) (choices : List CandidateFile)
    (hne : choices ≠ []) (hoff : cfg.ShowFilesWatched = false) :
    ∃ out : List CandidateFile,
      TrimChoices cfg sep IsWatchedFile choices = some out
      ∧ List.Sorted displayLE out
      ∧ List.Perm (out.map candidateKey) (choices.map candidateKey)
      ∧ out.length = choices.length := by
  cases choices with
  | nil => exact absurd rfl hne
  | cons c0 rest =>
    refine ⟨sortByDisplayName (trimDirectories sep (splitOnChar sep c0.DisplayName.toList)
      (c0 :: rest)), ?_, ?_, ?_, ?_⟩
    · simp [TrimChoices, hoff]
    · exact List.sorted_insertionSort displayLE _
    · have hp := List.perm_insertionSort displayLE
        (trimDirectories sep (splitOnChar sep c0.DisplayName.toList) (c0 :: rest))
      have hm := hp.map candidateKey
      rw [trimDirectories_keys] at hm
      exact hm
    · have hp := List.perm_insertionSort displayLE
        (trimDirectories sep (splitOnChar sep c0.DisplayName.toList) (c0 :: rest))
      have hl := hp.length_eq
      have hk := congrArg List.length (trimDirectories_keys sep
        (splitOnChar sep c0.DisplayName.toList) (c0 :: rest))
      simp only [List.length_map] at hk
      unfold sortByDisplayName
      rw [hl, hk]

/-- C15 at a concrete list: three files of one folder, out of order. -/
theorem C15_trim_choices_sorted_perm_witness :
    ∃ out : List CandidateFile,
      TrimChoices sampleConfig '/' (fun _ _ => false) folderChoices = some out
      ∧ List.Sorted displayLE out
      ∧ List.Perm (out.map candidateKey) (folderChoices.map candidateKey)
      ∧ out.length = folderChoices.length :=
  C15_trim_choices_sorted_perm sampleConfig '/' (fun _ _ => false) folderChoices
    (by simp [folderChoices]) rfl

/-! ## Finding the next file -/

theorem finishNextFile_done (cfg : Config) (api : NextFileApi) (btp : Player) (t : Torrent)
    (f : Option File) : (finishNextFile cfg api btp t f).next.done = btp.next.done := by
  cases f <;> rfl

/-- Whenever `findNextFile` returns, either its guard held and nothing was done, or the
descriptor is marked done. -/
theorem findNextFile_done (cfg : Config) (movieType : String) (api : NextFileApi)
    (btp b1 : Player) (l : List Lookup) (h : findNextFile cfg movieType api btp = some (b1, l)) :
    (b1 = btp ∧ l = []
      ∧ ((btp.p.ShowID == 0 && btp.p.Query == "") || btp.next.done || !cfg.SmartEpisodeStart)
          = true)
    ∨ b1.next.done = true := by
  unfold findNextFile at h
  by_cases hg : ((btp.p.ShowID == 0 && btp.p.Query == "") || btp.next.done
      || !cfg.SmartEpisodeStart) = true
  · rw [if_pos hg] at h
    simp only [Option.some.injEq, Prod.mk.injEq] at h
    exact Or.inl ⟨h.1.symm, h.2.symm, hg⟩
  · rw [if_neg hg] at h
    right
    simp only [] at h
    split_ifs at h with h1 h2
    · cases ht : btp.t with
      | none => simp [ht] at h
      | some t =>
        simp only [ht, Option.some.injEq, Prod.mk.injEq] at h
        rw [← h.1, finishNextFile_done]
    · simp only [Option.some.injEq, Prod.mk.injEq] at h
      rw [← h.1]
    · cases ht : btp.t with
      | none => simp [ht] at h
      | some t =>
        simp only [ht] at h
        split at h
        · simp only [Option.some.injEq, Prod.mk.injEq] at h
          rw [← h.1, finishNextFile_done]
        · split at h
          · cases h
          · simp only [Option.some.injEq, Prod.mk.injEq] at h
            rw [← h.1, finishNextFile_done]

/-- C19: `findNextFile` selects no next file outside a series or query context: for a session
with `ShowID` 0 and an empty `Query` it returns at once, leaving the player (descriptor and
torrent, so `HasNextFile`) as it is and making no lookup; and for a session with `ShowID` 0 and
the movie content type it returns with the descriptor's file and the torrent unchanged and no
lookup made, so a nil next file stays nil. -/
theorem C19_no_next_file_outside_context (cfg : Config) (movieType : String)
    (api : NextFileApi) (btp : Player) :
    (btp.p.ShowID = 0 → btp.p.Query = "" →
        findNextFile cfg movieType api btp = some (btp, []))
    ∧ (btp.p.ShowID = 0 → btp.p.ContentType = movieType →
        ∃ b1 : Player, findNextFile cfg movieType api btp = some (b1, [])
          ∧ b1.next.f = btp.next.f ∧ b1.t = btp.t
          ∧ (btp.next.f = none → b1.next.f = none)) := by
  constructor
  · intro hs hq
    simp [findNextFile, hs, hq]
  · intro hs hm
    by_cases hg : ((btp.p.ShowID == 0 && btp.p.Query == "") || btp.next.done
        || !cfg.SmartEpisodeStart) = true
    · refine ⟨btp, ?_, rfl, rfl, fun h => h⟩
      unfold findNextFile
      rw [if_pos hg]
    · refine ⟨{ btp with next := { btp.next with done := true } }, ?_, rfl, rfl, fun h => h⟩
      unfold findNextFile
      rw [if_neg hg]
      simp [hs, hm]

/-- C19 at a concrete session: no show, no query: the player is left as it is. -/
theorem C19_no_next_file_outside_context_witness :
    findNextFile sampleConfig "movie" sampleApi
        (samplePlayer (some (fileTorrent false 1 50)) (sampleParams 600 1200 50))
      = some (samplePlayer (some (fileTorrent false 1 50)) (sampleParams 600 1200 50), []) :=
  (C19_no_next_file_outside_context sampleConfig "movie" sampleApi
    (samplePlayer (some (fileTorrent false 1 50)) (sampleParams 600 1200 50))).1 rfl rfl

/-- C20: `findNextFile` is idempotent: for every session state from which a first call returns, a
second call with the same settings leaves the player exactly as the first call left it, so the
descriptor (file, started, done, buffer size) and the torrent's `HasNextFile` are unchanged, and
makes no file lookup. -/
theorem C20_find_next_file_idempotent (cfg : Config) (movieType : String) (api : NextFileApi)
    (btp b1 : Player) (l : List Lookup)
    (h : findNextFile cfg movieType api btp = some (b1, l)) :
    findNextFile cfg movieType api b1 = some (b1, [])
    ∧ (∀ b2 l2, findNextFile cfg movieType api b1 = some (b2, l2) →
        b2.next = b1.next ∧ b2.t = b1.t ∧ l2 = []) := by
  have h2 : findNextFile cfg movieType api b1 = some (b1, []) := by
    rcases findNextFile_done cfg movieType api btp b1 l h with ⟨hb, _, hg⟩ | hd
    · rw [hb]
      unfold findNextFile
      rw [if_pos hg]
    · unfold findNextFile
      simp [hd]
  refine ⟨h2, ?_⟩
  intro b2 l2 hb2
  rw [h2] at hb2
  simp only [Option.some.injEq, Prod.mk.injEq] at hb2
  rw [← hb2.1, ← hb2.2]
  exact ⟨rfl, rfl, rfl⟩

/-- The first call of `findNextFile` on the series player finds episode 3 with one lookup. -/
theorem findNextFile_seriesPlayer :
    findNextFile sampleConfig "movie" sampleApi seriesPlayer
      = some ({ seriesPlayer with
            next := { f := some (sampleFile 2 "Show.S01E03.mkv"), started := false, done := true,
                      bufferSize := 100 },
            t := some { fileTorrent false 1 50 with HasNextFile := true } },
          [Lookup.GetNextEpisodeFile 1 3]) := by
  simp [findNextFile, findNextEpisode, finishNextFile, seriesPlayer, samplePlayer, sampleParams,
    sampleConfig, sampleApi, sampleFile, fileTorrent]
  decide

/-- C20 at a concrete session: after the first call has found episode 3, a second call changes
nothing and looks nothing up. -/
theorem C20_find_next_file_idempotent_witness :
    findNextFile sampleConfig "movie" sampleApi
        { seriesPlayer with
            next := { f := some (sampleFile 2 "Show.S01E03.mkv"), started := false, done := true,
                      bufferSize := 100 },
            t := some { fileTorrent false 1 50 with HasNextFile := true } }
      = some ({ seriesPlayer with
            next := { f := some (sampleFile 2 "Show.S01E03.mkv"), started := false, done := true,
                      bufferSize := 100 },
            t := some { fileTorrent false 1 50 with HasNextFile := true } }, []) :=
  (C20_find_next_file_idempotent sampleConfig "movie" sampleApi seriesPlayer _ _
    findNextFile_seriesPlayer).1

/-! ## The buffer dialog -/

/-- The poll of the fully buffered archive whose extraction directory already exists. -/
theorem updateBufferDialog_extracted (StatusChecking : Int) (env : BufferEnv) (btp : Player)
    (s : Service) (t : Torrent) (cf : File) (state : Int)
    (hopen : btp.closer = false) (ht : btp.t = some t)
    (hdialog : env.dialog = some false ∨ t.IsBufferingFinished = true)
    (hstatus : env.lastStatus = some state)
    (hrar : t.IsRarArchive = true) (hprog : env.GetBufferProgress ≥ 100)
    (hfile : btp.chosenFile = some cf)
    (hstat : env.stat (env.Join [s.config.DownloadPath, env.Dir cf.Path, "extracted"]) = true) :
    updateBufferDialog StatusChecking env btp s
      = some ⟨false, some "File already exists",
          (findExtracted env (env.Join [s.config.DownloadPath, env.Dir cf.Path, "extracted"])
            btp).1,
          setRateLimiting true s,
          (if env.dialog.isSome then [BufferEvent.dialogUpdate env.GetBufferProgress] else [])
            ++ (findExtracted env
                (env.Join [s.config.DownloadPath, env.Dir cf.Path, "extracted"]) btp).2
            ++ [BufferEvent.Signal]⟩ := by
  have hgate : ((env.dialog.isNone || env.dialog == some true) && !t.IsBufferingFinished)
      = false := by
    rcases hdialog with h | h
    · rw [h]; rfl
    · rw [h]; simp
  have hp : decide (env.GetBufferProgress ≥ 100) = true := by simpa using hprog
  unfold updateBufferDialog
  simp only [hopen, ht, hgate, hstatus, hrar, hp, hfile, hstat, Bool.false_eq_true, if_false,
    Bool.or_true, Bool.and_self, if_true]

/-- C18: for a RAR-archive torrent whose buffer progress has reached 100 with a chosen file, when
the extraction directory already exists and holds exactly one file, `updateBufferDialog` returns
not finished with the error `File already exists`, leaves that file's name as the extracted
name, does not start the unrar command, and sends the success signal and no error to the waiters
on the buffer signal. -/
theorem C18_existing_extraction (StatusChecking : Int) (env : BufferEnv) (btp : Player)
    (s : Service) (t : Torrent) (cf : File) (state : Int) (name : String)
    (hopen : btp.closer = false) (ht : btp.t = some t)
    (hdialog : env.dialog = some false ∨ t.IsBufferingFinished = true)
    (hstatus : env.lastStatus = some state)
    (hrar : t.IsRarArchive = true) (hprog : env.GetBufferProgress ≥ 100)
    (hfile : btp.chosenFile = some cf)
    (hstat : env.stat (env.Join [s.config.DownloadPath, env.Dir cf.Path, "extracted"]) = true)
    (hdir : env.readDir (env.Join [s.config.DownloadPath, env.Dir cf.Path, "extracted"])
      = .ok [name]) :
    ∃ r : BufferResult, updateBufferDialog StatusChecking env btp s = some r
      ∧ r.btp = { btp with extracted := name }
      ∧ r.finished = false
      ∧ r.err = some "File already exists"
      ∧ BufferEvent.Signal ∈ r.events
      ∧ (∀ e : String, BufferEvent.Broadcast e ∉ r.events)
      ∧ (∀ (n : String) (a : List String), BufferEvent.unrar n a ∉ r.events)
      ∧ r.s = setRateLimiting true s := by
  have hfe : findExtracted env (env.Join [s.config.DownloadPath, env.Dir cf.Path, "extracted"])
      btp = ({ btp with extracted := name }, []) := by
    simp [findExtracted, hdir]
  refine ⟨_, updateBufferDialog_extracted StatusChecking env btp s t cf state hopen ht hdialog
    hstatus hrar hprog hfile hstat, ?_, rfl, rfl, ?_, ?_, ?_, rfl⟩
  · rw [hfe]
  · simp
  · intro e
    rw [hfe]
    cases env.dialog <;> simp
  · intro n a
    rw [hfe]
    cases env.dialog <;> simp

/-- C18 at a concrete poll: the archive `Show/show.rar` is fully buffered and the directory
`Show/extracted` holds the single file `show.mkv`. -/
theorem C18_existing_extraction_witness :
    ∃ r : BufferResult, updateBufferDialog 1 extractedEnv rarPlayer (sampleService sampleConfig)
        = some r
      ∧ r.btp = { rarPlayer with extracted := "show.mkv" }
      ∧ r.finished = false
      ∧ r.err = some "File already exists"
      ∧ BufferEvent.Signal ∈ r.events
      ∧ (∀ e : String, BufferEvent.Broadcast e ∉ r.events)
      ∧ (∀ (n : String) (a : List String), BufferEvent.unrar n a ∉ r.events)
      ∧ r.s = setRateLimiting true (sampleService sampleConfig) :=
  C18_existing_extraction 1 extractedEnv rarPlayer (sampleService sampleConfig) rarTorrent
    (sampleFile 0 "Show/show.rar") 3 "show.mkv" rfl rfl (Or.inl rfl) rfl rfl
    (by norm_num [extractedEnv]) rfl rfl rfl

/-- C17, the code at a failing input: the archive is fully buffered and its extraction directory
already exists.  The poll sends the success signal and yet returns not finished, with the error
`File already exists`; so `bufferDialog` keeps polling, and the poll at the next one-second tick
pushes another progress update and sends the success signal a second time. -/
theorem C17_signal_without_finish :
    (updateBufferDialog 1 extractedEnv rarPlayer (sampleService sampleConfig)).map
        (fun r => (r.finished, r.err, r.events))
      = some (false, some "File already exists",
          [BufferEvent.dialogUpdate 100, BufferEvent.Signal])
    ∧ (bufferDialog 1 extractedEnv [(Tick.oneSecond, extractedEnv)] rarPlayer
          (sampleService sampleConfig)).map (fun r => (r.returned, r.events))
      = some (false, [BufferEvent.dialogUpdate 100, BufferEvent.Signal,
          BufferEvent.dialogUpdate 100, BufferEvent.Signal]) := by
  constructor
  · rfl
  · rfl

/-! ## Rate limits at the end of the player loop -/

/-- C11, the code at failing inputs, with limiting after buffering enabled and limits of 1000
(download) and 500 (upload) configured.  Whatever the session, a run of `playerLoop` that receives
an error from the buffer signal, or whose playback does not start before the timeout, ends (after
its deferred `Close`) with the service exactly as it found it.  So after buffering has completed
and applied the caps, a run that times out leaves `download_rate_limit` and `upload_rate_limit`
at 500; a run that receives an error leaves earlier limits of 300 and 200 in place; only the run
that reaches the end of playback resets both to 0. -/
theorem C11_limits_stay_on_early_return :
    (∀ (st : Session) (e : String) (start : PlaybackStart) (ticks : List WatchTimes),
        (playerLoop sampleConfig 0 "movie" sampleApi (fun _ => true) (some e) start noTimes ticks
            st).map (fun r => (r.btp.closed, r.s.applied "download_rate_limit",
              r.s.applied "upload_rate_limit", r.s.applyCalls))
          = some (((Close sampleConfig (fun _ => true) st.btp).1).closed,
              st.s.applied "download_rate_limit", st.s.applied "upload_rate_limit",
              st.s.applyCalls))
    ∧ (bufferDialog 1 downloadingEnv [] (sampleSession (sampleService sampleConfig)).btp
          (sampleService sampleConfig)).map
        (fun r => (r.returned, r.events, r.s.applied "download_rate_limit",
          r.s.applied "upload_rate_limit"))
        = some (true, [BufferEvent.dialogUpdate 100, BufferEvent.Signal], 500, 500)
    ∧ (playerLoop sampleConfig 0 "movie" sampleApi (fun _ => true) none PlaybackStart.timeout
          noTimes [] (sampleSession (setRateLimiting true (sampleService sampleConfig)))).map
        (fun r => (r.btp.closed, r.broadcasts, r.s.applied "download_rate_limit",
          r.s.applied "upload_rate_limit"))
        = some (true, ["Playback was unable to start before timeout"], 500, 500)
    ∧ (playerLoop sampleConfig 0 "movie" sampleApi (fun _ => true)
          (some "Not enough space on download destination") PlaybackStart.playing noTimes []
          (sampleSession (limitedService sampleConfig))).map
        (fun r => (r.btp.closed, r.s.applied "download_rate_limit",
          r.s.applied "upload_rate_limit"))
        = some (true, 300, 200)
    ∧ (playerLoop sampleConfig 0 "movie" sampleApi (fun _ => true) none PlaybackStart.playing
          noTimes [] (sampleSession (setRateLimiting true (sampleService sampleConfig)))).map
        (fun r => (r.btp.closed, r.s.applied "download_rate_limit",
          r.s.applied "upload_rate_limit"))
        = some (true, 0, 0) := by
  refine ⟨?_, ?_, ?_, ?_, ?_⟩
  · intro st e start ticks
    rfl
  · rfl
  · rfl
  · rfl
  · rfl

/-! ## The next file: series and flat-candidate search -/

/-- The search in a series context, started without a file, leaves the first probe that returned
a file. -/
theorem findNextEpisode_first (api : NextFileApi) (p : PlayerParams) :
    (findNextEpisode api p none).1
      = (api.GetNextEpisodeFile p.Season (p.Episode + 1)).or
          ((if p.AbsoluteNumber > 0 then api.GetNextSingleEpisodeFile (p.AbsoluteNumber + 1)
            else none).or
            ((api.GetNextSingleEpisodeFile (p.Episode + 1)).or
              (api.GetNextEpisodeFile (p.Season + 1) 1))) := by
  unfold findNextEpisode
  cases ha : api.GetNextEpisodeFile p.Season (p.Episode + 1) with
  | some f => simp
  | none =>
    by_cases habs : p.AbsoluteNumber > 0
    · cases hb : api.GetNextSingleEpisodeFile (p.AbsoluteNumber + 1) with
      | some f => simp [habs, hb]
      | none =>
        cases hc : api.GetNextSingleEpisodeFile (p.Episode + 1) with
        | some f => simp [habs, hb, hc]
        | none => simp [habs, hb, hc]
    · cases hc : api.GetNextSingleEpisodeFile (p.Episode + 1) with
      | some f => simp [habs, hc]
      | none => simp [habs, hc]

/-- When the first probe returns a file, it is the only lookup made. -/
theorem findNextEpisode_first_only (api : NextFileApi) (p : PlayerParams) (f : File)
    (ha : api.GetNextEpisodeFile p.Season (p.Episode + 1) = some f) :
    (findNextEpisode api p none).2 = [Lookup.GetNextEpisodeFile p.Season (p.Episode + 1)] := by
  unfold findNextEpisode
  simp [ha]

/-- C21: in the series case (`ShowID` non-zero, smart episode start on, descriptor not yet done
and empty) `findNextFile` returns and leaves as next file the first non-empty result of, in this
order: the file for (Season, Episode+1); the bare-number file for AbsoluteNumber+1, consulted
only when AbsoluteNumber > 0; the bare-number file for Episode+1; the file for (Season+1, 1).
`HasNextFile` ends true exactly when that is a file, and when the first probe returns a file no
other lookup is made. -/
theorem C21_series_probe_order (cfg : Config) (movieType : String) (api : NextFileApi)
    (btp : Player) (t : Torrent) (hshow : btp.p.ShowID ≠ 0)
    (hsmart : cfg.SmartEpisodeStart = true) (hfirst : btp.next.done = false)
    (hempty : btp.next.f = none) (ht : btp.t = some t) :
    ∃ (b1 : Player) (l : List Lookup), findNextFile cfg movieType api btp = some (b1, l)
      ∧ b1.next.f
          = (api.GetNextEpisodeFile btp.p.Season (btp.p.Episode + 1)).or
              ((if btp.p.AbsoluteNumber > 0 then
                  api.GetNextSingleEpisodeFile (btp.p.AbsoluteNumber + 1) else none).or
                ((api.GetNextSingleEpisodeFile (btp.p.Episode + 1)).or
                  (api.GetNextEpisodeFile (btp.p.Season + 1) 1)))
      ∧ b1.t = some { t with HasNextFile := b1.next.f.isSome }
      ∧ b1.next.done = true
      ∧ (∀ f : File, api.GetNextEpisodeFile btp.p.Season (btp.p.Episode + 1) = some f →
          l = [Lookup.GetNextEpisodeFile btp.p.Season (btp.p.Episode + 1)]) := by
  have hg : ((btp.p.ShowID == 0 && btp.p.Query == "") || btp.next.done
      || !cfg.SmartEpisodeStart) = false := by
    simp [hshow, hfirst, hsmart]
  have hs : (btp.p.ShowID != 0) = true := by simpa using hshow
  have hres : findNextFile cfg movieType api btp
      = some (finishNextFile cfg api { btp with next := { btp.next with done := true } } t
          (findNextEpisode api btp.p none).1, (findNextEpisode api btp.p none).2) := by
    unfold findNextFile
    simp only [hg, Bool.false_eq_true, if_false, hs, if_true, ht, hempty]
  refine ⟨_, _, hres, ?_, ?_, ?_, ?_⟩
  · rw [← findNextEpisode_first]
    cases (findNextEpisode api btp.p none).1 <;> rfl
  · cases (findNextEpisode api btp.p none).1 <;> rfl
  · rw [finishNextFile_done]
  · intro f hf
    exact findNextEpisode_first_only api btp.p f hf

/-- C21 at a concrete session: season 1, episode 2, the torrent holds episode 3: the first probe
finds it. -/
theorem C21_series_probe_order_witness :
    ∃ (b1 : Player) (l : List Lookup),
      findNextFile sampleConfig "movie" sampleApi seriesPlayer = some (b1, l)
      ∧ b1.next.f
          = (sampleApi.GetNextEpisodeFile seriesPlayer.p.Season (seriesPlayer.p.Episode + 1)).or
              ((if seriesPlayer.p.AbsoluteNumber > 0 then
                  sampleApi.GetNextSingleEpisodeFile (seriesPlayer.p.AbsoluteNumber + 1)
                else none).or
                ((sampleApi.GetNextSingleEpisodeFile (seriesPlayer.p.Episode + 1)).or
                  (sampleApi.GetNextEpisodeFile (seriesPlayer.p.Season + 1) 1)))
      ∧ b1.t = some { fileTorrent false 1 50 with HasNextFile := b1.next.f.isSome }
      ∧ b1.next.done = true
      ∧ (∀ f : File,
          sampleApi.GetNextEpisodeFile seriesPlayer.p.Season (seriesPlayer.p.Episode + 1)
            = some f →
          l = [Lookup.GetNextEpisodeFile seriesPlayer.p.Season (seriesPlayer.p.Episode + 1)]) :=
  C21_series_probe_order sampleConfig "movie" sampleApi seriesPlayer (fileTorrent false 1 50)
    (by decide) rfl rfl rfl rfl

/-- In the flat-candidate case `findNextFile` is the search among the candidates followed by the
common end. -/
theorem findNextFile_flat (cfg : Config) (movieType : String) (api : NextFileApi)
    (btp : Player) (t : Torrent) (candidates : List CandidateFile)
    (hshow : btp.p.ShowID = 0) (hquery : btp.p.Query ≠ "")
    (hmovie : btp.p.ContentType ≠ movieType)
    (hsmart : cfg.SmartEpisodeStart = true) (hfirst : btp.next.done = false)
    (ht : btp.t = some t)
    (hcand : api.GetCandidateFiles { btp with next := { btp.next with done := true } }
      = .ok candidates) :
    findNextFile cfg movieType api btp
      = (findNextCandidate api btp.p btp.next.f candidates).map (fun f =>
          (finishNextFile cfg api { btp with next := { btp.next with done := true } } t f,
           [Lookup.GetCandidateFiles])) := by
  obtain ⟨bt, bp, bnext, bcf, bhcf, bex, bsub, bnes, bcloser, bclosed⟩ := btp
  simp only at ht hshow hquery hmovie hfirst hcand
  subst ht
  have hg : ((bp.ShowID == 0 && bp.Query == "") || bnext.done
      || !cfg.SmartEpisodeStart) = false := by
    simp [hquery, hfirst, hsmart]
  have hs : (bp.ShowID != 0) = false := by simp [hshow]
  have hm : (bp.ContentType == movieType) = false := by simpa using hmovie
  unfold findNextFile
  simp only [hg, Bool.false_eq_true, if_false, hs, hm, hcand]
  cases findNextCandidate api bp bnext.f candidates <;> rfl

/-- C22: in the flat-candidate case (`ShowID` 0, non-empty `Query`, not a movie, descriptor not
yet done and empty) with a resolved candidate list of length n, `findNextFile` selects: the file
at the position given by the `Index` of `candidates[NextFileIndex]` when
`0 <= NextFileIndex < n`; else the first torrent file whose `Index` equals `NextOriginalIndex`
when `0 <= NextOriginalIndex <` number of torrent files; else the file of
`candidates[FileIndex+1]` when `0 <= FileIndex+1 < n`; else no file at all, in which case it
returns with `HasNextFile` false. -/
theorem C22_flat_candidate_order (cfg : Config) (movieType : String) (api : NextFileApi)
    (btp : Player) (t : Torrent) (candidates : List CandidateFile)
    (hshow : btp.p.ShowID = 0) (hquery : btp.p.Query ≠ "")
    (hmovie : btp.p.ContentType ≠ movieType)
    (hsmart : cfg.SmartEpisodeStart = true) (hfirst : btp.next.done = false)
    (hempty : btp.next.f = none) (ht : btp.t = some t)
    (hcand : api.GetCandidateFiles { btp with next := { btp.next with done := true } }
      = .ok candidates) :
    (∀ (c : CandidateFile) (f : File),
        0 ≤ btp.p.NextFileIndex → btp.p.NextFileIndex < candidates.length →
        sliceAt candidates btp.p.NextFileIndex = some c → sliceAt api.files c.Index = some f →
        ∃ b1, findNextFile cfg movieType api btp = some (b1, [Lookup.GetCandidateFiles])
          ∧ b1.next.f = some f ∧ b1.t = some { t with HasNextFile := true })
    ∧ (¬ (0 ≤ btp.p.NextFileIndex ∧ btp.p.NextFileIndex < candidates.length) →
        0 ≤ btp.p.NextOriginalIndex → btp.p.NextOriginalIndex < api.files.length →
        ∃ b1, findNextFile cfg movieType api btp = some (b1, [Lookup.GetCandidateFiles])
          ∧ b1.next.f = api.files.find? (fun f => f.Index == btp.p.NextOriginalIndex)
          ∧ b1.t = some { t with HasNextFile := b1.next.f.isSome })
    ∧ (∀ (c : CandidateFile) (f : File),
        ¬ (0 ≤ btp.p.NextFileIndex ∧ btp.p.NextFileIndex < candidates.length) →
        ¬ (0 ≤ btp.p.NextOriginalIndex ∧ btp.p.NextOriginalIndex < api.files.length) →
        btp.p.FileIndex + 1 < candidates.length →
        sliceAt candidates (btp.p.FileIndex + 1) = some c → sliceAt api.files c.Index = some f →
        ∃ b1, findNextFile cfg movieType api btp = some (b1, [Lookup.GetCandidateFiles])
          ∧ b1.next.f = some f ∧ b1.t = some { t with HasNextFile := true })
    ∧ (¬ (0 ≤ btp.p.NextFileIndex ∧ btp.p.NextFileIndex < candidates.length) →
        ¬ (0 ≤ btp.p.NextOriginalIndex ∧ btp.p.NextOriginalIndex < api.files.length) →
        ¬ (btp.p.FileIndex + 1 < candidates.length) →
        ∃ b1, findNextFile cfg movieType api btp = some (b1, [Lookup.GetCandidateFiles])
          ∧ b1.next.f = none ∧ b1.t = some { t with HasNextFile := false }) := by
  have hflat := findNextFile_flat cfg movieType api btp t candidates hshow hquery hmovie hsmart
    hfirst ht hcand
  rw [hflat, hempty]
  have h1 : ∀ x : Int, (decide (x > -1)) = decide (0 ≤ x) := by
    intro x
    by_cases hx : 0 ≤ x
    · have : x > -1 := by omega
      simp [hx, this]
    · have : ¬ x > -1 := by omega
      simp [hx, this]
  refine ⟨?_, ?_, ?_, ?_⟩
  · intro c f hlo hhi hc hf
    have hb : (decide (btp.p.NextFileIndex > -1)
        && decide (btp.p.NextFileIndex < (candidates.length : Int))) = true := by
      rw [h1]; simp [hlo, hhi]
    refine ⟨finishNextFile cfg api { btp with next := { btp.next with done := true } } t (some f), ?_, rfl, rfl⟩
    simp only [findNextCandidate, hb, if_true, hc, hf, Option.map_some']
  · intro hn hlo hhi
    have hb : (decide (btp.p.NextFileIndex > -1)
        && decide (btp.p.NextFileIndex < (candidates.length : Int))) = false := by
      rw [h1]
      by_cases hx : 0 ≤ btp.p.NextFileIndex
      · have : ¬ btp.p.NextFileIndex < (candidates.length : Int) := fun h => hn ⟨hx, h⟩
        simp [hx, this]
      · simp [hx]
    have hb2 : (decide (btp.p.NextOriginalIndex > -1)
        && decide (btp.p.NextOriginalIndex < (api.files.length : Int))) = true := by
      rw [h1]; simp [hlo, hhi]
    simp only [findNextCandidate, hb, hb2, if_true, Bool.false_eq_true, if_false]
    cases hfind : api.files.find? (fun f => f.Index == btp.p.NextOriginalIndex) with
    | none => exact ⟨_, rfl, rfl, rfl⟩
    | some f => exact ⟨_, rfl, rfl, rfl⟩
  · intro c f hn hn2 hlt hc hf
    have hb : (decide (btp.p.NextFileIndex > -1)
        && decide (btp.p.NextFileIndex < (candidates.length : Int))) = false := by
      rw [h1]
      by_cases hx : 0 ≤ btp.p.NextFileIndex
      · have : ¬ btp.p.NextFileIndex < (candidates.length : Int) := fun h => hn ⟨hx, h⟩
        simp [hx, this]
      · simp [hx]
    have hb2 : (decide (btp.p.NextOriginalIndex > -1)
        && decide (btp.p.NextOriginalIndex < (api.files.length : Int))) = false := by
      rw [h1]
      by_cases hx : 0 ≤ btp.p.NextOriginalIndex
      · have : ¬ btp.p.NextOriginalIndex < (api.files.length : Int) := fun h => hn2 ⟨hx, h⟩
        simp [hx, this]
      · simp [hx]
    refine ⟨finishNextFile cfg api { btp with next := { btp.next with done := true } } t (some f), ?_, rfl, rfl⟩
    simp only [findNextCandidate, hb, hb2, Bool.false_eq_true, if_false, hlt, decide_True,
      if_true, hc, hf, Option.map_some']
  · intro hn hn2 hge
    have hb : (decide (btp.p.NextFileIndex > -1)
        && decide (btp.p.NextFileIndex < (candidates.length : Int))) = false := by
      rw [h1]
      by_cases hx : 0 ≤ btp.p.NextFileIndex
      · have : ¬ btp.p.NextFileIndex < (candidates.length : Int) := fun h => hn ⟨hx, h⟩
        simp [hx, this]
      · simp [hx]
    have hb2 : (decide (btp.p.NextOriginalIndex > -1)
        && decide (btp.p.NextOriginalIndex < (api.files.length : Int))) = false := by
      rw [h1]
      by_cases hx : 0 ≤ btp.p.NextOriginalIndex
      · have : ¬ btp.p.NextOriginalIndex < (api.files.length : Int) := fun h => hn2 ⟨hx, h⟩
        simp [hx, this]
      · simp [hx]
    refine ⟨finishNextFile cfg api { btp with next := { btp.next with done := true } } t none, ?_, rfl, rfl⟩
    simp only [findNextCandidate, hb, hb2, Bool.false_eq_true, if_false, hge, decide_False,
      Option.map_some']

/-- C22 at a concrete session: two candidates, the first is playing, no override: the second
candidate's file is the next file. -/
theorem C22_flat_candidate_order_witness :
    ∃ b1, findNextFile sampleConfig "movie" queryApi queryPlayer
        = some (b1, [Lookup.GetCandidateFiles])
      ∧ b1.next.f = some (sampleFile 1 "b.mkv")
      ∧ b1.t = some { fileTorrent false 1 50 with HasNextFile := true } :=
  (C22_flat_candidate_order sampleConfig "movie" queryApi queryPlayer (fileTorrent false 1 50)
    [mkCandidate 0 "a.mkv", mkCandidate 1 "b.mkv"] rfl (by decide) (by decide) rfl rfl rfl rfl
    rfl).2.2.1 (mkCandidate 1 "b.mkv") (sampleFile 1 "b.mkv") (by decide) (by decide)
    (by decide) rfl rfl

/-! ## Episode matching: index and found -/

/-- One matching loop either matches nothing and leaves its input, or leaves the last matching
position and adds the number of matches. -/
theorem scanChoices_last (re : Re) (cs : List CandidateFile) (i0 : Nat) (acc : Int × Int) :
    (cs.countP (fun c => re.MatchString c.Filename) = 0 ∧ scanChoices re cs i0 acc = acc)
    ∨ (∃ (j : Nat) (hj : j < cs.length), re.MatchString cs[j].Filename = true
        ∧ (∀ (k : Nat) (hk : k < cs.length), j < k → re.MatchString cs[k].Filename = false)
        ∧ scanChoices re cs i0 acc
            = (((i0 + j : Nat) : Int),
               acc.2 + ((cs.countP (fun c => re.MatchString c.Filename) : Nat) : Int))) := by
  induction cs generalizing i0 acc with
  | nil => left; simp [scanChoices]
  | cons c cs ih =>
    by_cases hc : re.MatchString c.Filename = true
    · right
      rcases ih (i0 + 1) ((i0 : Int), acc.2 + 1) with ⟨h0, hs⟩ | ⟨j, hj, hm, hlast, hs⟩
      · refine ⟨0, by simp, by simpa using hc, ?_, ?_⟩
        · intro k hk hpos
          obtain ⟨k2, rfl⟩ : ∃ k2, k = k2 + 1 := ⟨k - 1, by omega⟩
          have hk2 : k2 < cs.length := by simpa using hk
          have := (List.countP_eq_zero.mp h0) cs[k2] (List.getElem_mem _)
          simpa using this
        · simp only [scanChoices, hc, if_true, hs, List.countP_cons, h0]
          simp
      · refine ⟨j + 1, by simpa using hj, by simpa using hm, ?_, ?_⟩
        · intro k hk hlt
          obtain ⟨k2, rfl⟩ : ∃ k2, k = k2 + 1 := ⟨k - 1, by omega⟩
          have hk2 : k2 < cs.length := by simpa using hk
          have := hlast k2 hk2 (by omega)
          simpa using this
        · simp only [scanChoices, hc, if_true, hs, List.countP_cons]
          have hidx : i0 + 1 + j = i0 + (j + 1) := by omega
          rw [hidx]
          push_cast
          congr 1
          ring
    · have hc2 : re.MatchString c.Filename = false := by simpa using hc
      rcases ih (i0 + 1) acc with ⟨h0, hs⟩ | ⟨j, hj, hm, hlast, hs⟩
      · left
        refine ⟨by simp [List.countP_cons, h0, hc2], ?_⟩
        simp only [scanChoices, hc2, Bool.false_eq_true, if_false, hs]
      · right
        refine ⟨j + 1, by simpa using hj, by simpa using hm, ?_, ?_⟩
        · intro k hk hlt
          obtain ⟨k2, rfl⟩ : ∃ k2, k = k2 + 1 := ⟨k - 1, by omega⟩
          have hk2 : k2 < cs.length := by simpa using hk
          have := hlast k2 hk2 (by omega)
          simpa using this
        · simp only [scanChoices, hc2, Bool.false_eq_true, if_false, hs, List.countP_cons]
          have hidx : i0 + 1 + j = i0 + (j + 1) := by omega
          rw [hidx]
          simp

/-- A matching loop started from index -1 and found 0 that finds nothing leaves them. -/
theorem scanChoices_zero (re : Re) (cs : List CandidateFile)
    (h : (scanChoices re cs 0 (-1, 0)).2 = 0) : scanChoices re cs 0 (-1, 0) = (-1, 0) := by
  rcases scanChoices_last re cs 0 (-1, 0) with ⟨_, hs⟩ | ⟨j, hj, hm, _, hs⟩
  · exact hs
  · exfalso
    have hpos : 0 < cs.countP (fun c => re.MatchString c.Filename) :=
      List.countP_pos_iff.mpr ⟨cs[j], List.getElem_mem _, hm⟩
    rw [hs] at h
    dsimp only at h
    omega

/-- One later strategy: it runs only from found 0, and then its loop decides. -/
theorem StrategyResult_step (P : Re → Prop) (choices : List CandidateFile) (r : Int × Int)
    (re0 : Re) (hP : P re0) (c : Bool) (hc : c = true → r.2 = 0)
    (hr : StrategyResult P choices r) :
    StrategyResult P choices (if c then scanChoices re0 choices 0 r else r) := by
  by_cases hct : c = true
  · have hz := hc hct
    have hr0 : r = (-1, 0) := by
      rcases hr with h | ⟨re, _, h, hne⟩
      · exact h
      · rw [h] at hz
        exact absurd hz hne
    subst hr0
    simp only [hct, if_true]
    by_cases h4 : (scanChoices re0 choices 0 (-1, 0)).2 = 0
    · left
      exact scanChoices_zero _ _ h4
    · right
      exact ⟨re0, hP, rfl, h4⟩
  · simp only [hct, Bool.false_eq_true, if_false]
    exact hr

/-- The four strategies in a row, for any third strategy that keeps the possible results. -/
theorem StrategyResult_pipeline (P : Re → Prop) (choices : List CandidateFile) (s e : Int)
    (isSingleSeason : Bool) (activeSeason : Int) (f3 : Int × Int → Int × Int)
    (hexact : P (episodeMatchRegex s e)) (hsingle : P (singleEpisodeMatchRegex e))
    (h3 : ∀ r2, StrategyResult P choices r2 → StrategyResult P choices (f3 r2)) :
    StrategyResult P choices
      (if (f3 (if isSingleSeason
                && (scanChoices (episodeMatchRegex s e) choices 0 (-1, 0)).2 == 0 then
              scanChoices (singleEpisodeMatchRegex e) choices 0
                (scanChoices (episodeMatchRegex s e) choices 0 (-1, 0))
            else scanChoices (episodeMatchRegex s e) choices 0 (-1, 0))).2 == 0
          && activeSeason == s then
        scanChoices (singleEpisodeMatchRegex e) choices 0
          (f3 (if isSingleSeason
                && (scanChoices (episodeMatchRegex s e) choices 0 (-1, 0)).2 == 0 then
              scanChoices (singleEpisodeMatchRegex e) choices 0
                (scanChoices (episodeMatchRegex s e) choices 0 (-1, 0))
            else scanChoices (episodeMatchRegex s e) choices 0 (-1, 0)))
      else
        f3 (if isSingleSeason
              && (scanChoices (episodeMatchRegex s e) choices 0 (-1, 0)).2 == 0 then
            scanChoices (singleEpisodeMatchRegex e) choices 0
              (scanChoices (episodeMatchRegex s e) choices 0 (-1, 0))
          else scanChoices (episodeMatchRegex s e) choices 0 (-1, 0))) := by
  have g1 : StrategyResult P choices (scanChoices (episodeMatchRegex s e) choices 0 (-1, 0)) := by
    by_cases h1 : (scanChoices (episodeMatchRegex s e) choices 0 (-1, 0)).2 = 0
    · left
      exact scanChoices_zero _ _ h1
    · right
      exact ⟨_, hexact, rfl, h1⟩
  generalize scanChoices (episodeMatchRegex s e) choices 0 (-1, 0) = r1 at g1 ⊢
  have g2 := StrategyResult_step P choices r1 (singleEpisodeMatchRegex e) hsingle
    (isSingleSeason && r1.2 == 0) (by intro h; simp at h; exact h.2) g1
  generalize (if (isSingleSeason && r1.2 == 0) = true then
    scanChoices (singleEpisodeMatchRegex e) choices 0 r1 else r1) = r2 at g2 ⊢
  have g3 := h3 r2 g2
  generalize f3 r2 = r3 at g3 ⊢
  exact StrategyResult_step P choices r3 (singleEpisodeMatchRegex e) hsingle
    (r3.2 == 0 && activeSeason == s) (by intro h; simp at h; exact h.1) g3

/-- The result of `MatchEpisodeFilename` is index -1 and found 0, or what the loop of one of its
patterns leaves when it finds something. -/
theorem MatchEpisodeFilename_is_scan {Show Episode TvdbShow : Type}
    (api : ShowApi Show Episode TvdbShow) (s e : Int) (isSingleSeason : Bool)
    (activeSeason : Int) (show_ : Option Show) (episode : Option Episode)
    (tvdbShow : Option TvdbShow) (choices : List CandidateFile) :
    StrategyResult
      (fun re => re = episodeMatchRegex s e ∨ re = singleEpisodeMatchRegex e
        ∨ ∃ sh ep, show_ = some sh ∧ episode = some ep
            ∧ re = singleEpisodeMatchRegex (api.ShowInfoWithTVDBShow sh ep tvdbShow))
      choices
      (MatchEpisodeFilename api s e isSingleSeason activeSeason show_ episode tvdbShow
        choices) := by
  have h3 : ∀ r2, StrategyResult
      (fun re => re = episodeMatchRegex s e ∨ re = singleEpisodeMatchRegex e
        ∨ ∃ sh ep, show_ = some sh ∧ episode = some ep
            ∧ re = singleEpisodeMatchRegex (api.ShowInfoWithTVDBShow sh ep tvdbShow))
      choices r2 →
      StrategyResult
        (fun re => re = episodeMatchRegex s e ∨ re = singleEpisodeMatchRegex e
          ∨ ∃ sh ep, show_ = some sh ∧ episode = some ep
              ∧ re = singleEpisodeMatchRegex (api.ShowInfoWithTVDBShow sh ep tvdbShow))
        choices
        ((fun r2 : Int × Int =>
          match show_, episode with
          | some sh, some ep =>
            if r2.2 == 0 && api.IsAnime sh then
              if api.ShowInfoWithTVDBShow sh ep tvdbShow != 0 then
                scanChoices (singleEpisodeMatchRegex (api.ShowInfoWithTVDBShow sh ep tvdbShow))
                  choices 0 r2
              else r2
            else r2
          | _, _ => r2) r2) := by
    intro r2 g2
    cases show_ with
    | none => exact g2
    | some sh =>
      cases episode with
      | none => exact g2
      | some ep =>
        by_cases han : (api.ShowInfoWithTVDBShow sh ep tvdbShow != 0) = true
        · simp only [han, if_true]
          exact StrategyResult_step _ choices r2 _
            (Or.inr (Or.inr ⟨sh, ep, rfl, rfl, rfl⟩))
            (r2.2 == 0 && api.IsAnime sh) (by intro h; simp at h; exact h.1) g2
        · simp only [han, Bool.false_eq_true, if_false, ite_self]
          exact g2
  exact StrategyResult_pipeline _ choices s e isSingleSeason activeSeason _
    (Or.inl rfl) (Or.inr (Or.inl rfl)) h3

/-- C27: for every input, `MatchEpisodeFilename` returns index -1 exactly when found is 0; found
is never negative; and when found is not 0 there is a strategy pattern (the exact pattern, the
bare pattern for the episode, or the bare pattern for the absolute number) such that index is a
valid position of `choices`, the candidate there matches the pattern, no later candidate does, and
found is the number of candidates matching it. -/
theorem C27_match_result_invariants {Show Episode TvdbShow : Type}
    (api : ShowApi Show Episode TvdbShow) (s e : Int) (isSingleSeason : Bool)
    (activeSeason : Int) (show_ : Option Show) (episode : Option Episode)
    (tvdbShow : Option TvdbShow) (choices : List CandidateFile) :
    ((MatchEpisodeFilename api s e isSingleSeason activeSeason show_ episode tvdbShow choices).1
        = -1
      ↔ (MatchEpisodeFilename api s e isSingleSeason activeSeason show_ episode tvdbShow
          choices).2 = 0)
    ∧ 0 ≤ (MatchEpisodeFilename api s e isSingleSeason activeSeason show_ episode tvdbShow
          choices).2
    ∧ ((MatchEpisodeFilename api s e isSingleSeason activeSeason show_ episode tvdbShow
          choices).2 ≠ 0 →
        ∃ re : Re,
          (re = episodeMatchRegex s e ∨ re = singleEpisodeMatchRegex e
            ∨ ∃ sh ep, show_ = some sh ∧ episode = some ep
                ∧ re = singleEpisodeMatchRegex (api.ShowInfoWithTVDBShow sh ep tvdbShow))
          ∧ ∃ (i : Nat) (hi : i < choices.length),
              (MatchEpisodeFilename api s e isSingleSeason activeSeason show_ episode tvdbShow
                choices).1 = (i : Int)
              ∧ re.MatchString choices[i].Filename = true
              ∧ (∀ (k : Nat) (hk : k < choices.length), i < k →
                  re.MatchString choices[k].Filename = false)
              ∧ (MatchEpisodeFilename api s e isSingleSeason activeSeason show_ episode tvdbShow
                  choices).2
                = ((choices.countP (fun c => re.MatchString c.Filename) : Nat) : Int)) := by
  rcases MatchEpisodeFilename_is_scan api s e isSingleSeason activeSeason show_ episode tvdbShow
    choices with h | ⟨re, hre, h, hne⟩
  · rw [h]
    simp
  · rw [h]
    rcases scanChoices_last re choices 0 (-1, 0) with ⟨_, hs⟩ | ⟨j, hj, hm, hlast, hs⟩
    · rw [hs] at hne
      simp at hne
    · have hpos : 0 < choices.countP (fun c => re.MatchString c.Filename) :=
        List.countP_pos_iff.mpr ⟨choices[j], List.getElem_mem _, hm⟩
      rw [hs]
      dsimp only
      refine ⟨?_, ?_, ?_⟩
      · constructor <;> intro hh <;> omega
      · omega
      · intro _
        exact ⟨re, hre, j, hj, by simp, hm, hlast, by simp⟩

/-- C27 at the end-to-end scenario: found is 1, so index is a valid position whose candidate
matches a strategy pattern. -/
theorem C27_match_result_invariants_witness :
    ∃ re : Re,
      (re = episodeMatchRegex 1 2 ∨ re = singleEpisodeMatchRegex 2
        ∨ ∃ sh ep, (none : Option Unit) = some sh ∧ (none : Option Unit) = some ep
            ∧ re = singleEpisodeMatchRegex (unitApi.ShowInfoWithTVDBShow sh ep none))
      ∧ ∃ (i : Nat) (hi : i < threeEpisodes.length),
          (MatchEpisodeFilename unitApi 1 2 false 0 none none none threeEpisodes).1 = (i : Int)
          ∧ re.MatchString threeEpisodes[i].Filename = true
          ∧ (∀ (k : Nat) (hk : k < threeEpisodes.length), i < k →
              re.MatchString threeEpisodes[k].Filename = false)
          ∧ (MatchEpisodeFilename unitApi 1 2 false 0 none none none threeEpisodes).2
            = ((threeEpisodes.countP (fun c => re.MatchString c.Filename) : Nat) : Int) :=
  (C27_match_result_invariants unitApi 1 2 false 0 none none none threeEpisodes).2.2
    (by decide)

/-! ## Starting the next file -/

/-- `startNextFile` either issues nothing and leaves the player, or issues one request for the
file of the descriptor, under its guards, and marks the descriptor started. -/
theorem startNextFile_cases (btp b : Player) (reqs : List Request)
    (h : startNextFile btp = some (b, reqs)) :
    (reqs = [] ∧ b = btp)
    ∨ ∃ (f : File) (t : Torrent), reqs = [Request.torrentBuffer f] ∧ btp.next.f = some f
        ∧ btp.t = some t ∧ t.IsBuffering = false ∧ t.HasNextFile = true
        ∧ btp.next.done = true ∧ btp.next.started = false
        ∧ b = { btp with next := { btp.next with started := true } } := by
  obtain ⟨bt, bp, bnext, bcf, bhcf, bex, bsub, bnes, bcloser, bclosed⟩ := btp
  obtain ⟨nf, nstarted, ndone, nsize⟩ := bnext
  unfold startNextFile at h
  simp only at h ⊢
  by_cases h1 : (bp.ShowID == 0 && bp.Query == "") = true
  · rw [if_pos h1] at h
    simp only [Option.some.injEq, Prod.mk.injEq] at h
    exact Or.inl ⟨h.2.symm, h.1.symm⟩
  · rw [if_neg h1] at h
    cases bt with
    | none => simp at h
    | some t =>
      simp only at h
      by_cases h2 : (!t.HasNextFile || !ndone) = true
      · rw [if_pos h2] at h
        simp only [Option.some.injEq, Prod.mk.injEq] at h
        exact Or.inl ⟨h.2.symm, h.1.symm⟩
      · rw [if_neg h2] at h
        cases nf with
        | none =>
          simp only [Option.some.injEq, Prod.mk.injEq] at h
          exact Or.inl ⟨h.2.symm, h.1.symm⟩
        | some f =>
          simp only at h
          by_cases h3 : (t.IsBuffering || nstarted) = true
          · rw [if_pos h3] at h
            simp only [Option.some.injEq, Prod.mk.injEq] at h
            exact Or.inl ⟨h.2.symm, h.1.symm⟩
          · rw [if_neg h3] at h
            simp only [Option.some.injEq, Prod.mk.injEq] at h
            right
            simp only [Bool.or_eq_true, Bool.not_eq_true', not_or, Bool.not_eq_false,
              Bool.not_eq_true] at h2 h3
            exact ⟨f, t, h.2.symm, rfl, rfl, h3.1, h2.1, h2.2, h3.2, h.1.symm⟩

/-- One round of the playback loop either issues nothing and leaves the descriptor, or starts the
next file under all its guards. -/
theorem playbackTick_cases (cfg : Config) (times : WatchTimes) (btp b : Player)
    (reqs : List Request) (h : playbackTick cfg times btp = some (b, reqs)) :
    (reqs = [] ∧ b.next = btp.next)
    ∨ ∃ (f : File) (t : Torrent), reqs = [Request.torrentBuffer f] ∧ btp.next.f = some f
        ∧ btp.next.started = false
        ∧ isReadyForNextFile cfg (refreshedPlayer times btp) = some true
        ∧ btp.t = some t ∧ t.IsBuffering = false
        ∧ b.next.started = true := by
  have hdef : playbackTick cfg times btp
      = if (refreshedPlayer times btp).next.f.isSome
            && !(refreshedPlayer times btp).next.started then
          match isReadyForNextFile cfg (refreshedPlayer times btp) with
          | none => none
          | some true => startNextFile (refreshedPlayer times btp)
          | some false => some (refreshedPlayer times btp, [])
        else some (refreshedPlayer times btp, []) := rfl
  rw [hdef] at h
  split_ifs at h with hc
  · cases hr : isReadyForNextFile cfg (refreshedPlayer times btp) with
    | none => simp [hr] at h
    | some ready =>
      cases ready with
      | false =>
        simp only [hr, Option.some.injEq, Prod.mk.injEq] at h
        left
        exact ⟨h.2.symm, by rw [← h.1]; rfl⟩
      | true =>
        simp only [hr] at h
        rcases startNextFile_cases _ b reqs h with ⟨h1, h2⟩ | ⟨f, t, h1, h2, h3, h4, _, _, h7, h8⟩
        · left
          exact ⟨h1, by rw [h2]; rfl⟩
        · right
          exact ⟨f, t, h1, h2, h7, rfl, h3, h4, by rw [h8]⟩
  · simp only [Option.some.injEq, Prod.mk.injEq] at h
    left
    exact ⟨h.2.symm, by rw [← h.1]; rfl⟩

/-- Over any rounds of the playback loop the next file is started at most once, and not at all
when it was started before. -/
theorem playbackLoop_starts (cfg : Config) (ticks : List WatchTimes) (btp b : Player)
    (reqs : List Request) (h : playbackLoop cfg ticks btp = some (b, reqs)) :
    nextFileStarts reqs ≤ 1 ∧ (btp.next.started = true → nextFileStarts reqs = 0) := by
  induction ticks generalizing btp b reqs with
  | nil =>
    simp only [playbackLoop, Option.some.injEq, Prod.mk.injEq] at h
    rw [← h.2]
    simp [nextFileStarts]
  | cons times rest ih =>
    unfold playbackLoop at h
    cases h1 : playbackTick cfg times btp with
    | none => simp [h1] at h
    | some r1 =>
      obtain ⟨b1, reqs1⟩ := r1
      simp only [h1] at h
      cases h2 : playbackLoop cfg rest b1 with
      | none => simp [h2] at h
      | some r2 =>
        obtain ⟨b2, reqs2⟩ := r2
        simp only [h2, Option.some.injEq, Prod.mk.injEq] at h
        obtain ⟨ihle, ihstarted⟩ := ih b1 b2 reqs2 h2
        rw [← h.2]
        have happ : nextFileStarts (reqs1 ++ reqs2)
            = nextFileStarts reqs1 + nextFileStarts reqs2 := by
          simp [nextFileStarts]
        rw [happ]
        rcases playbackTick_cases cfg times btp b1 reqs1 h1 with
          ⟨hr, hn⟩ | ⟨f, t, hr, _, hns, _, _, _, hst⟩
        · have h0 : nextFileStarts reqs1 = 0 := by rw [hr]; rfl
          refine ⟨by omega, ?_⟩
          intro hs
          have := ihstarted (by rw [hn]; exact hs)
          omega
        · have h1' : nextFileStarts reqs1 = 1 := by rw [hr]; rfl
          have h0 := ihstarted hst
          refine ⟨by omega, ?_⟩
          intro hs
          rw [hs] at hns
          exact absurd hns (by simp)

/-- C23: starting the next file is a guarded one-time transition.  A round of the playback loop
starts buffering of the next file only if the descriptor holds that file, it has not been
started, `isReadyForNextFile` is true on the refreshed player and the torrent is not buffering;
when it does, it sets `started`; and over any sequence of rounds of one session the buffering of
the next file is started at most once. -/
theorem C23_next_file_started_once (cfg : Config) (btp : Player) :
    (∀ (times : WatchTimes) (b : Player) (reqs : List Request),
        playbackTick cfg times btp = some (b, reqs) → reqs ≠ [] →
        ∃ (f : File) (t : Torrent), reqs = [Request.torrentBuffer f] ∧ btp.next.f = some f
          ∧ btp.next.started = false
          ∧ isReadyForNextFile cfg (refreshedPlayer times btp) = some true
          ∧ btp.t = some t ∧ t.IsBuffering = false
          ∧ b.next.started = true)
    ∧ (∀ (ticks : List WatchTimes) (b : Player) (reqs : List Request),
        playbackLoop cfg ticks btp = some (b, reqs) → nextFileStarts reqs ≤ 1) := by
  constructor
  · intro times b reqs h hne
    rcases playbackTick_cases cfg times btp b reqs h with ⟨hr, _⟩ | hstart
    · exact absurd hr hne
    · exact hstart
  · intro ticks b reqs h
    exact (playbackLoop_starts cfg ticks btp b reqs h).1

/-- Two rounds on the ready player: the first starts the next file, the second does not. -/
theorem playbackLoop_readyPlayer :
    playbackLoop sampleConfig [lateTimes, lateTimes] readyPlayer
      = some ({ refreshedPlayer lateTimes readyPlayer with
                  next := { readyPlayer.next with started := true } },
              [Request.torrentBuffer (sampleFile 2 "Show.S01E03.mkv")]) := by
  rfl

/-- C23 at a concrete session: over two rounds on a player that is ready for its next file the
buffering of the next file is started once. -/
theorem C23_next_file_started_once_witness :
    nextFileStarts [Request.torrentBuffer (sampleFile 2 "Show.S01E03.mkv")] ≤ 1 :=
  (C23_next_file_started_once sampleConfig readyPlayer).2 [lateTimes, lateTimes] _ _
    playbackLoop_readyPlayer

/-! ## The extracted file -/

/-- C24, the code at a failing input: the extraction directory holds `info.avi.txt` and
`movie.mkv`, listed in this order, which is the order by file name that `os.ReadDir` gives.  The
first name has no video extension and the second has one, yet the pattern of `findExtracted`,
which is not anchored at the end of the name, matches the first, and the extracted name becomes
`info.avi.txt`. -/
theorem C24_extracted_name_without_video_extension :
    "info.avi.txt".toList < "movie.mkv".toList
    ∧ hasVideoExtension "info.avi.txt" = false
    ∧ hasVideoExtension "movie.mkv" = true
    ∧ extractedRegex.MatchString "info.avi.txt" = true
    ∧ (findExtracted twoFilesEnv "Show/extracted" rarPlayer).1.extracted = "info.avi.txt"
    ∧ (findExtracted twoFilesEnv "Show/extracted" rarPlayer).2 = [] := by
  refine ⟨by decide, by decide, by decide, by decide, ?_, ?_⟩
  · rfl
  · rfl

/-! ## Closing during buffering -/

/-- C25 as stated fails: with the closing flag set, the poll of a one-second tick returns at its
first guard; it broadcasts nothing, resets nothing, and the loop is still waiting afterwards. -/
theorem C25_counterexample :
    closingPlayer.closer = true
    ∧ (bufferDialogLoop 1 [(Tick.oneSecond, extractedEnv)] false closingPlayer
          (sampleService sampleConfig) []).map (fun r => (r.returned, r.events))
        = some (false, []) := by
  constructor
  · rfl
  · rfl

/-- C25 amended: once the closing flag is set, the polling loop observes it at its next
half-second tick at which a progress dialog exists: that tick broadcasts the cancellation error
on the buffer signal, resets the torrent's buffering state and exits the loop, whatever ticks
would follow.  A one-second tick with the closing flag set does nothing: its poll returns not
finished without error, update or signal, and the loop goes on with the ticks that follow. -/
theorem C25_close_observed_at_half_second (StatusChecking : Int) (env : BufferEnv)
    (rest : List (Tick × BufferEnv)) (btp : Player) (s : Service) (ev : List BufferEvent)
    (hclose : btp.closer = true) :
    (∀ canceled : Bool, env.dialog = some canceled →
        bufferDialogLoop StatusChecking ((Tick.halfSecond, env) :: rest) false btp s ev
          = some ⟨true, btp, s,
              ev ++ [BufferEvent.Broadcast "User cancelled the buffering",
                     BufferEvent.ResetBuffering]⟩)
    ∧ updateBufferDialog StatusChecking env btp s = some ⟨false, none, btp, s, []⟩
    ∧ (∀ stopped : Bool,
        bufferDialogLoop StatusChecking ((Tick.oneSecond, env) :: rest) stopped btp s ev
          = bufferDialogLoop StatusChecking rest stopped btp s ev) := by
  have hpoll : updateBufferDialog StatusChecking env btp s = some ⟨false, none, btp, s, []⟩ := by
    simp [updateBufferDialog, hclose]
  refine ⟨?_, hpoll, ?_⟩
  · intro canceled hd
    simp [bufferDialogLoop, hd, hclose]
  · intro stopped
    simp [bufferDialogLoop, hpoll]

/-- C25 amended, at a concrete session: the closing flag is set while a dialog is open; the next
half-second tick broadcasts the cancellation, resets the buffering and exits. -/
theorem C25_close_observed_at_half_second_witness :
    bufferDialogLoop 1 [(Tick.halfSecond, extractedEnv)] false closingPlayer
        (sampleService sampleConfig) []
      = some ⟨true, closingPlayer, sampleService sampleConfig,
          [] ++ [BufferEvent.Broadcast "User cancelled the buffering",
                 BufferEvent.ResetBuffering]⟩ :=
  (C25_close_observed_at_half_second 1 extractedEnv [] closingPlayer
    (sampleService sampleConfig) [] rfl).1 false rfl

/-! ## Scrobbling on transitions -/

/-- C26 as stated fails: with scrobbling on, from the playing state, a paused round sends
`pause`, and a seek acknowledged while paused sends `start` without changing the tracked state;
the run of two paused rounds without a seek that follows starts from the tracked state paused
and sends no `pause` at all. -/
theorem C26_counterexample :
    scrobbleRun true true [pausedTick, seekTick] = (false, [Scrobble.pause, Scrobble.start])
    ∧ scrobbleRun true false [pausedTick, pausedTick] = (false, [])
    ∧ scrobbleRun true true [pausedTick, seekTick, pausedTick, pausedTick]
        = (false, [Scrobble.pause, Scrobble.start]) := by
  decide

/-- C26 amended: in the playback loop, a round sends `pause` only if scrobbling is on, the player
is reported paused, no seek is pending and the tracked state was playing; it sends `start` only
if scrobbling is on and a seek is pending or the player is reported not paused while the tracked
state was paused; every round sends at most one event; and a run of consecutive paused rounds
without a seek sends exactly one `pause` when the tracked state at its start is playing and none
when it is paused. -/
theorem C26_scrobble_on_transitions (scrobble playing : Bool) (i : TickInput) (n : Nat) :
    (scrobbleTick scrobble playing i).2.length ≤ 1
    ∧ (Scrobble.pause ∈ (scrobbleTick scrobble playing i).2 →
        scrobble = true ∧ i.paused = true ∧ i.seeked = false ∧ playing = true)
    ∧ (Scrobble.start ∈ (scrobbleTick scrobble playing i).2 →
        scrobble = true ∧ (i.seeked = true ∨ (i.paused = false ∧ playing = false)))
    ∧ scrobbleRun true true (List.replicate (n + 1) pausedTick) = (false, [Scrobble.pause])
    ∧ scrobbleRun true false (List.replicate n pausedTick) = (false, []) := by
  have hpaused : ∀ m : Nat,
      scrobbleRun true false (List.replicate m pausedTick) = (false, []) := by
    intro m
    induction m with
    | zero => rfl
    | succ m ih =>
      have h1 : scrobbleTick true false pausedTick = (false, []) := rfl
      simp only [List.replicate_succ, scrobbleRun, h1, ih]
      rfl
  refine ⟨?_, ?_, ?_, ?_, hpaused n⟩
  · obtain ⟨sk, pa⟩ := i
    cases scrobble <;> cases playing <;> cases sk <;> cases pa <;> decide
  · obtain ⟨sk, pa⟩ := i
    cases scrobble <;> cases playing <;> cases sk <;> cases pa <;> decide
  · obtain ⟨sk, pa⟩ := i
    cases scrobble <;> cases playing <;> cases sk <;> cases pa <;> decide
  · have h1 : scrobbleTick true true pausedTick = (false, [Scrobble.pause]) := rfl
    simp only [List.replicate_succ, scrobbleRun, h1, hpaused n]
    rfl

/-- C26 amended, at a concrete round: scrobbling on, tracked state playing, the player reported
paused without a seek: the event sent is `pause`, under the stated conditions. -/
theorem C26_scrobble_on_transitions_witness :
    (true = true ∧ pausedTick.paused = true ∧ pausedTick.seeked = false ∧ true = true) :=
  (C26_scrobble_on_transitions true true pausedTick 0).2.1 (by decide)

/-! ## The watched sets -/

/-- C29, the code at a failing input: a season entry is added from the ids Trakt reports, Trakt
id 5 and no TMDB id, and looked up with the ids of the library show, which carry the same Trakt
id 5, the same season number and the TMDB id 11.  For a season `getXXItem` stores the Trakt hash
in the TMDB key and leaves the Trakt key 0: the array holds the Trakt hash, the lookup overwrites
its TMDB key with the TMDB hash and answers false.  It answers false as well when the entry was
added with Trakt id 5 and TMDB id 10.  The same ids for a movie, a show or an episode are
found. -/
theorem C29_season_lookup_misses_shared_trakt_id :
    (addXXItem sampleConsts sampleHash [] sampleConsts.SeasonType traktSideIds [1]).bind
        (fun ary => hasXXItem sampleConsts sampleHash ary sampleConsts.SeasonType
          librarySideIds [1]) = some false
    ∧ (addXXItem sampleConsts sampleHash [] sampleConsts.SeasonType traktSideOtherIds [1]).bind
        (fun ary => hasXXItem sampleConsts sampleHash ary sampleConsts.SeasonType
          librarySideIds [1]) = some false
    ∧ librarySideIds.TMDB ≠ 0
    ∧ (addXXItem sampleConsts sampleHash [] sampleConsts.SeasonType traktSideIds [1]).bind
        (fun ary => hasXXItem sampleConsts sampleHash ary sampleConsts.ShowType
          librarySideIds []) = some false
    ∧ (addXXItem sampleConsts sampleHash [] sampleConsts.MovieType traktSideIds []).bind
        (fun ary => hasXXItem sampleConsts sampleHash ary sampleConsts.MovieType
          librarySideIds []) = some true
    ∧ (addXXItem sampleConsts sampleHash [] sampleConsts.ShowType traktSideIds []).bind
        (fun ary => hasXXItem sampleConsts sampleHash ary sampleConsts.ShowType
          librarySideIds []) = some true
    ∧ (addXXItem sampleConsts sampleHash [] sampleConsts.EpisodeType traktSideIds [1, 2]).bind
        (fun ary => hasXXItem sampleConsts sampleHash ary sampleConsts.EpisodeType
          librarySideIds [1, 2]) = some true := by
  refine ⟨?_, ?_, by decide, ?_, ?_, ?_, ?_⟩
  · rfl
  · rfl
  · rfl
  · rfl
  · rfl
  · rfl

/-! ## The sync-back step -/

/-- The lookup of a movie in a watched set always answers. -/
theorem hasXXItem_movie (k : MediaConsts) (hash : String → Nat) (ary : List Nat) (uids : IDs) :
    ∃ has : Bool, hasXXItem k hash ary k.MovieType uids [] = some has := by
  simp [hasXXItem, getXXItem]

/-- What the sync-back loop does with one movie, by cases. -/
theorem syncBackItem_cases (k : MediaConsts) (hash : String → Nat) (ary : List Nat)
    (sync : Nat → Option Bool) (m : LibraryMovie) :
    ∃ has : Bool, hasXXItem k hash ary k.MovieType m.UIDs [] = some has
      ∧ syncBackItem k hash ary sync m
          = some (if m.UIDs.TMDB = 0 ∨ has = m.IsWatched ∨ sync (hash m.File) = some m.IsWatched
              then none
              else some { KodiKey := hash m.File, MediaType := "movie", Movie := m.UIDs.TMDB,
                          Watched := m.IsWatched }) := by
  obtain ⟨has, hhas⟩ := hasXXItem_movie k hash ary m.UIDs
  refine ⟨has, hhas, ?_⟩
  unfold syncBackItem
  by_cases h0 : m.UIDs.TMDB = 0
  · simp [h0]
  · simp only [beq_iff_eq, h0, if_false, hhas, false_or]
    cases hs : sync (hash m.File) with
    | none => cases has <;> cases hw : m.IsWatched <;> simp
    | some b => cases has <;> cases hw : m.IsWatched <;> cases b <;> simp

/-- The batches the sync-back loop builds: the items of the movies it does not skip, in order,
the watched ones in the first batch and the others in the second. -/
theorem syncBackMovies_eq (k : MediaConsts) (hash : String → Nat) (ary : List Nat)
    (sync : Nat → Option Bool) (movies : List LibraryMovie)
    (acc : List WatchedItem × List WatchedItem) :
    syncBackMovies k hash ary sync movies acc
      = some (acc.1 ++ (movies.filterMap (fun m => (syncBackItem k hash ary sync m).join)).filter
                (fun it => it.Watched),
              acc.2 ++ (movies.filterMap (fun m => (syncBackItem k hash ary sync m).join)).filter
                (fun it => !it.Watched)) := by
  induction movies generalizing acc with
  | nil => simp [syncBackMovies]
  | cons m rest ih =>
    obtain ⟨has, _, hitem⟩ := syncBackItem_cases k hash ary sync m
    unfold syncBackMovies
    by_cases hskip : m.UIDs.TMDB = 0 ∨ has = m.IsWatched ∨ sync (hash m.File) = some m.IsWatched
    · rw [if_pos hskip] at hitem
      simp only [hitem, ih, List.filterMap_cons, Option.join]
      rfl
    · rw [if_neg hskip] at hitem
      simp only [hitem, ih, List.filterMap_cons, Option.join]
      cases hw : m.IsWatched <;> simp [hw, List.filter_cons]

/-- C30: the sync-back step of `refreshTraktMoviesWatched` always builds its two batches; an item
of the batch sent as watched comes from a library movie with a TMDB id that is watched locally
and absent from Trakt's watched set; an item of the batch sent as unwatched comes from a movie
with a TMDB id that is unwatched locally and present in Trakt's watched set; a movie whose local
state agrees with Trakt's, or whose last synced state equals its current local state, is skipped
and contributes to neither batch, the batches holding the items of the movies not skipped and
nothing else. -/
theorem C30_sync_back_batches (k : MediaConsts) (hash : String → Nat)
    (WatchedTraktMovies : List Nat) (syncPlaycount : Nat → Option Bool)
    (movies : List LibraryMovie) :
    ∃ watch unwatch : List WatchedItem,
      syncBackMovies k hash WatchedTraktMovies syncPlaycount movies ([], [])
        = some (watch, unwatch)
      ∧ (∀ it ∈ watch, it.Watched = true ∧ ∃ m ∈ movies,
          m.UIDs.TMDB ≠ 0 ∧ m.IsWatched = true
          ∧ hasXXItem k hash WatchedTraktMovies k.MovieType m.UIDs [] = some false
          ∧ syncBackItem k hash WatchedTraktMovies syncPlaycount m = some (some it))
      ∧ (∀ it ∈ unwatch, it.Watched = false ∧ ∃ m ∈ movies,
          m.UIDs.TMDB ≠ 0 ∧ m.IsWatched = false
          ∧ hasXXItem k hash WatchedTraktMovies k.MovieType m.UIDs [] = some true
          ∧ syncBackItem k hash WatchedTraktMovies syncPlaycount m = some (some it))
      ∧ (∀ m ∈ movies, ∀ has : Bool,
          hasXXItem k hash WatchedTraktMovies k.MovieType m.UIDs [] = some has →
          has = m.IsWatched ∨ syncPlaycount (hash m.File) = some m.IsWatched →
          syncBackItem k hash WatchedTraktMovies syncPlaycount m = some none)
      ∧ watch = (movies.filterMap (fun m =>
            (syncBackItem k hash WatchedTraktMovies syncPlaycount m).join)).filter
              (fun it => it.Watched)
      ∧ unwatch = (movies.filterMap (fun m =>
            (syncBackItem k hash WatchedTraktMovies syncPlaycount m).join)).filter
              (fun it => !it.Watched) := by
  have hfrom : ∀ (it : WatchedItem),
      it ∈ movies.filterMap (fun m =>
          (syncBackItem k hash WatchedTraktMovies syncPlaycount m).join) →
      ∃ m ∈ movies, m.UIDs.TMDB ≠ 0 ∧ it.Watched = m.IsWatched
        ∧ hasXXItem k hash WatchedTraktMovies k.MovieType m.UIDs [] = some (!m.IsWatched)
        ∧ syncBackItem k hash WatchedTraktMovies syncPlaycount m = some (some it) := by
    intro it hit
    rw [List.mem_filterMap] at hit
    obtain ⟨m, hm, hjoin⟩ := hit
    obtain ⟨has, hhas, hitem⟩ := syncBackItem_cases k hash WatchedTraktMovies syncPlaycount m
    by_cases hskip : m.UIDs.TMDB = 0 ∨ has = m.IsWatched
        ∨ syncPlaycount (hash m.File) = some m.IsWatched
    · rw [if_pos hskip] at hitem
      rw [hitem] at hjoin
      simp [Option.join] at hjoin
    · rw [if_neg hskip] at hitem
      rw [hitem] at hjoin
      simp only [Option.join, Option.some_bind, id, Option.some.injEq] at hjoin
      subst hjoin
      push_neg at hskip
      refine ⟨m, hm, hskip.1, rfl, ?_, hitem⟩
      rw [hhas]
      have hne := hskip.2.1
      cases has <;> cases hw : m.IsWatched <;> simp_all
  refine ⟨_, _, ?_, ?_, ?_, ?_, rfl, rfl⟩
  · rw [syncBackMovies_eq]
    simp
  · intro it hit
    rw [List.mem_filter] at hit
    obtain ⟨m, hm, h0, hw, hhas, hitem⟩ := hfrom it hit.1
    have hwt : it.Watched = true := by simpa using hit.2
    have hmw : m.IsWatched = true := by rw [← hw]; exact hwt
    refine ⟨hwt, m, hm, h0, hmw, ?_, hitem⟩
    rw [hhas, hmw]
    rfl
  · intro it hit
    rw [List.mem_filter] at hit
    obtain ⟨m, hm, h0, hw, hhas, hitem⟩ := hfrom it hit.1
    have hwt : it.Watched = false := by simpa using hit.2
    have hmw : m.IsWatched = false := by rw [← hw]; exact hwt
    refine ⟨hwt, m, hm, h0, hmw, ?_, hitem⟩
    rw [hhas, hmw]
    rfl
  · intro m _ has hhas hagree
    obtain ⟨has2, hhas2, hitem⟩ := syncBackItem_cases k hash WatchedTraktMovies syncPlaycount m
    rw [hhas] at hhas2
    cases Option.some.inj hhas2
    rw [hitem, if_pos (Or.inr hagree)]

/-- C30 at a concrete library: of four movies, the one watched locally only goes to the watched
batch, the one watched on Trakt only to the unwatched batch, and the other two to neither. -/
theorem C30_sync_back_batches_witness :
    syncBackMovies sampleConsts sampleHash sampleWatchedSet (fun _ => none) sampleMovies ([], [])
        = some ([{ KodiKey := sampleHash "a.mkv", MediaType := "movie", Movie := 11,
                   Watched := true }],
                [{ KodiKey := sampleHash "c.mkv", MediaType := "movie", Movie := 13,
                   Watched := false }])
    ∧ syncBackItem sampleConsts sampleHash sampleWatchedSet (fun _ => none)
        (sampleMovie 12 "b.mkv" true) = some none :=
  ⟨rfl,
   (C30_sync_back_batches sampleConsts sampleHash sampleWatchedSet (fun _ => none)
      sampleMovies).choose_spec.choose_spec.2.2.2.1 (sampleMovie 12 "b.mkv" true)
      (by simp [sampleMovies]) true rfl (Or.inl rfl)⟩

/-! ## The prefix removed by the trimming -/

theorem removeFirst_at_head (old l : List Char) (hne : old ≠ [])
    (hp : old.isPrefixOf l = true) : removeFirst old l = l.drop old.length := by
  cases l with
  | nil =>
    cases old with
    | nil => exact absurd rfl hne
    | cons a as => simp [List.isPrefixOf] at hp
  | cons c cs =>
    unfold removeFirst
    rw [if_pos hp]

theorem directoryPrefix_cons (sep : Char) (d : List Char) (ds : List (List Char)) :
    directoryPrefix sep (d :: ds) = (d ++ [sep]) ++ directoryPrefix sep ds := by
  simp [directoryPrefix, List.flatMap_cons]

theorem dropDisplay_zero (c : CandidateFile) : dropDisplay 0 c = c := rfl

/-- The first loop of `TrimChoices` removes, from every display name, the first `k` directory
names it is given, each with its separator, and these are at the head of every display name. -/
theorem trimDirectories_leading (sep : Char) (ds : List (List Char)) (cs : List CandidateFile) :
    ∃ k : Nat, k ≤ ds.length
      ∧ (∀ c ∈ cs, directoryPrefix sep (ds.take k) <+: c.DisplayName.toList)
      ∧ trimDirectories sep ds cs
          = cs.map (dropDisplay (directoryPrefix sep (ds.take k)).length) := by
  induction ds generalizing cs with
  | nil =>
    refine ⟨0, le_refl _, ?_, ?_⟩
    · intro c _
      simp [directoryPrefix]
    · simp only [trimDirectories, List.take_nil, directoryPrefix, List.flatMap_nil,
        List.length_nil]
      rw [List.map_congr_left (fun c _ => dropDisplay_zero c)]
      simp
  | cons d ds ih =>
    unfold trimDirectories
    split_ifs with hall
    · obtain ⟨k, hk, hpre, heq⟩ := ih (cs.map (fun c =>
        { c with DisplayName := String.mk (removeFirst (d ++ [sep]) c.DisplayName.toList) }))
      have hd : ∀ c ∈ cs, (d ++ [sep]).isPrefixOf c.DisplayName.toList = true := by
        intro c hc
        exact List.all_eq_true.mp hall c hc
      have hrm : ∀ c ∈ cs, removeFirst (d ++ [sep]) c.DisplayName.toList
          = c.DisplayName.toList.drop (d ++ [sep]).length := by
        intro c hc
        exact removeFirst_at_head _ _ (by simp) (hd c hc)
      refine ⟨k + 1, by simp only [List.length_cons]; omega, ?_, ?_⟩
      · intro c hc
        have h1 := hpre _ (List.mem_map_of_mem _ hc)
        simp only [String.toList] at h1
        have h2 := hrm c hc
        simp only [String.toList] at h2
        rw [h2] at h1
        have h3 : d ++ [sep] <+: c.DisplayName.data := List.isPrefixOf_iff_prefix.mp (hd c hc)
        obtain ⟨t, ht⟩ := h3
        simp only [String.toList, List.take_succ_cons, directoryPrefix_cons]
        rw [← ht] at h1 ⊢
        rw [List.drop_left] at h1
        exact (List.prefix_append_right_inj _).mpr h1
      · rw [heq, List.map_map]
        apply List.map_congr_left
        intro c hc
        have h2 := hrm c hc
        simp only [Function.comp, dropDisplay, List.take_succ_cons, directoryPrefix_cons,
          List.length_append]
        rw [show (String.mk (removeFirst (d ++ [sep]) c.DisplayName.toList)).toList
              = removeFirst (d ++ [sep]) c.DisplayName.toList from rfl, h2, List.drop_drop]
        simp only [List.length_append]
    · refine ⟨0, Nat.zero_le _, ?_, ?_⟩
      · intro c _
        simp [directoryPrefix]
      · simp only [List.take_zero, directoryPrefix, List.flatMap_nil, List.length_nil]
        rw [List.map_congr_left (fun c _ => dropDisplay_zero c)]
        simp

theorem splitOnChar_ne_nil (sep : Char) (l : List Char) : splitOnChar sep l ≠ [] := by
  cases l with
  | nil => simp [splitOnChar]
  | cons c cs =>
    unfold splitOnChar
    split_ifs
    · simp
    · cases splitOnChar sep cs <;> simp

/-- Joining the directory names of a path gives the path back. -/
theorem joinDirectories_splitOnChar (sep : Char) (l : List Char) :
    joinDirectories sep (splitOnChar sep l) = l := by
  induction l with
  | nil => rfl
  | cons c cs ih =>
    unfold splitOnChar
    split_ifs with hc
    · cases hs : splitOnChar sep cs with
      | nil => exact absurd hs (splitOnChar_ne_nil sep cs)
      | cons h t =>
        rw [hs] at ih
        simp only [joinDirectories, List.nil_append, ih, hc]
    · cases hs : splitOnChar sep cs with
      | nil => exact absurd hs (splitOnChar_ne_nil sep cs)
      | cons h t =>
        rw [hs] at ih
        cases t with
        | nil =>
          simp only [joinDirectories] at ih ⊢
          rw [ih]
        | cons t1 ts =>
          simp only [joinDirectories] at ih ⊢
          rw [← ih]
          rfl

/-- On a single candidate the first loop of `TrimChoices` removes every directory name but the
last. -/
theorem trimDirectories_single (sep : Char) (ds : List (List Char)) (c : CandidateFile)
    (hds : ds ≠ []) (hname : c.DisplayName.toList = joinDirectories sep ds) :
    trimDirectories sep ds [c] = [{ c with DisplayName := String.mk (ds.getLast?.getD []) }] := by
  induction ds generalizing c with
  | nil => exact absurd rfl hds
  | cons d rest ih =>
    cases rest with
    | nil =>
      simp only [joinDirectories] at hname
      have hno : (d ++ [sep]).isPrefixOf c.DisplayName.toList = false := by
        rw [hname]
        cases hp : (d ++ [sep]).isPrefixOf d with
        | false => rfl
        | true =>
          have hl := (List.isPrefixOf_iff_prefix.mp hp).length_le
          simp at hl
      simp only [trimDirectories, List.all_cons, List.all_nil, hno, Bool.false_and,
        Bool.false_eq_true, if_false, List.getLast?_singleton, Option.getD_some]
      rw [← hname]
      rfl
    | cons d2 rest2 =>
      simp only [joinDirectories] at hname
      have hyes : (d ++ [sep]).isPrefixOf c.DisplayName.toList = true := by
        rw [hname, List.isPrefixOf_iff_prefix]
        exact ⟨joinDirectories sep (d2 :: rest2), by simp⟩
      have hrm : removeFirst (d ++ [sep]) c.DisplayName.toList
          = joinDirectories sep (d2 :: rest2) := by
        rw [removeFirst_at_head _ _ (by simp) hyes, hname]
        rw [show d ++ sep :: joinDirectories sep (d2 :: rest2)
              = (d ++ [sep]) ++ joinDirectories sep (d2 :: rest2) by simp]
        rw [List.drop_left]
      unfold trimDirectories
      simp only [List.all_cons, List.all_nil, hyes, Bool.and_true, if_true, List.map_cons,
        List.map_nil]
      rw [ih _ (by simp) (hrm ▸ rfl)]
      simp [List.getLast?_cons_cons]

/-- C28: for every non-empty candidate list, with the setting that marks watched files off,
`TrimChoices` removes one and the same leading text from every display name: there is a number
`k` of leading directory names of the first display name such that these names, each followed by
the separator, form a text that every input display name starts with, and the list left behind
is, up to the order the sorting gives, the input with that text dropped from the head of every
display name; the other fields of a candidate are unchanged; and the display name of a single
candidate is reduced to its last path component. -/
theorem C28_trim_choices_common_leading_text (cfg : Config) (sep : Char)
    (IsWatchedFile : String → Int → Bool) (choices : List CandidateFile)
    (hne : choices ≠ []) (hoff : cfg.ShowFilesWatched = false) :
    ∃ (out : List CandidateFile) (k : Nat),
      TrimChoices cfg sep IsWatchedFile choices = some out
      ∧ (∀ c ∈ choices,
          directoryPrefix sep ((splitOnChar sep (choices.head hne).DisplayName.toList).take k)
            <+: c.DisplayName.toList)
      ∧ List.Perm out (choices.map (dropDisplay (directoryPrefix sep
          ((splitOnChar sep (choices.head hne).DisplayName.toList).take k)).length))
      ∧ (∀ (n : Nat) (c : CandidateFile), candidateKey (dropDisplay n c) = candidateKey c)
      ∧ List.Perm (out.map candidateKey) (choices.map candidateKey)
      ∧ (∀ c : CandidateFile, choices = [c] →
          out = [{ c with DisplayName := String.mk
                            ((splitOnChar sep c.DisplayName.toList).getLast?.getD []) }]) := by
  cases choices with
  | nil => exact absurd rfl hne
  | cons c0 rest =>
    obtain ⟨k, _, hpre, heq⟩ :=
      trimDirectories_leading sep (splitOnChar sep c0.DisplayName.toList) (c0 :: rest)
    have hp := List.perm_insertionSort displayLE
      (trimDirectories sep (splitOnChar sep c0.DisplayName.toList) (c0 :: rest))
    refine ⟨sortByDisplayName (trimDirectories sep (splitOnChar sep c0.DisplayName.toList)
      (c0 :: rest)), k, ?_, ?_, ?_, ?_, ?_, ?_⟩
    · simp [TrimChoices, hoff]
    · exact hpre
    · unfold sortByDisplayName
      simp only [List.head_cons]
      have hp2 := hp
      nth_rewrite 2 [heq] at hp2
      exact hp2
    · intro n c
      rfl
    · have hm := hp.map candidateKey
      rw [trimDirectories_keys] at hm
      exact hm
    · intro c hc
      simp only [List.cons.injEq] at hc
      obtain ⟨h0, hr⟩ := hc
      subst h0
      subst hr
      rw [trimDirectories_single sep _ c0 (splitOnChar_ne_nil sep _)
        (joinDirectories_splitOnChar sep _).symm]
      rfl

/-- C28 at a concrete list: three files of one season folder lose the text `Show/S1/`. -/
theorem C28_trim_choices_common_leading_text_witness :
    ∃ (out : List CandidateFile) (k : Nat),
      TrimChoices sampleConfig '/' (fun _ _ => false) folderChoices = some out
      ∧ (∀ c ∈ folderChoices,
          directoryPrefix '/' ((splitOnChar '/'
              (folderChoices.head (by simp [folderChoices])).DisplayName.toList).take k)
            <+: c.DisplayName.toList)
      ∧ List.Perm out (folderChoices.map (dropDisplay (directoryPrefix '/'
          ((splitOnChar '/'
              (folderChoices.head (by simp [folderChoices])).DisplayName.toList).take k)).length))
      ∧ (∀ (n : Nat) (c : CandidateFile), candidateKey (dropDisplay n c) = candidateKey c)
      ∧ List.Perm (out.map candidateKey) (folderChoices.map candidateKey)
      ∧ (∀ c : CandidateFile, folderChoices = [c] →
          out = [{ c with DisplayName := String.mk
                            ((splitOnChar '/' c.DisplayName.toList).getLast?.getD []) }]) :=
  C28_trim_choices_common_leading_text sampleConfig '/' (fun _ _ => false) folderChoices
    (by simp [folderChoices]) rfl

/-- The first loop of `TrimChoices` on the three files of one season folder: every display name
loses `Show/S1/`; and on a single file in two folders the display name becomes the file name. -/
theorem trimDirectories_folderChoices :
    (trimDirectories '/' (splitOnChar '/' "Show/S1/e2.mkv".toList) folderChoices).map
        (fun c => c.DisplayName) = ["e2.mkv", "e1.mkv", "e3.mkv"]
    ∧ (trimDirectories '/' (splitOnChar '/' "Show/S1/e2.mkv".toList)
        (folderChoices.take 1)).map (fun c => c.DisplayName) = ["e2.mkv"] := by
  constructor <;> rfl

end Elementum
